import Mathlib

/-!
# Verification development for the three instruction-set simulators

Shallow embedding of `lc-3/lc-3.c`, `lc-3/lc-3.cpp`, `RiSC/virtual_machine.c` and
`ARM/arm_vm.c`.

Conventions of the embedding:
* machine integers are natural numbers, reduced `% 2^w` wherever the C code
  stores into a `uint16_t` / `unsigned int` object;
* arrays are functions from the index to the stored value; an access whose
  index lies outside the declared array is undefined behaviour in C and is
  reported as a `Fault`;
* host input is the queue of bytes pending on descriptor 0 together with the
  bytes that the buffered stream `stdin` has already taken from it; host output
  is a list of bytes.
-/

/-! ## LC-3 (`lc-3/lc-3.c`, `lc-3/lc-3.cpp`) -/

namespace LC3

/-! ### Enumerations -/

def R_R0 : Nat := 0
def R_R1 : Nat := 1
def R_R2 : Nat := 2
def R_R3 : Nat := 3
def R_R4 : Nat := 4
def R_R5 : Nat := 5
def R_R6 : Nat := 6
def R_R7 : Nat := 7
def R_PC : Nat := 8
def R_COND : Nat := 9
def R_COUNT : Nat := 10

def OP_BR : Nat := 0
def OP_ADD : Nat := 1
def OP_LD : Nat := 2
def OP_ST : Nat := 3
def OP_JSR : Nat := 4
def OP_AND : Nat := 5
def OP_LDR : Nat := 6
def OP_STR : Nat := 7
def OP_RTI : Nat := 8
def OP_NOT : Nat := 9
def OP_LDI : Nat := 10
def OP_STI : Nat := 11
def OP_JMP : Nat := 12
def OP_RES : Nat := 13
def OP_LEA : Nat := 14
def OP_TRAP : Nat := 15

def POS_FL : Nat := 1 <<< 0
def ZRO_FL : Nat := 1 <<< 1
def NEG_FL : Nat := 1 <<< 2

def TRAP_GETC : Nat := 0x20
def TRAP_OUT : Nat := 0x21
def TRAP_PUTS : Nat := 0x22
def TRAP_IN : Nat := 0x23
def TRAP_PUTSP : Nat := 0x24
def TRAP_HALT : Nat := 0x25

def MR_KBSR : Nat := 0xFE00
def MR_KBDR : Nat := 0xFE02

/-- Number of elements of `memory_locations` (`uint16_t memory_locations[UINT16_MAX]`). -/
def UINT16_MAX : Nat := 65535

/-! ### State -/

/-- Reasons for which a step of the interpreter does not produce a next state. -/
inductive Fault where
  /-- The call `abort()` was reached. -/
  | abort
  /-- An array was indexed outside its declared bounds (undefined behaviour). -/
  | out_of_range
  /-- The call `getchar()` found no pending host input. -/
  | blocked
  /-- A loop did not finish within the supplied number of iterations. -/
  | out_of_fuel
  /-- A local variable was read before any assignment to it (`lc-3.cpp`). -/
  | uninitialised
  /-- A null entry of `op_table` was called (`lc-3.cpp`). -/
  | null_call
  deriving DecidableEq, Repr

/-- The globals of `lc-3.c` together with the host console. -/
structure Machine where
  /-- The array `reg[R_COUNT]`. -/
  reg : Nat → Nat
  /-- The array `memory_locations[UINT16_MAX]`. -/
  memory_locations : Nat → Nat
  /-- Bytes pending on descriptor 0 and not yet read by the C library, first
  one first; this is what `select` looks at. -/
  input : List Nat
  /-- Bytes written to standard output, in order. -/
  output : List Nat
  /-- The local `machine_running` of `main`. -/
  machine_running : Bool
  /-- Bytes that an earlier `getchar()` moved into the buffer of the stream
  `stdin` and that have not been returned yet, first one first. -/
  stdin_buffer : List Nat := []
  /-- Size of the buffer of the stream `stdin` (chosen by the C library; the
  programs never call `setvbuf`): one `read` takes at most this many bytes, and
  at least one. -/
  stdin_buffer_size : Nat := 4096
  /-- Descriptor 0 is at end of file once the pending bytes are consumed. -/
  stdin_eof : Bool := false

/-- Assignment `reg[r] = v`. -/
def set_reg (s : Machine) (r v : Nat) : Machine :=
  { s with reg := Function.update s.reg r v }

/-- Every register and every memory word holds a 16-bit value; pending
characters are bytes. -/
def WellFormed (s : Machine) : Prop :=
  (∀ r, s.reg r < 65536) ∧ (∀ a, s.memory_locations a < 65536) ∧ (∀ c ∈ s.input, c < 256)

/-! ### Host input -/

/-- The function `check_key`: `select` on descriptor 0 with a zero timeout
reports the descriptor readable when bytes are pending on it or it is at end of
file.  Bytes that sit in the buffer of the stream `stdin` are not seen. -/
def check_key (s : Machine) : Bool :=
  !s.input.isEmpty || s.stdin_eof

/-- The library call `getchar()` on the buffered stream `stdin`: a byte left in
the stream buffer is returned first; otherwise one `read` moves the pending
bytes (as many as fit the buffer) from the descriptor into the buffer and the
first of them is returned; at end of file the result is `EOF` (`none`); with
nothing to read the call blocks. -/
def getchar (s : Machine) : Except Fault (Option Nat × Machine) :=
  match s.stdin_buffer with
  | c :: rest => .ok (some (c % 256), { s with stdin_buffer := rest })
  | [] =>
    match s.input with
    | c :: rest =>
      .ok (some (c % 256),
        { s with
          input := rest.drop (s.stdin_buffer_size - 1),
          stdin_buffer := rest.take (s.stdin_buffer_size - 1) })
    | [] => if s.stdin_eof then .ok (none, s) else .error .blocked

/-- Conversion to `uint16_t` of the `int` that `getchar()` returns (`EOF` is -1). -/
def getchar_to_u16 (r : Option Nat) : Nat :=
  match r with
  | some c => c % 65536
  | none => 0xFFFF

/-- Conversion to `char` of the `int` that `getchar()` returns, as a byte. -/
def getchar_to_char (r : Option Nat) : Nat :=
  match r with
  | some c => c % 256
  | none => 0xFF

/-! ### Memory -/

/-- The function `mem_write`. -/
def mem_write (s : Machine) (address val : Nat) : Except Fault Machine :=
  if address < UINT16_MAX then
    .ok { s with memory_locations := Function.update s.memory_locations address val }
  else
    .error .out_of_range

/-- The function `mem_read`; the poll of the keyboard goes through `check_key`
and `getchar`. -/
def mem_read (s : Machine) (address : Nat) : Except Fault (Nat × Machine) :=
  if address < UINT16_MAX then
    if address = MR_KBSR then
      if check_key s then
        match getchar s with
        | .error e => .error e
        | .ok (r, s1) =>
          let m1 := Function.update s1.memory_locations MR_KBSR (1 <<< 15)
          let m2 := Function.update m1 MR_KBDR (getchar_to_u16 r)
          .ok (m2 address, { s1 with memory_locations := m2 })
      else
        let m1 := Function.update s.memory_locations MR_KBSR 0
        .ok (m1 address, { s with memory_locations := m1 })
    else
      .ok (s.memory_locations address, s)
  else
    .error .out_of_range

/-! ### Helpers -/

/-- The function `sign_extension` (the same text in `lc-3.c` and `lc-3.cpp`).
The C code is meaningful for `1 ≤ bit_count`; the shifts are taken in `int`
and the result is stored back into the `uint16_t` parameter. -/
def sign_extension (x : Nat) (bit_count : Nat) : Nat :=
  if (x >>> (bit_count - 1)) &&& 1 ≠ 0 then
    (x ||| (0xFFFF <<< bit_count)) % 65536
  else
    x

/-- The function `update_cond_flags`. -/
def update_cond_flags (s : Machine) (r : Nat) : Machine :=
  if s.reg r = 0 then
    set_reg s R_COND ZRO_FL
  else if s.reg r >>> 15 ≠ 0 then
    set_reg s R_COND NEG_FL
  else
    set_reg s R_COND POS_FL

/-! ### Instruction handlers (the cases of the `switch` in `main`) -/

/-- The case `OP_ADD`. -/
def exec_add (s : Machine) (instr : Nat) : Machine :=
  let r0 := (instr >>> 9) &&& 0x7
  let r1 := (instr >>> 6) &&& 0x7
  let imm_flag := (instr >>> 5) &&& 0x1
  let s1 :=
    if imm_flag ≠ 0 then
      let imm5_value := sign_extension (instr &&& 0x1F) 5
      set_reg s r0 ((s.reg r1 + imm5_value) % 65536)
    else
      let r2 := instr &&& 0x7
      set_reg s r0 ((s.reg r1 + s.reg r2) % 65536)
  update_cond_flags s1 r0

/-- The case `OP_AND`; the source computes the result with `+` here as well. -/
def exec_and (s : Machine) (instr : Nat) : Machine :=
  let r0 := (instr >>> 9) &&& 0x7
  let r1 := (instr >>> 6) &&& 0x7
  let imm_flag := (instr >>> 5) &&& 0x1
  let s1 :=
    if imm_flag ≠ 0 then
      let imm5_value := sign_extension (instr &&& 0x1F) 5
      set_reg s r0 ((s.reg r1 + imm5_value) % 65536)
    else
      let r2 := instr &&& 0x7
      set_reg s r0 ((s.reg r1 + s.reg r2) % 65536)
  update_cond_flags s1 r0

/-- The case `OP_NOT`: `~` on the promoted value, stored into 16 bits. -/
def exec_not (s : Machine) (instr : Nat) : Machine :=
  let r0 := (instr >>> 9) &&& 0x7
  let r1 := (instr >>> 6) &&& 0x7
  update_cond_flags (set_reg s r0 (65535 - s.reg r1 % 65536)) r0

/-- The case `OP_BR`. -/
def exec_br (s : Machine) (instr : Nat) : Machine :=
  let pc_offset := sign_extension (instr &&& 0x1FF) 9
  let conditional_flag := (instr >>> 9) &&& 0x7
  if conditional_flag &&& s.reg R_COND ≠ 0 then
    set_reg s R_PC ((s.reg R_PC + pc_offset) % 65536)
  else
    s

/-- The case `OP_JMP`. -/
def exec_jmp (s : Machine) (instr : Nat) : Machine :=
  let r1 := (instr >>> 6) &&& 0x7
  set_reg s R_PC (s.reg r1)

/-- The case `OP_JSR`. -/
def exec_jsr (s : Machine) (instr : Nat) : Machine :=
  let long_flag := (instr >>> 11) &&& 1
  let s1 := set_reg s R_R7 (s.reg R_PC)
  if long_flag ≠ 0 then
    let long_pc_offset := sign_extension (instr &&& 0x7FF) 11
    set_reg s1 R_PC ((s1.reg R_PC + long_pc_offset) % 65536)
  else
    let r1 := (instr >>> 6) &&& 0x7
    set_reg s1 R_PC (s1.reg r1)

/-- The case `OP_LD`. -/
def exec_ld (s : Machine) (instr : Nat) : Except Fault Machine :=
  let r0 := (instr >>> 9) &&& 0x7
  let pc_offset := sign_extension (instr &&& 0x1FF) 9
  match mem_read s ((s.reg R_PC + pc_offset) % 65536) with
  | .error e => .error e
  | .ok (v, s1) => .ok (update_cond_flags (set_reg s1 r0 v) r0)

/-- The case `OP_LDR`. -/
def exec_ldr (s : Machine) (instr : Nat) : Except Fault Machine :=
  let r0 := (instr >>> 9) &&& 0x7
  let r1 := (instr >>> 6) &&& 0x7
  let offset := sign_extension (instr &&& 0x3F) 6
  match mem_read s ((s.reg r1 + offset) % 65536) with
  | .error e => .error e
  | .ok (v, s1) => .ok (update_cond_flags (set_reg s1 r0 v) r0)

/-- The case `OP_LEA`. -/
def exec_lea (s : Machine) (instr : Nat) : Machine :=
  let r0 := (instr >>> 9) &&& 0x7
  let pc_offset := sign_extension (instr &&& 0x1FF) 9
  update_cond_flags (set_reg s r0 ((s.reg R_PC + pc_offset) % 65536)) r0

/-- The case `OP_ST`. -/
def exec_st (s : Machine) (instr : Nat) : Except Fault Machine :=
  let r1 := (instr >>> 9) &&& 0x7
  let pc_offset := sign_extension (instr &&& 0x1FF) 9
  mem_write s ((s.reg R_PC + pc_offset) % 65536) (s.reg r1)

/-- The case `OP_STI`. -/
def exec_sti (s : Machine) (instr : Nat) : Except Fault Machine :=
  let r1 := (instr >>> 9) &&& 0x7
  let pc_offset := sign_extension (instr &&& 0x1FF) 9
  match mem_read s ((s.reg R_PC + pc_offset) % 65536) with
  | .error e => .error e
  | .ok (a, s1) => mem_write s1 a (s1.reg r1)

/-- The case `OP_STR`. -/
def exec_str (s : Machine) (instr : Nat) : Except Fault Machine :=
  let r1 := (instr >>> 9) &&& 0x7
  let r2 := (instr >>> 6) &&& 0x7
  let offset := sign_extension (instr &&& 0x3F) 6
  mem_write s ((s.reg r2 + offset) % 65536) (s.reg r1)

/-! ### Trap routines -/

/-- Conversion `(uint16_t)c` of a `char` holding the byte `c` (`char` signed). -/
def char_to_u16 (c : Nat) : Nat :=
  if c % 256 < 128 then c % 256 else c % 256 + 0xFF00

/-- The loop of `TRAP_PUTS`; `c` is the index the pointer refers to. -/
def puts_loop : Nat → Machine → Nat → Except Fault Machine
  | 0, _, _ => .error .out_of_fuel
  | fuel + 1, s, c =>
    if c < UINT16_MAX then
      if s.memory_locations c ≠ 0 then
        puts_loop fuel { s with output := s.output ++ [s.memory_locations c % 256] } (c + 1)
      else
        .ok s
    else
      .error .out_of_range

/-- The loop of `TRAP_PUTSP` as written in `lc-3.c`: the pointer is not advanced. -/
def putsp_loop : Nat → Machine → Nat → Except Fault Machine
  | 0, _, _ => .error .out_of_fuel
  | fuel + 1, s, c =>
    if c < UINT16_MAX then
      if s.memory_locations c ≠ 0 then
        let char_1 := s.memory_locations c &&& 0xFF
        let char_2 := (s.memory_locations c >>> 8) % 256
        let s1 := { s with output := s.output ++ [char_1] }
        let s2 := if char_2 ≠ 0 then { s1 with output := s1.output ++ [char_2] } else s1
        putsp_loop fuel s2 c
      else
        .ok s
    else
      .error .out_of_range

/-- The case `OP_TRAP`. -/
def exec_trap (fuel : Nat) (s : Machine) (instr : Nat) : Except Fault Machine :=
  let code := instr &&& 0xFF
  if code = TRAP_GETC then
    match getchar s with
    | .error e => .error e
    | .ok (r, s1) => .ok (set_reg s1 R_R0 (getchar_to_u16 r))
  else if code = TRAP_OUT then
    .ok { s with output := s.output ++ [s.reg R_R0 % 256] }
  else if code = TRAP_PUTS then
    puts_loop fuel s (s.reg R_R0)
  else if code = TRAP_IN then
    let s0 := { s with output := s.output ++ ("Enter a character: ".toList.map Char.toNat) }
    match getchar s0 with
    | .error e => .error e
    | .ok (r, s1) =>
      let c := getchar_to_char r
      .ok (set_reg { s1 with output := s1.output ++ [c] } R_R0 (char_to_u16 c))
  else if code = TRAP_PUTSP then
    putsp_loop fuel s (s.reg R_R0)
  else if code = TRAP_HALT then
    .ok { s with
      output := s.output ++ ("HALT\n".toList.map Char.toNat),
      machine_running := false }
  else
    .ok s

/-! ### Run loop -/

/-- The `switch(opcode_)` of `main`. -/
def execute (fuel : Nat) (s : Machine) (instr : Nat) : Except Fault Machine :=
  let opcode_ := instr >>> 12
  if opcode_ = OP_ADD then .ok (exec_add s instr)
  else if opcode_ = OP_AND then .ok (exec_and s instr)
  else if opcode_ = OP_NOT then .ok (exec_not s instr)
  else if opcode_ = OP_BR then .ok (exec_br s instr)
  else if opcode_ = OP_JMP then .ok (exec_jmp s instr)
  else if opcode_ = OP_JSR then .ok (exec_jsr s instr)
  else if opcode_ = OP_LD then exec_ld s instr
  else if opcode_ = OP_LDR then exec_ldr s instr
  else if opcode_ = OP_LEA then .ok (exec_lea s instr)
  else if opcode_ = OP_ST then exec_st s instr
  else if opcode_ = OP_STI then exec_sti s instr
  else if opcode_ = OP_STR then exec_str s instr
  else if opcode_ = OP_TRAP then exec_trap fuel s instr
  else .error .abort

/-- The fetch `mem_read(reg[R_PC]++)`: the word read and the state in which
the program counter has been incremented. -/
def fetch (s : Machine) : Except Fault (Nat × Machine) :=
  mem_read (set_reg s R_PC ((s.reg R_PC + 1) % 65536)) (s.reg R_PC)

/-- One iteration of the body of `while(machine_running)`. -/
def step (fuel : Nat) (s : Machine) : Except Fault Machine :=
  match fetch s with
  | .error e => .error e
  | .ok (instr, s1) => execute fuel s1 instr

/-- The loop `while(machine_running)`, for at most `n` iterations. -/
def run (fuel : Nat) : Nat → Machine → Except Fault Machine
  | 0, s => if s.machine_running then .error .out_of_fuel else .ok s
  | n + 1, s =>
    if s.machine_running then
      match step fuel s with
      | .error e => .error e
      | .ok s1 => run fuel n s1
    else
      .ok s

/-! ### Specification helpers and concrete states -/

/-- Sign classification of a 16-bit result: the flag that describes it. -/
def sign_flag (v : Nat) : Nat :=
  if v = 0 then ZRO_FL else if v.testBit 15 then NEG_FL else POS_FL

/-- A state about to execute `ADD R3, R1, R2` (word `0x1642`) at `0x3000`,
with `R1 = 5` and `R2 = 7`. -/
def add_state : Machine :=
  { reg := fun r => if r = 1 then 5 else if r = 2 then 7 else if r = 8 then 0x3000 else 0,
    memory_locations := fun a => if a = 0x3000 then 0x1642 else 0,
    input := [], output := [], machine_running := true }

/-- A state whose program counter is the keyboard status address, with no
pending input and a non-zero word stored at that address. -/
def br_kbsr_state : Machine :=
  { reg := fun r => if r = 8 then 0xFE00 else if r = 9 then 2 else 0,
    memory_locations := fun a => if a = 0xFE00 then 1 else 0,
    input := [], output := [], machine_running := true }

/-- A state about to execute `BRz +2` (word `0x0402`) at `0x3000` with the
zero flag set. -/
def br_taken_state : Machine :=
  { reg := fun r => if r = 8 then 0x3000 else if r = 9 then 2 else 0,
    memory_locations := fun a => if a = 0x3000 then 0x0402 else 0,
    input := [], output := [], machine_running := true }

/-- A state with the character `A` pending on the keyboard. -/
def key_state : Machine :=
  { reg := fun r => if r = 8 then 0x3000 else 0,
    memory_locations := fun _ => 0,
    input := [65], output := [], machine_running := true }

/-- A state with the characters `A` and `B` pending on descriptor 0 and an
empty stream buffer. -/
def key_two_state : Machine :=
  { reg := fun r => if r = 8 then 0x3000 else 0,
    memory_locations := fun _ => 0,
    input := [0x41, 0x42], output := [], machine_running := true }

/-- A state in which `R3` holds a value with bit 15 set. -/
def neg_state : Machine :=
  { reg := fun r => if r = 3 then 0x8001 else 0,
    memory_locations := fun _ => 0,
    input := [], output := [], machine_running := true }

/-- A state about to execute `TRAP 0x25` (word `0xF025`) at `0x3000`, followed
in memory by further instruction words. -/
def halt_state : Machine :=
  { reg := fun r => if r = 8 then 0x3000 else if r = 0 then 77 else 0,
    memory_locations := fun a => if a = 0x3000 then 0xF025 else if a = 0x3001 then 0x1642 else 0,
    input := [], output := [], machine_running := true }

/-- A state about to execute `LDI R0, #0` (word `0xA000`) at `0x3000`. -/
def ldi_state : Machine :=
  { reg := fun r => if r = 8 then 0x3000 else 0,
    memory_locations := fun a => if a = 0x3000 then 0xA000 else 0,
    input := [], output := [], machine_running := true }

/-- A state about to execute `JSRR R7` (word `0x41C0`) at `0x3000` with
`R7 = 0x4000`. -/
def jsrr_state : Machine :=
  { reg := fun r => if r = 8 then 0x3000 else if r = 7 then 0x4000 else 0,
    memory_locations := fun a => if a = 0x3000 then 0x41C0 else 0,
    input := [], output := [], machine_running := true }

/-- A state about to execute `JSRR R2` (word `0x4080`) at `0x3000` with
`R2 = 0x4000`. -/
def jsrr_r2_state : Machine :=
  { reg := fun r => if r = 8 then 0x3000 else if r = 2 then 0x4000 else 0,
    memory_locations := fun a => if a = 0x3000 then 0x4080 else 0,
    input := [], output := [], machine_running := true }

/-- A state about to execute `TRAP 0x24` (word `0xF024`) at `0x3000`, with
`R0 = 0x4000`, the packed characters `H`, `e` at `0x4000` and a zero word
at `0x4001`. -/
def putsp_state : Machine :=
  { reg := fun r => if r = 8 then 0x3000 else if r = 0 then 0x4000 else 0,
    memory_locations := fun a => if a = 0x3000 then 0xF024 else if a = 0x4000 then 0x6548 else 0,
    input := [], output := [], machine_running := true }

/-- A state about to execute `AND R3, R1, R2` (word `0x5642`) at `0x3000`,
with `R1 = 6`, `R2 = 3` and `R3 = 0x00F0`. -/
def and_state : Machine :=
  { reg := fun r =>
      if r = 1 then 6 else if r = 2 then 3 else if r = 3 then 0x00F0
      else if r = 8 then 0x3000 else 0,
    memory_locations := fun a => if a = 0x3000 then 0x5642 else 0,
    input := [], output := [], machine_running := true }

/-- A state about to execute `LEA R0, #2` (word `0xE002`) at `0x3000`. -/
def lea_state : Machine :=
  { reg := fun r => if r = 8 then 0x3000 else 0,
    memory_locations := fun a => if a = 0x3000 then 0xE002 else 0,
    input := [], output := [], machine_running := true }

/-! ### The table-dispatch interpreter (`lc-3/lc-3.cpp`)

The helper functions `sign_extension`, `update_cond_flags`, `mem_read` and
`mem_write` have the same text in both files.  The locals of `instruction<op>`
are declared without initialiser; a local is `none` until it is assigned. -/

/-- Reading a local of `instruction<op>`, followed by the code `k` that uses
the value. -/
def with_local (v : Option Nat) (k : Nat → Except Fault Machine) : Except Fault Machine :=
  match v with
  | some x => k x
  | none => .error .uninitialised

/-- A block `if(mask & opbit) { ... }` of `instruction<op>`. -/
def when_bit (mask opbit : Nat) (f : Machine → Except Fault Machine) (s : Machine) :
    Except Fault Machine :=
  if mask &&& opbit ≠ 0 then f s else .ok s

/-- The loop of `TRAP_PUTSP` as written in `lc-3.cpp`: the pointer advances. -/
def putsp_loop_cpp : Nat → Machine → Nat → Except Fault Machine
  | 0, _, _ => .error .out_of_fuel
  | fuel + 1, s, c =>
    if c < UINT16_MAX then
      if s.memory_locations c ≠ 0 then
        let char_1 := s.memory_locations c &&& 0xFF
        let char_2 := (s.memory_locations c >>> 8) % 256
        let s1 := { s with output := s.output ++ [char_1] }
        let s2 := if char_2 ≠ 0 then { s1 with output := s1.output ++ [char_2] } else s1
        putsp_loop_cpp fuel s2 (c + 1)
      else
        .ok s
    else
      .error .out_of_range

/-- The block `if(0x8000 & opbit)` of `instruction<op>`: the trap routines. -/
def trap_cpp (fuel : Nat) (s : Machine) (instr : Nat) : Except Fault Machine :=
  let code := instr &&& 0xFF
  if code = TRAP_GETC then
    match getchar s with
    | .error e => .error e
    | .ok (r, s1) => .ok (set_reg s1 R_R0 (getchar_to_u16 r))
  else if code = TRAP_OUT then
    .ok { s with output := s.output ++ [s.reg R_R0 % 256] }
  else if code = TRAP_PUTS then
    puts_loop fuel s (s.reg R_R0)
  else if code = TRAP_IN then
    let s0 := { s with output := s.output ++ ("Enter a character: ".toList.map Char.toNat) }
    match getchar s0 with
    | .error e => .error e
    | .ok (r, s1) =>
      let c := getchar_to_char r
      .ok (set_reg { s1 with output := s1.output ++ [c] } R_R0 (char_to_u16 c))
  else if code = TRAP_PUTSP then
    putsp_loop_cpp fuel s (s.reg R_R0)
  else if code = TRAP_HALT then
    .ok { s with
      output := s.output ++ ("HALT\n".toList.map Char.toNat),
      machine_running := false }
  else
    .ok s

/-- The blocks of `instruction<op>` that follow the decoding of the operands,
in source order. -/
def instruction_blocks (fuel opbit : Nat) (instr : Nat)
    (r0 r1 r2 imm5 imm_flag pc_plus_offset base_plus_offset : Option Nat) (s : Machine) :
    Except Fault Machine :=
  (when_bit 0x0001 opbit (fun s =>
      let conditional_ := (instr >>> 9) &&& 0x7
      if conditional_ &&& s.reg R_COND ≠ 0 then
        with_local pc_plus_offset fun pc_plus_offset => .ok (set_reg s R_PC pc_plus_offset)
      else
        .ok s) s).bind fun s =>
  (when_bit 0x0002 opbit (fun s =>
      with_local imm_flag fun imm_flag =>
        if imm_flag ≠ 0 then
          with_local r0 fun r0 => with_local r1 fun r1 => with_local imm5 fun imm5 =>
            .ok (set_reg s r0 ((s.reg r1 + imm5) % 65536))
        else
          with_local r0 fun r0 => with_local r1 fun r1 => with_local r2 fun r2 =>
            .ok (set_reg s r0 ((s.reg r1 + s.reg r2) % 65536))) s).bind fun s =>
  (when_bit 0x0200 opbit (fun s =>
      with_local r0 fun r0 => with_local r1 fun r1 =>
        .ok (set_reg s r0 (65535 - s.reg r1 % 65536))) s).bind fun s =>
  (when_bit 0x1000 opbit (fun s =>
      with_local r1 fun r1 => .ok (set_reg s R_PC (s.reg r1))) s).bind fun s =>
  (when_bit 0x0010 opbit (fun s =>
      let long_flag := (instr >>> 11) &&& 1
      let s1 := set_reg s R_R7 (s.reg R_PC)
      if long_flag ≠ 0 then
        let pc_plus_offset := (s1.reg R_PC + sign_extension (instr &&& 0x7FF) 11) % 65536
        .ok (set_reg s1 R_PC pc_plus_offset)
      else
        with_local r1 fun r1 => .ok (set_reg s1 R_PC (s1.reg r1))) s).bind fun s =>
  (when_bit 0x0004 opbit (fun s =>
      with_local r0 fun r0 => with_local pc_plus_offset fun pc_plus_offset =>
        match mem_read s pc_plus_offset with
        | .error e => .error e
        | .ok (v, s1) => .ok (set_reg s1 r0 v)) s).bind fun s =>
  (when_bit 0x0400 opbit (fun s =>
      with_local r0 fun r0 => with_local pc_plus_offset fun pc_plus_offset =>
        match mem_read s pc_plus_offset with
        | .error e => .error e
        | .ok (a, s1) =>
          match mem_read s1 a with
          | .error e => .error e
          | .ok (v, s2) => .ok (set_reg s2 r0 v)) s).bind fun s =>
  (when_bit 0x0040 opbit (fun s =>
      with_local r0 fun r0 => with_local base_plus_offset fun base_plus_offset =>
        match mem_read s base_plus_offset with
        | .error e => .error e
        | .ok (v, s1) => .ok (set_reg s1 r0 v)) s).bind fun s =>
  (when_bit 0x4000 opbit (fun s =>
      with_local r0 fun r0 => with_local base_plus_offset fun base_plus_offset =>
        .ok (set_reg s r0 base_plus_offset)) s).bind fun s =>
  (when_bit 0x0008 opbit (fun s =>
      with_local pc_plus_offset fun pc_plus_offset => with_local r0 fun r0 =>
        mem_write s pc_plus_offset (s.reg r0)) s).bind fun s =>
  (when_bit 0x0800 opbit (fun s =>
      with_local pc_plus_offset fun pc_plus_offset => with_local r0 fun r0 =>
        match mem_read s pc_plus_offset with
        | .error e => .error e
        | .ok (a, s1) => mem_write s1 a (s1.reg r0)) s).bind fun s =>
  (when_bit 0x0080 opbit (fun s =>
      with_local base_plus_offset fun base_plus_offset => with_local r0 fun r0 =>
        mem_write s base_plus_offset (s.reg r0)) s).bind fun s =>
  (when_bit 0x8000 opbit (fun s => trap_cpp fuel s instr) s).bind fun s =>
  when_bit 0x4666 opbit (fun s => with_local r0 fun r0 => .ok (update_cond_flags s r0)) s

/-- The function template `instruction<op>`: the operands are decoded into the
locals selected by the bit of `op` in each mask, then the blocks run. -/
def instruction (fuel op : Nat) (s : Machine) (instr : Nat) : Except Fault Machine :=
  let opbit := (1 <<< op) % 65536
  let r0 : Option Nat := if 0x4EEE &&& opbit ≠ 0 then some ((instr >>> 9) &&& 0x7) else none
  let r1 : Option Nat := if 0x12F3 &&& opbit ≠ 0 then some ((instr >>> 6) &&& 0x7) else none
  let imm_flag : Option Nat :=
    if 0x0022 &&& opbit ≠ 0 then some ((instr >>> 5) &&& 0x1) else none
  let imm5 : Option Nat :=
    if 0x0022 &&& opbit ≠ 0 then
      if (instr >>> 5) &&& 0x1 ≠ 0 then some (sign_extension (instr &&& 0x1F) 5) else none
    else
      none
  let r2 : Option Nat :=
    if 0x0022 &&& opbit ≠ 0 then
      if (instr >>> 5) &&& 0x1 ≠ 0 then none else some (instr &&& 0x7)
    else
      none
  let pc_plus_offset : Option Nat :=
    if 0x4C0D &&& opbit ≠ 0 then
      some ((s.reg R_PC + sign_extension (instr &&& 0x1FF) 9) % 65536)
    else
      none
  if 0x00C0 &&& opbit ≠ 0 then
    with_local r1 fun r =>
      instruction_blocks fuel opbit instr r0 r1 r2 imm5 imm_flag pc_plus_offset
        (some ((s.reg r + sign_extension (instr &&& 0x3F) 6) % 65536)) s
  else
    instruction_blocks fuel opbit instr r0 r1 r2 imm5 imm_flag pc_plus_offset none s

/-- One iteration of the body of `while(machine_running)` in `lc-3.cpp`: the
fetch, then the call `op_table[op](instr)`; the entries 8 and 13 of the table
are null. -/
def step_cpp (fuel : Nat) (s : Machine) : Except Fault Machine :=
  match fetch s with
  | .error e => .error e
  | .ok (instr, s1) =>
    let op := instr >>> 12
    if 16 ≤ op then .error .out_of_range
    else if op = 8 ∨ op = 13 then .error .null_call
    else instruction fuel op s1 instr

end LC3

/-! ## RiSC-16 (`RiSC/virtual_machine.c`, `RiSC/main.c`) -/

namespace RiSC

def NUM_REGISTERS : Nat := 8
def WORD_SIZE : Nat := 16
def MEMORY_SIZE : Nat := 0xffff
def STACK_BOTTOM : Nat := MEMORY_SIZE

def ADD : Nat := 0x000
def ADDI : Nat := 0x001
def NAND : Nat := 0x002
def LUI : Nat := 0x003
def SW : Nat := 0x004
def LW : Nat := 0x005
def BEQ : Nat := 0x006
def JALR : Nat := 0x007

def MASK_OPCODE : Nat := 0xe000
def MASK_REG_A : Nat := 0x1c00
def MASK_REG_B : Nat := 0x0380
def MASK_REG_C : Nat := 0x0007
def MASK_SIMM : Nat := 0x007f
def MASK_UIMM : Nat := 0x03ff

/-- The struct `data_t`. -/
structure data_t where
  data_size : Nat
  data_start : Nat
  text_header : Nat
  text_size : Nat
  text_start : Nat

/-- The struct `instruction_t`. -/
structure instruction_t where
  opcode : Nat
  reg0 : Nat
  reg1 : Nat
  reg2 : Nat
  simm : Nat
  uimm : Nat
  deriving DecidableEq, Repr

/-- The struct `RiSC_VM`; `program` has `MEMORY_SIZE` elements. -/
structure RiSC_VM where
  regs : Nat → Nat
  program : Nat → Nat
  pc : Nat
  data : data_t
  current_instruction : instruction_t
  running : Bool

/-- Every register, the program counter and every memory word is a 16-bit value. -/
def WellFormedVM (vm : RiSC_VM) : Prop :=
  (∀ r, vm.regs r < 65536) ∧ (∀ a, vm.program a < 65536) ∧ vm.pc < 65536

/-- The function `sign_n_bits`, returning the new value of `*s`.  The
comparison and the subtraction are carried out on `double`s, which are exact
here; the conversion of the difference back to `uint16_t` is taken modulo
`2^16`.  For `n = 0` the unsigned `n - 1` wraps around, `pow` yields infinity
and the comparison fails. -/
def sign_n_bits (s : Nat) (n : Nat) : Nat :=
  if n = 0 then
    s
  else if (s : Int) > 2 ^ (n - 1) - 1 then
    (((s : Int) - 2 ^ n) % 65536).toNat
  else
    s

/-- The function `vm_fetch`. -/
def vm_fetch (vm : RiSC_VM) : RiSC_VM :=
  let vm1 :=
    if vm.pc ≥ vm.data.text_header + vm.data.text_size then
      { vm with running := false }
    else
      vm
  { vm1 with pc := (vm1.pc + 1) % 65536 }

/-- The body of `vm_decode` once the instruction word `instr` has been read. -/
def vm_decode_word (vm : RiSC_VM) (instr : Nat) : RiSC_VM :=
  let opcode := (instr &&& MASK_OPCODE) >>> (16 - 3)
  let reg0 := (instr &&& MASK_REG_A) >>> (16 - 6)
  let reg1 := (instr &&& MASK_REG_B) >>> (16 - 9)
  let reg2 := instr &&& MASK_REG_C
  let simm_value := instr &&& MASK_SIMM
  let uimm_value := instr &&& MASK_UIMM
  let simm_value := sign_n_bits simm_value 7
  let regs1 := if reg0 = 0 then Function.update vm.regs reg0 0 else vm.regs
  let regs2 := if reg1 = 0 then Function.update regs1 reg1 0 else regs1
  let regs3 := if reg2 = 0 then Function.update regs2 reg2 0 else regs2
  { vm with
    regs := regs3,
    current_instruction :=
      { opcode := opcode, reg0 := reg0, reg1 := reg1, reg2 := reg2,
        simm := simm_value, uimm := uimm_value } }

/-- The function `vm_decode`: the word is read from `program[pc - 1]`, an index
outside the array when `pc = 0`. -/
def vm_decode (vm : RiSC_VM) : Option RiSC_VM :=
  if vm.pc = 0 then none else some (vm_decode_word vm (vm.program (vm.pc - 1)))

/-- The function `vm_execute` (printing left out).  `none` stands for an access
to `program` outside its `MEMORY_SIZE` elements. -/
def vm_execute (vm : RiSC_VM) : Option RiSC_VM :=
  let opcode := vm.current_instruction.opcode
  let reg0 := vm.current_instruction.reg0
  let reg1 := vm.current_instruction.reg1
  let reg2 := vm.current_instruction.reg2
  let simm_value := vm.current_instruction.simm
  let uimm_value := vm.current_instruction.uimm
  if opcode = ADD then
    some { vm with regs := Function.update vm.regs reg0 ((vm.regs reg1 + vm.regs reg2) % 65536) }
  else if opcode = ADDI then
    some { vm with regs := Function.update vm.regs reg0 ((vm.regs reg1 + simm_value) % 65536) }
  else if opcode = NAND then
    some { vm with
      regs := Function.update vm.regs reg0 (65535 - (vm.regs reg1 &&& vm.regs reg2) % 65536) }
  else if opcode = LUI then
    some { vm with regs := Function.update vm.regs reg0 ((uimm_value <<< 6) % 65536) }
  else if opcode = SW then
    if vm.regs reg1 + simm_value < MEMORY_SIZE then
      some { vm with
        program := Function.update vm.program (vm.regs reg1 + simm_value) (vm.regs reg0) }
    else
      none
  else if opcode = LW then
    if vm.regs reg1 + simm_value < MEMORY_SIZE then
      some { vm with
        regs := Function.update vm.regs reg0 (vm.program (vm.regs reg1 + simm_value)) }
    else
      none
  else if opcode = BEQ then
    if vm.regs reg0 = vm.regs reg1 then
      some { vm with pc := (vm.pc + simm_value) % 65536 }
    else
      some vm
  else if opcode = JALR then
    let regs1 := Function.update vm.regs reg0 vm.pc
    some { vm with regs := regs1, pc := regs1 reg1 }
  else
    some vm

/-- One iteration of the loop of `main`: `vm_fetch`, `vm_decode`, `vm_execute`. -/
def vm_step (vm : RiSC_VM) : Option RiSC_VM :=
  match vm_decode (vm_fetch vm) with
  | none => none
  | some vm1 => vm_execute vm1

/-- Reading a register in the reference semantics of the hard-wired zero
register: register 0 reads as 0. -/
def get_ref (vm : RiSC_VM) (r : Nat) : Nat :=
  if r = 0 then 0 else vm.regs r

/-- Reference semantics of `vm_execute` for the read side of the zero register:
the text of `vm_execute` with every register read `vm->regs[r]` replaced by
`get_ref`. -/
def vm_execute_ref (vm : RiSC_VM) : Option RiSC_VM :=
  let opcode := vm.current_instruction.opcode
  let reg0 := vm.current_instruction.reg0
  let reg1 := vm.current_instruction.reg1
  let reg2 := vm.current_instruction.reg2
  let simm_value := vm.current_instruction.simm
  let uimm_value := vm.current_instruction.uimm
  if opcode = ADD then
    some { vm with
      regs := Function.update vm.regs reg0 ((get_ref vm reg1 + get_ref vm reg2) % 65536) }
  else if opcode = ADDI then
    some { vm with regs := Function.update vm.regs reg0 ((get_ref vm reg1 + simm_value) % 65536) }
  else if opcode = NAND then
    some { vm with
      regs := Function.update vm.regs reg0 (65535 - (get_ref vm reg1 &&& get_ref vm reg2) % 65536) }
  else if opcode = LUI then
    some { vm with regs := Function.update vm.regs reg0 ((uimm_value <<< 6) % 65536) }
  else if opcode = SW then
    if get_ref vm reg1 + simm_value < MEMORY_SIZE then
      some { vm with
        program := Function.update vm.program (get_ref vm reg1 + simm_value) (get_ref vm reg0) }
    else
      none
  else if opcode = LW then
    if get_ref vm reg1 + simm_value < MEMORY_SIZE then
      some { vm with
        regs := Function.update vm.regs reg0 (vm.program (get_ref vm reg1 + simm_value)) }
    else
      none
  else if opcode = BEQ then
    if get_ref vm reg0 = get_ref vm reg1 then
      some { vm with pc := (vm.pc + simm_value) % 65536 }
    else
      some vm
  else if opcode = JALR then
    let vm1 := { vm with regs := Function.update vm.regs reg0 vm.pc }
    some { vm1 with pc := get_ref vm1 reg1 }
  else
    some vm

/-- The function `vm_init` once `load_from_file` has filled `program` (file
handling and printing left out).  `none` stands for the read of
`program[d->data_start + d->data_size]` outside the array. -/
def vm_init (program : Nat → Nat) : Option RiSC_VM :=
  let regs : Nat → Nat := Function.update (fun _ => 0) 7 STACK_BOTTOM
  let data_size := program 0
  let data_start := 1
  if data_start + data_size < MEMORY_SIZE then
    let text_size := program (data_start + data_size)
    let text_header := (data_start + data_size) % 65536
    let text_start := (text_header + 1) % 65536
    some
      { regs := regs,
        program := program,
        pc := text_start,
        data :=
          { data_size := data_size, data_start := data_start, text_header := text_header,
            text_size := text_size, text_start := text_start },
        current_instruction :=
          { opcode := 0, reg0 := 0, reg1 := 0, reg2 := 0, simm := 0, uimm := 0 },
        running := true }
  else
    none

/-- The two-complement value of a 7-bit field. -/
def signed7 (k : Nat) : Int :=
  if k < 64 then (k : Int) else (k : Int) - 128

/-- The bitwise definition of sign extension of an `n`-bit field to a 16-bit
word: when the most significant bit of the field is set, the value is ORed
with the mask of all higher bits; otherwise it is left unchanged. -/
def sign_extend_bitwise (s n : Nat) : Nat :=
  if s.testBit (n - 1) then s ||| (0xFFFF - (2 ^ n - 1)) else s

/-! ### Concrete states -/

/-- A state with `regs[1] = 100` and `regs[2] = 42`. -/
def vm_hundred : RiSC_VM :=
  { regs := fun r => if r = 1 then 100 else if r = 2 then 42 else 0,
    program := fun _ => 0,
    pc := 5,
    data := { data_size := 0, data_start := 1, text_header := 1, text_size := 16, text_start := 2 },
    current_instruction := { opcode := 0, reg0 := 0, reg1 := 0, reg2 := 0, simm := 0, uimm := 0 },
    running := true }

/-- A loaded image with no data words and two text words: `program[0] = 0`
(data size), `program[1] = 2` (text size), instructions at addresses 2 and 3. -/
def two_word_program : Nat → Nat :=
  fun a => if a = 1 then 2 else if a = 2 then 0x0481 else if a = 3 then 0x0481 else 0

/-- The state that `vm_init` builds from `two_word_program`. -/
def two_word_vm : RiSC_VM :=
  { regs := Function.update (fun _ => 0) 7 STACK_BOTTOM,
    program := two_word_program,
    pc := 2,
    data := { data_size := 0, data_start := 1, text_header := 1, text_size := 2, text_start := 2 },
    current_instruction := { opcode := 0, reg0 := 0, reg1 := 0, reg2 := 0, simm := 0, uimm := 0 },
    running := true }

/-- A state with `regs[0] = 0`, `regs[1] = 5` and `pc = 5`. -/
def vm_five : RiSC_VM :=
  { regs := fun r => if r = 1 then 5 else 0,
    program := fun _ => 0,
    pc := 5,
    data := { data_size := 0, data_start := 1, text_header := 1, text_size := 16, text_start := 2 },
    current_instruction := { opcode := 0, reg0 := 0, reg1 := 0, reg2 := 0, simm := 0, uimm := 0 },
    running := true }

/-- A state about to fetch the word `0xE000` (`jalr r0, r0`) from `program[4]`,
with a stale non-zero value in `regs[0]`. -/
def vm_jalr : RiSC_VM :=
  { regs := fun r => if r = 0 then 7 else 0,
    program := fun a => if a = 4 then 0xE000 else 0,
    pc := 4,
    data := { data_size := 0, data_start := 1, text_header := 1, text_size := 16, text_start := 2 },
    current_instruction := { opcode := 0, reg0 := 0, reg1 := 0, reg2 := 0, simm := 0, uimm := 0 },
    running := true }

/-- A state about to fetch the word `0xE480` (`jalr r1, r1`) from `program[4]`,
with `regs[1] = 100`. -/
def vm_jalr_same : RiSC_VM :=
  { regs := fun r => if r = 1 then 100 else 0,
    program := fun a => if a = 4 then 0xE480 else 0,
    pc := 4,
    data := { data_size := 0, data_start := 1, text_header := 1, text_size := 16, text_start := 2 },
    current_instruction := { opcode := 0, reg0 := 0, reg1 := 0, reg2 := 0, simm := 0, uimm := 0 },
    running := true }

end RiSC

/-! ## ARM subset (`ARM/arm_vm.c`) -/

namespace ARM

def MAX_REGS : Nat := 16
def SP : Nat := 13
def LR : Nat := 14
def PC : Nat := 15
def STACK_SIZE : Nat := 1024

/-- The struct `arm_state` together with the byte-addressed memory that the
code reaches by casting register values to pointers (32-bit addresses,
little-endian words). -/
structure arm_state where
  regs : Nat → Nat
  cpsr : Nat
  /-- The byte stored at each address. -/
  mem : Nat → Nat
  comp_count : Nat
  mem_count : Nat
  br_count : Nat

/-- Registers and `cpsr` hold 32-bit values, memory cells hold bytes. -/
def WellFormedState (s : arm_state) : Prop :=
  (∀ r, s.regs r < 4294967296) ∧ s.cpsr < 4294967296 ∧ (∀ a, s.mem a < 256)

/-- The load `*((unsigned int *) a)`. -/
def read32 (m : Nat → Nat) (a : Nat) : Nat :=
  m (a % 4294967296) + 256 * m ((a + 1) % 4294967296) +
    65536 * m ((a + 2) % 4294967296) + 16777216 * m ((a + 3) % 4294967296)

/-- The store `*((unsigned int *) a) = v`. -/
def write32 (m : Nat → Nat) (a v : Nat) : Nat → Nat :=
  Function.update
    (Function.update
      (Function.update
        (Function.update m (a % 4294967296) (v % 256))
        ((a + 1) % 4294967296) (v / 256 % 256))
      ((a + 2) % 4294967296) (v / 65536 % 256))
    ((a + 3) % 4294967296) (v / 16777216 % 256)

/-- Conversion of an `unsigned int` to `int`. -/
def to_int (x : Nat) : Int :=
  if x % 4294967296 < 2147483648 then (x % 4294967296 : Nat) else (x % 4294967296 : Nat) - 4294967296

/-- The function `set_cpsr_flag`; `result` is an `int`, `result_long` a `long long`. -/
def set_cpsr_flag (s : arm_state) (result : Int) (result_long : Int) : arm_state :=
  let c1 :=
    if result > 2147483647 ∨ result < -2147483648 then
      s.cpsr ||| 0x10000000
    else
      s.cpsr &&& 0xEFFFFFFF
  let c2 :=
    if result_long < 0 ∧ result_long > 4294967295 then
      c1 ||| 0x20000000
    else
      c1 &&& 0xDFFFFFFF
  let c3 :=
    if result < 0 then
      (c2 ||| 0x80000000) &&& 0xBFFFFFFF
    else if result = 0 then
      (c2 ||| 0x40000000) &&& 0x7FFFFFFF
    else
      (c2 &&& 0xBFFFFFFF) &&& 0x7FFFFFFF
  { s with cpsr := c3 }

/-- The function `check_cpsr_flags`; `none` when control reaches the end of
the function without a `return`. -/
def check_cpsr_flags (s : arm_state) (iw : Nat) : Option Bool :=
  let condition := (iw >>> 28) &&& 0b1111
  if condition = 0 then
    some (decide ((s.cpsr >>> 30) &&& 0b1 = 1))
  else if condition = 1 then
    some (decide ((s.cpsr >>> 30) &&& 0b1 = 0))
  else if condition = 11 then
    some (decide ((s.cpsr >>> 28) &&& 0b1 ≠ (s.cpsr >>> 31) &&& 0b1))
  else if condition = 12 then
    some (decide ((s.cpsr >>> 30) &&& 0b1 = 0) &&
      decide ((s.cpsr >>> 31) &&& 0b1 = (s.cpsr >>> 28) &&& 0b1))
  else if condition = 14 then
    some true
  else
    none

def process_data_instruction (iw : Nat) : Bool :=
  decide ((iw >>> 26) &&& 0b11 = 0)

def is_bx_instruction (iw : Nat) : Bool :=
  decide ((iw >>> 4) &&& 0xFFFFFF = 0b000100101111111111110001)

def execute_bx_instruction (s : arm_state) (iw : Nat) : arm_state :=
  let rn := iw &&& 0b1111
  { s with regs := Function.update s.regs PC (s.regs rn) }

def is_branch_instruction (iw : Nat) : Bool :=
  decide ((iw >>> 25) &&& 0b111 = 0b101)

def execute_branch_instruction (s : arm_state) (iw : Nat) : arm_state :=
  let signed_bit := (iw >>> 23) &&& 0b1
  let l_bit := (iw >>> 24) &&& 0b1
  let offset := iw &&& 0xFFFFFF
  let destination := if signed_bit = 0 then offset ||| 0x00000000 else offset ||| 0xFF000000
  let destination := (destination <<< 2) % 4294967296
  let regs1 :=
    if l_bit = 1 then Function.update s.regs LR ((s.regs PC + 4) % 4294967296) else s.regs
  { s with regs := Function.update regs1 PC ((regs1 PC + (destination + 8)) % 4294967296) }

def is_data_transfer_instruction (iw : Nat) : Bool :=
  decide ((iw >>> 26) &&& 0b11 = 0b01)

/-- Conversion `(unsigned int)c` of a `char` holding the byte `c` (`char` signed,
as in the LC-3 part). -/
def char_to_u32 (c : Nat) : Nat :=
  if c % 256 < 128 then c % 256 else c % 256 + 0xFFFFFF00

/-- The function `execute_data_transfer_instruction`; the byte load reads a
`char` and converts it to `unsigned int`. -/
def execute_data_transfer_instruction (s : arm_state) (iw : Nat) : arm_state :=
  let rd := (iw >>> 12) &&& 0xF
  let rn := (iw >>> 16) &&& 0xF
  let l_bit := (iw >>> 20) &&& 0b1
  let w_bit := (iw >>> 21) &&& 0b1
  let b_bit := (iw >>> 22) &&& 0b1
  let u_bit := (iw >>> 23) &&& 0b1
  let p_bit := (iw >>> 24) &&& 0b1
  let i_bit := (iw >>> 25) &&& 0b1
  let modified_base_value := s.regs rn
  let offset_value :=
    if i_bit = 1 then
      (s.regs (iw &&& 0xF) <<< ((iw >>> 7) &&& 0b11111)) % 4294967296
    else
      iw &&& 0xFFF
  let s1 :=
    if b_bit = 1 then
      if l_bit = 1 then
        { s with
          regs := Function.update s.regs rd (char_to_u32 (s.mem (modified_base_value % 4294967296))) }
      else
        s
    else
      if l_bit = 1 then
        { s with regs := Function.update s.regs rd (read32 s.mem modified_base_value) }
      else
        { s with mem := write32 s.mem modified_base_value (s.regs rd) }
  let modified_base_value :=
    if p_bit = 0 then
      if u_bit = 1 then
        (modified_base_value + offset_value) % 4294967296
      else
        (modified_base_value + offset_value) % 4294967296
    else
      modified_base_value
  let s2 :=
    if w_bit = 1 then { s1 with regs := Function.update s1.regs rn modified_base_value } else s1
  { s2 with regs := Function.update s2.regs PC ((s2.regs PC + 4) % 4294967296) }

def is_push (iw : Nat) : Bool :=
  decide ((iw >>> 25) &&& 0b111 = 0b100) && decide ((iw >>> 20) &&& 0b1 = 0b0)

def is_pop (iw : Nat) : Bool :=
  decide ((iw >>> 25) &&& 0b111 = 0b100) && decide ((iw >>> 20) &&& 0b1 = 0b1)

/-- The adjustment of `modified_base_value` by `offset_value = 4`. -/
def adjust_base (u_bit base : Nat) : Nat :=
  if u_bit = 1 then (base + 4) % 4294967296 else (base + (4294967296 - 4)) % 4294967296

/-- The body of the loop of `execute_push` for register `i`; the accumulator
holds `modified_base_value` and the state. -/
def push_body (register_list rn w_bit u_bit p_bit : Nat) (i : Nat)
    (acc : Nat × arm_state) : Nat × arm_state :=
  if (register_list >>> i) &&& 0b1 = 0b1 then
    let base1 := if p_bit = 1 then adjust_base u_bit acc.1 else acc.1
    let s1 := { acc.2 with mem := write32 acc.2.mem base1 (acc.2.regs i) }
    let base2 := if p_bit = 0 then adjust_base u_bit base1 else base1
    let s2 := if w_bit = 1 then { s1 with regs := Function.update s1.regs rn base2 } else s1
    (base2, s2)
  else
    acc

/-- The loop `for(i = n - 1; i >= 0; i--)` of `execute_push`. -/
def push_loop (register_list rn w_bit u_bit p_bit : Nat) :
    Nat → Nat × arm_state → Nat × arm_state
  | 0, acc => acc
  | n + 1, acc =>
    push_loop register_list rn w_bit u_bit p_bit n
      (push_body register_list rn w_bit u_bit p_bit n acc)

def execute_push (s : arm_state) (iw : Nat) : arm_state :=
  let register_list := iw &&& 0xFFFF
  let rn := (iw >>> 16) &&& 0xF
  let w_bit := (iw >>> 21) &&& 0b1
  let u_bit := (iw >>> 23) &&& 0b1
  let p_bit := (iw >>> 24) &&& 0b1
  let s1 := (push_loop register_list rn w_bit u_bit p_bit MAX_REGS (s.regs rn, s)).2
  { s1 with regs := Function.update s1.regs PC ((s1.regs PC + 4) % 4294967296) }

/-- The body of the loop of `execute_pop` for register `i`. -/
def pop_body (register_list rn w_bit u_bit p_bit : Nat) (i : Nat)
    (acc : Nat × arm_state) : Nat × arm_state :=
  if (register_list >>> i) &&& 0b1 = 0b1 then
    let base1 := if p_bit = 1 then adjust_base u_bit acc.1 else acc.1
    let s1 := { acc.2 with regs := Function.update acc.2.regs i (read32 acc.2.mem base1) }
    let base2 := if p_bit = 0 then adjust_base u_bit base1 else base1
    let s2 := if w_bit = 1 then { s1 with regs := Function.update s1.regs rn base2 } else s1
    (base2, s2)
  else
    acc

/-- The loop `for(i = 0; i < n; i++)` of `execute_pop`: the accumulator after
the iterations `0 .. n - 1`. -/
def pop_loop (register_list rn w_bit u_bit p_bit : Nat) :
    Nat → Nat × arm_state → Nat × arm_state
  | 0, acc => acc
  | n + 1, acc =>
    pop_body register_list rn w_bit u_bit p_bit n
      (pop_loop register_list rn w_bit u_bit p_bit n acc)

def execute_pop (s : arm_state) (iw : Nat) : arm_state :=
  let register_list := iw &&& 0xFFFF
  let rn := (iw >>> 16) &&& 0xF
  let w_bit := (iw >>> 21) &&& 0b1
  let u_bit := (iw >>> 23) &&& 0b1
  let p_bit := (iw >>> 24) &&& 0b1
  let s1 := (pop_loop register_list rn w_bit u_bit p_bit MAX_REGS (s.regs rn, s)).2
  { s1 with regs := Function.update s1.regs PC ((s1.regs PC + 4) % 4294967296) }

/-- The function `execute_process_data_instruction`; `none` when `result` and
`result_long` are read without having been assigned. -/
def execute_process_data_instruction (s : arm_state) (iw : Nat) : Option arm_state :=
  let i_bit := (iw >>> 25) &&& 0b1
  let opcode := (iw >>> 21) &&& 0xF
  let s_bit := (iw >>> 20) &&& 0b1
  let rd := (iw >>> 12) &&& 0xF
  let rn := (iw >>> 16) &&& 0xF
  let rm_value := if i_bit = 1 then iw &&& 0xFF else s.regs (iw &&& 0xF)
  let r : Option (arm_state × Int × Int) :=
    if opcode = 2 then
      let s1 := { s with
        regs := Function.update s.regs rd ((s.regs rn + 4294967296 - rm_value % 4294967296) % 4294967296) }
      some (s1, to_int (s1.regs rd), (s1.regs rn : Int) - (rm_value : Int))
    else if opcode = 4 then
      let s1 := { s with regs := Function.update s.regs rd ((s.regs rn + rm_value) % 4294967296) }
      some (s1, to_int (s1.regs rd), (s1.regs rn : Int) + (rm_value : Int))
    else if opcode = 10 then
      some (s, to_int ((s.regs rn + 4294967296 - rm_value % 4294967296) % 4294967296),
        (s.regs rn : Int) - (rm_value : Int))
    else if opcode = 11 then
      some (s, to_int ((s.regs rn + rm_value) % 4294967296), (s.regs rn : Int) + (rm_value : Int))
    else if opcode = 13 then
      let s1 := { s with regs := Function.update s.regs rd rm_value }
      some (s1, to_int (s1.regs rd), (s1.regs rd : Int))
    else if opcode = 15 then
      let s1 := { s with regs := Function.update s.regs rd (4294967295 - rm_value % 4294967296) }
      some (s1, to_int (4294967295 - rm_value % 4294967296), (s1.regs rd : Int))
    else
      none
  if s_bit = 1 then
    match r with
    | some (s1, result, result_long) => some (set_cpsr_flag s1 result result_long)
    | none => none
  else
    match r with
    | some (s1, _, _) => some s1
    | none => some s

/-- The function `arm_state_first_execute`; `none` when `check_cpsr_flags` or
the data-processing handler has no defined result. -/
def arm_state_first_execute (s : arm_state) : Option arm_state :=
  let iw := read32 s.mem (s.regs PC)
  if is_bx_instruction iw then
    let s1 := { s with br_count := (s.br_count + 1) % 4294967296 }
    match check_cpsr_flags s1 iw with
    | none => none
    | some true => some (execute_bx_instruction s1 iw)
    | some false => some s1
  else if is_branch_instruction iw then
    let s1 := { s with br_count := (s.br_count + 1) % 4294967296 }
    match check_cpsr_flags s1 iw with
    | none => none
    | some true => some (execute_branch_instruction s1 iw)
    | some false => some { s1 with regs := Function.update s1.regs PC ((s1.regs PC + 4) % 4294967296) }
  else if process_data_instruction iw then
    let s1 := { s with comp_count := (s.comp_count + 1) % 4294967296 }
    match check_cpsr_flags s1 iw with
    | none => none
    | some true =>
      match execute_process_data_instruction s1 iw with
      | none => none
      | some s2 => some { s2 with regs := Function.update s2.regs PC ((s2.regs PC + 4) % 4294967296) }
    | some false => some { s1 with regs := Function.update s1.regs PC ((s1.regs PC + 4) % 4294967296) }
  else if is_data_transfer_instruction iw then
    let s1 := { s with mem_count := (s.mem_count + 1) % 4294967296 }
    match check_cpsr_flags s1 iw with
    | none => none
    | some true => some (execute_data_transfer_instruction s1 iw)
    | some false => some s1
  else if is_push iw then
    let s1 := { s with mem_count := (s.mem_count + 1) % 4294967296 }
    match check_cpsr_flags s1 iw with
    | none => none
    | some true => some (execute_push s1 iw)
    | some false => some s1
  else if is_pop iw then
    let s1 := { s with mem_count := (s.mem_count + 1) % 4294967296 }
    match check_cpsr_flags s1 iw with
    | none => none
    | some true => some (execute_pop s1 iw)
    | some false => some s1
  else
    some s

/-- The loop of `arm_state_execute`, for at most `n` iterations: the value of
`regs[0]` once `regs[PC]` is 0. -/
def arm_state_execute : Nat → arm_state → Option Nat
  | 0, s => if s.regs PC ≠ 0 then none else some (s.regs 0)
  | n + 1, s =>
    if s.regs PC ≠ 0 then
      match arm_state_first_execute s with
      | none => none
      | some s1 => arm_state_execute n s1
    else
      some (s.regs 0)

/-! ### Concrete states -/

/-- A state with `SP = 0x2000` and `regs[r] = r + 100` for the other registers. -/
def rt_state : arm_state :=
  { regs := fun r => if r = 13 then 0x2000 else if r < 16 then r + 100 else 0,
    cpsr := 0, mem := fun _ => 0, comp_count := 0, mem_count := 0, br_count := 0 }

/-- The state after `stmdb sp!, {r0, r2, r4}` (word `0xE92D0015`) on `rt_state`,
with the three pushed registers overwritten. -/
def rt_clobbered : arm_state :=
  { execute_push rt_state 0xE92D0015 with
    regs := fun r =>
      if r = 0 ∨ r = 2 ∨ r = 4 then 0xDEAD else (execute_push rt_state 0xE92D0015).regs r }

/-- A state whose next instruction, at address `0x1000`, is `bxeq lr`
(word `0x012FFF1E`) while the Z flag is clear. -/
def bx_state : arm_state :=
  { regs := fun r => if r = 15 then 0x1000 else 0,
    cpsr := 0,
    mem := fun a =>
      if a = 0x1000 then 0x1E else if a = 0x1001 then 0xFF
      else if a = 0x1002 then 0x2F else if a = 0x1003 then 0x01 else 0,
    comp_count := 0, mem_count := 0, br_count := 0 }

/-- The two-complement value of a 24-bit field. -/
def signed24 (f : Nat) : Int :=
  if f < 8388608 then (f : Int) else (f : Int) - 16777216

/-- A state with cleared flags, `r1 = 0xFFFFFFFF`, `r2 = 1`, `r3 = 0x7FFFFFFF`
and `PC = 0x1000`. -/
def flag_state : arm_state :=
  { regs := fun r =>
      if r = 1 then 0xFFFFFFFF else if r = 2 then 1 else if r = 3 then 0x7FFFFFFF
      else if r = 15 then 0x1000 else 0,
    cpsr := 0, mem := fun _ => 0, comp_count := 0, mem_count := 0, br_count := 0 }

/-- A state in which only the Z flag is set. -/
def zero_flag_state : arm_state :=
  { regs := fun _ => 0, cpsr := 0x40000000, mem := fun _ => 0,
    comp_count := 0, mem_count := 0, br_count := 0 }

/-- The number of registers with index below `n` that the mask
`register_list` selects; `mask_count register_list 16` is the population count
of a 16-bit mask. -/
def mask_count (register_list : Nat) : Nat → Nat
  | 0 => 0
  | n + 1 => mask_count register_list n + (if (register_list >>> n) &&& 0b1 = 0b1 then 1 else 0)

/-- The number of registers that a 16-bit mask selects. -/
def popcount (register_list : Nat) : Nat :=
  ((Finset.range 16).filter (fun j => (register_list >>> j) &&& 0b1 = 0b1)).card

/-- The number of selected registers with index at least `i`:
`|{ j in mask : j >= i }|`. -/
def count_from (register_list i : Nat) : Nat :=
  ((Finset.range 16).filter (fun j => i ≤ j ∧ (register_list >>> j) &&& 0b1 = 0b1)).card

/-- A state with `r0 = 0xAAAA`, `r1 = 0x2000`, `PC = 0x1000` and the memory
words `0x33333333` at `0x1FFC`, `0x11111111` at `0x2000` and `0x22222222` at
`0x2004`. -/
def dt_state : arm_state :=
  { regs := fun r => if r = 0 then 0xAAAA else if r = 1 then 0x2000 else if r = 15 then 0x1000 else 0,
    cpsr := 0,
    mem := fun a =>
      if 0x1FFC ≤ a ∧ a < 0x2000 then 0x33 else if 0x2000 ≤ a ∧ a < 0x2004 then 0x11
      else if 0x2004 ≤ a ∧ a < 0x2008 then 0x22 else 0,
    comp_count := 0, mem_count := 0, br_count := 0 }

end ARM

/-! ## Theorems -/

/-! ### LC-3 -/

namespace LC3

theorem and_seven_lt (x : Nat) : x &&& 0x7 < 8 := by
  have h := Nat.and_pow_two_sub_one_eq_mod x 3
  norm_num at h
  omega

theorem update_cond_flags_reg (s : Machine) (r q : Nat) (hq : q ≠ R_COND) :
    (update_cond_flags s r).reg q = s.reg q := by
  unfold update_cond_flags set_reg
  split_ifs <;> simp [Function.update_noteq hq]

theorem update_cond_flags_cond (s : Machine) (r : Nat) :
    (update_cond_flags s r).reg R_COND =
      if s.reg r = 0 then ZRO_FL else if s.reg r >>> 15 ≠ 0 then NEG_FL else POS_FL := by
  unfold update_cond_flags set_reg
  split_ifs <;> simp

theorem shiftRight_15_ne_zero (x : Nat) (hx : x < 65536) :
    x >>> 15 ≠ 0 ↔ x.testBit 15 = true := by
  rw [Nat.shiftRight_eq_div_pow, Nat.testBit_to_div_mod]
  simp only [decide_eq_true_eq]
  norm_num
  omega

theorem update_cond_flags_sign (t : Machine) (r : Nat) (hr : r ≠ R_COND)
    (ht : t.reg r < 65536) :
    (update_cond_flags t r).reg R_COND = sign_flag ((update_cond_flags t r).reg r) := by
  rw [update_cond_flags_cond, update_cond_flags_reg _ _ _ hr]
  unfold sign_flag
  by_cases h0 : t.reg r = 0
  · simp [h0]
  · have hiff := shiftRight_15_ne_zero _ ht
    by_cases hb : t.reg r >>> 15 ≠ 0
    · simp [h0, hb, hiff.mp hb]
    · have hb2 : (t.reg r).testBit 15 = false := by
        by_contra hc; exact hb (hiff.mpr (by simpa using hc))
      simp only [h0, hb, hb2, if_false]
      simp

theorem getchar_frame (s s1 : Machine) (r : Option Nat) (h : getchar s = .ok (r, s1)) :
    s1.reg = s.reg ∧ s1.memory_locations = s.memory_locations ∧ s1.output = s.output ∧
      s1.machine_running = s.machine_running := by
  unfold getchar at h
  split at h
  · simp only [Except.ok.injEq, Prod.mk.injEq] at h
    obtain ⟨_, rfl⟩ := h
    exact ⟨rfl, rfl, rfl, rfl⟩
  · split at h
    · simp only [Except.ok.injEq, Prod.mk.injEq] at h
      obtain ⟨_, rfl⟩ := h
      exact ⟨rfl, rfl, rfl, rfl⟩
    · split_ifs at h
      simp only [Except.ok.injEq, Prod.mk.injEq] at h
      obtain ⟨_, rfl⟩ := h
      exact ⟨rfl, rfl, rfl, rfl⟩

theorem getchar_ne_abort (s : Machine) : getchar s ≠ .error .abort := by
  unfold getchar
  split
  · simp
  · split
    · simp
    · split_ifs <;> simp

/-- When `check_key` reports input, `getchar` returns without blocking. -/
theorem getchar_of_check_key (s : Machine) (h : check_key s = true) :
    ∃ r s1, getchar s = .ok (r, s1) := by
  unfold getchar
  split
  · exact ⟨_, _, rfl⟩
  · split
    · exact ⟨_, _, rfl⟩
    · rename_i hi
      have he : s.stdin_eof = true := by simpa [check_key, hi] using h
      rw [if_pos he]
      exact ⟨_, _, rfl⟩

theorem getchar_to_u16_lt (r : Option Nat) : getchar_to_u16 r < 65536 := by
  unfold getchar_to_u16
  split
  · exact Nat.mod_lt _ (by norm_num)
  · norm_num

/-- The status read when `check_key` reports nothing: the result is 0 and only
the status word is written. -/
theorem mem_read_kbsr_not_ready (s : Machine) (h : check_key s = false) :
    mem_read s MR_KBSR =
      .ok (0, { s with memory_locations := Function.update s.memory_locations MR_KBSR 0 }) := by
  unfold mem_read
  rw [if_pos (by decide), if_pos rfl, h]
  simp

/-- The status read when `check_key` reports input: the result is `0x8000`, the
status word is `0x8000` and the data word receives what `getchar` returns. -/
theorem mem_read_kbsr_ready (s s0 : Machine) (r : Option Nat) (h : check_key s = true)
    (hg : getchar s = .ok (r, s0)) :
    mem_read s MR_KBSR =
      .ok (0x8000, { s0 with
        memory_locations :=
          Function.update (Function.update s0.memory_locations MR_KBSR (1 <<< 15)) MR_KBDR
            (getchar_to_u16 r) }) := by
  unfold mem_read
  rw [if_pos (by decide), if_pos rfl, h, hg]
  simp [MR_KBSR, MR_KBDR]

theorem mem_read_kbsr_empty (s : Machine) (h : s.input = []) (he : s.stdin_eof = false) :
    mem_read s MR_KBSR =
      .ok (0, { s with memory_locations := Function.update s.memory_locations MR_KBSR 0 }) :=
  mem_read_kbsr_not_ready s (by simp [check_key, h, he])

/-- The value of a status read is 0 or `0x8000`. -/
theorem mem_read_kbsr_value (s s1 : Machine) (v : Nat) (h : mem_read s MR_KBSR = .ok (v, s1)) :
    (check_key s = false ∧ v = 0 ∧
        s1 = { s with memory_locations := Function.update s.memory_locations MR_KBSR 0 }) ∨
      (check_key s = true ∧ v = 0x8000) := by
  by_cases hk : check_key s = true
  · obtain ⟨r, s0, hg⟩ := getchar_of_check_key s hk
    rw [mem_read_kbsr_ready s s0 r hk hg] at h
    simp only [Except.ok.injEq, Prod.mk.injEq] at h
    exact Or.inr ⟨hk, h.1.symm⟩
  · have hk' : check_key s = false := by simpa using hk
    rw [mem_read_kbsr_not_ready s hk'] at h
    simp only [Except.ok.injEq, Prod.mk.injEq] at h
    exact Or.inl ⟨hk', h.1.symm, h.2.symm⟩

theorem mem_read_frame (s s1 : Machine) (a v : Nat) (h : mem_read s a = .ok (v, s1)) :
    s1.reg = s.reg ∧ s1.output = s.output ∧ s1.machine_running = s.machine_running ∧
      a < UINT16_MAX := by
  by_cases h1 : a < UINT16_MAX
  · by_cases h2 : a = MR_KBSR
    · subst h2
      by_cases hk : check_key s = true
      · obtain ⟨r, s0, hg⟩ := getchar_of_check_key s hk
        obtain ⟨g1, -, g3, g4⟩ := getchar_frame s s0 r hg
        rw [mem_read_kbsr_ready s s0 r hk hg] at h
        simp only [Except.ok.injEq, Prod.mk.injEq] at h
        obtain ⟨_, rfl⟩ := h
        exact ⟨g1, g3, g4, h1⟩
      · rw [mem_read_kbsr_not_ready s (by simpa using hk)] at h
        simp only [Except.ok.injEq, Prod.mk.injEq] at h
        obtain ⟨_, rfl⟩ := h
        exact ⟨rfl, rfl, rfl, h1⟩
    · unfold mem_read at h
      rw [if_pos h1, if_neg h2] at h
      simp only [Except.ok.injEq, Prod.mk.injEq] at h
      obtain ⟨_, rfl⟩ := h
      exact ⟨rfl, rfl, rfl, h1⟩
  · unfold mem_read at h
    rw [if_neg h1] at h
    exact absurd h (by simp)

theorem fetch_frame (s s1 : Machine) (instr : Nat) (h : fetch s = .ok (instr, s1)) :
    s.reg R_PC < 65535 ∧ s1.reg R_PC = s.reg R_PC + 1 ∧ (∀ r, r ≠ R_PC → s1.reg r = s.reg r) ∧
      s1.output = s.output ∧ s1.machine_running = s.machine_running := by
  unfold fetch at h
  obtain ⟨h1, h2, h3, h4⟩ := mem_read_frame _ _ _ _ h
  have hpc : s.reg R_PC < 65535 := h4
  refine ⟨hpc, ?_, ?_, ?_, ?_⟩
  · rw [h1]
    simp only [set_reg, Function.update_same]
    omega
  · intro r hr
    rw [h1]
    simp only [set_reg, Function.update_noteq hr]
  · rw [h2]; rfl
  · rw [h3]; rfl

theorem mem_read_other (s : Machine) (a : Nat) (ha : a < UINT16_MAX) (hk : a ≠ MR_KBSR) :
    mem_read s a = .ok (s.memory_locations a, s) := by
  unfold mem_read
  rw [if_pos ha, if_neg hk]

/-- A fetch from an address inside the array other than the keyboard status
address delivers the stored word and only increments the program counter. -/
theorem fetch_other (s : Machine) (hpc : s.reg R_PC < UINT16_MAX) (hk : s.reg R_PC ≠ MR_KBSR) :
    fetch s =
      .ok (s.memory_locations (s.reg R_PC), set_reg s R_PC ((s.reg R_PC + 1) % 65536)) := by
  unfold fetch
  exact mem_read_other _ _ hpc hk

/-- C1: for every field width `1 ≤ w ≤ 16` and every 16-bit value `x`, if bit
`w - 1` of `x` is set then `sign_extension x w` equals `x ||| (0xFFFF <<< w)`
truncated to 16 bits, and if that bit is clear it equals `x`; in both cases
the result is a 16-bit value. -/
theorem sign_extension_spec (x w : Nat) (hw1 : 1 ≤ w) (hw16 : w ≤ 16) (hx : x < 65536) :
    (x.testBit (w - 1) = true → sign_extension x w = (x ||| (0xFFFF <<< w)) % 65536) ∧
    (x.testBit (w - 1) = false → sign_extension x w = x) ∧
    sign_extension x w < 65536 := by
  have key : ((x >>> (w - 1)) &&& 1 ≠ 0) ↔ x.testBit (w - 1) = true := by
    simp [Nat.testBit, Nat.and_comm]
  refine ⟨?_, ?_, ?_⟩
  · intro h
    unfold sign_extension
    rw [if_pos (key.mpr h)]
  · intro h
    have hn : ¬ ((x >>> (w - 1)) &&& 1 ≠ 0) := by
      rw [key]; simp [h]
    unfold sign_extension
    rw [if_neg hn]
  · unfold sign_extension
    split_ifs
    · exact Nat.mod_lt _ (by norm_num)
    · exact hx

/-- Witness for C1: the five-bit field `0x1F` extends to `0xFFFF`. -/
theorem sign_extension_spec_witness :
    1 ≤ 5 ∧ 5 ≤ 16 ∧ 0x1F < 65536 ∧ sign_extension 0x1F 5 = 0xFFFF :=
  ⟨by decide, by decide, by decide,
    ((sign_extension_spec 0x1F 5 (by decide) (by decide) (by decide)).1 (by decide)).trans
      (by decide)⟩

/-- C4: for every register index `r` in `0..7` holding a 16-bit value, after
`update_cond_flags r` the condition register holds exactly one of the three
flags `POS_FL`, `ZRO_FL`, `NEG_FL`; the zero flag is set iff `reg[r] = 0`, the
negative flag iff bit 15 of `reg[r]` is 1, and the positive flag otherwise. -/
theorem update_cond_flags_spec (s : Machine) (r : Nat) (hr : r < 8) (hv : s.reg r < 65536) :
    ((update_cond_flags s r).reg R_COND = POS_FL ∨
      (update_cond_flags s r).reg R_COND = ZRO_FL ∨
      (update_cond_flags s r).reg R_COND = NEG_FL) ∧
    ((update_cond_flags s r).reg R_COND &&& ZRO_FL ≠ 0 ↔ s.reg r = 0) ∧
    ((update_cond_flags s r).reg R_COND &&& NEG_FL ≠ 0 ↔ (s.reg r).testBit 15 = true) ∧
    ((update_cond_flags s r).reg R_COND &&& POS_FL ≠ 0 ↔
      (s.reg r ≠ 0 ∧ (s.reg r).testBit 15 = false)) ∧
    (update_cond_flags s r).reg r = s.reg r := by
  have hrc : r ≠ R_COND := by unfold R_COND; omega
  have main : ((update_cond_flags s r).reg R_COND = POS_FL ∨
        (update_cond_flags s r).reg R_COND = ZRO_FL ∨
        (update_cond_flags s r).reg R_COND = NEG_FL) ∧
      ((update_cond_flags s r).reg R_COND &&& ZRO_FL ≠ 0 ↔ s.reg r = 0) ∧
      ((update_cond_flags s r).reg R_COND &&& NEG_FL ≠ 0 ↔ (s.reg r).testBit 15 = true) ∧
      ((update_cond_flags s r).reg R_COND &&& POS_FL ≠ 0 ↔
        (s.reg r ≠ 0 ∧ (s.reg r).testBit 15 = false)) := by
    rw [update_cond_flags_cond, ← shiftRight_15_ne_zero _ hv]
    have hb : (s.reg r).testBit 15 = false ↔ ¬ (s.reg r >>> 15 ≠ 0) := by
      rw [shiftRight_15_ne_zero _ hv]; simp
    rw [hb]
    by_cases h0 : s.reg r = 0
    · simp [h0, POS_FL, ZRO_FL, NEG_FL]
      decide
    · by_cases h1 : s.reg r >>> 15 ≠ 0
      · simp [h0, h1, POS_FL, ZRO_FL, NEG_FL]
        decide
      · simp [h0, h1, POS_FL, ZRO_FL, NEG_FL]
  exact ⟨main.1, main.2.1, main.2.2.1, main.2.2.2, update_cond_flags_reg s r r hrc⟩

/-- Witness for C4: a register holding `0x8001` yields the negative flag. -/
theorem update_cond_flags_spec_witness :
    3 < 8 ∧ neg_state.reg 3 < 65536 ∧
      (update_cond_flags neg_state 3).reg R_COND &&& NEG_FL ≠ 0 :=
  ⟨by decide, by decide,
    (update_cond_flags_spec neg_state 3 (by decide) (by decide)).2.2.1.mpr (by decide)⟩

/-- C5: whenever the fetch of one step delivers a word `instr` with opcode
`OP_ADD`, the step succeeds; the destination register becomes
`(reg[SR1] + reg[SR2]) % 2^16` in register mode and
`(reg[SR1] + sign_extension imm5 5) % 2^16` in immediate mode; the condition
register becomes the sign classification of that result; the program counter
advances by exactly 1; and with operands 5 and 7 the destination is 12 and the
flag is `POS_FL`. -/
theorem step_add_spec (fuel : Nat) (s s1 : Machine) (instr : Nat)
    (hf : fetch s = .ok (instr, s1)) (hop : instr >>> 12 = OP_ADD) :
    ∃ s', step fuel s = .ok s' ∧
      ((instr >>> 5) &&& 0x1 = 0 →
        s'.reg ((instr >>> 9) &&& 0x7) =
          (s.reg ((instr >>> 6) &&& 0x7) + s.reg (instr &&& 0x7)) % 65536) ∧
      ((instr >>> 5) &&& 0x1 = 1 →
        s'.reg ((instr >>> 9) &&& 0x7) =
          (s.reg ((instr >>> 6) &&& 0x7) + sign_extension (instr &&& 0x1F) 5) % 65536) ∧
      s'.reg R_COND = sign_flag (s'.reg ((instr >>> 9) &&& 0x7)) ∧
      s'.reg R_PC = s.reg R_PC + 1 ∧
      ((instr >>> 5) &&& 0x1 = 0 → s.reg ((instr >>> 6) &&& 0x7) = 5 → s.reg (instr &&& 0x7) = 7 →
        s'.reg ((instr >>> 9) &&& 0x7) = 12 ∧ s'.reg R_COND = POS_FL) := by
  obtain ⟨hpc, hpc1, hregs, -, -⟩ := fetch_frame s s1 instr hf
  have hd := and_seven_lt (instr >>> 9)
  have h1 := and_seven_lt (instr >>> 6)
  have h2 := and_seven_lt instr
  have hdc : (instr >>> 9) &&& 0x7 ≠ R_COND := by unfold R_COND; omega
  have hdp : (instr >>> 9) &&& 0x7 ≠ R_PC := by unfold R_PC; omega
  have hr1 : s1.reg ((instr >>> 6) &&& 0x7) = s.reg ((instr >>> 6) &&& 0x7) :=
    hregs _ (by unfold R_PC; omega)
  have hr2 : s1.reg (instr &&& 0x7) = s.reg (instr &&& 0x7) := hregs _ (by unfold R_PC; omega)
  refine ⟨exec_add s1 instr, ?_, ?_⟩
  · simp [step, hf, execute, hop]
  have hval : (exec_add s1 instr).reg ((instr >>> 9) &&& 0x7) =
      if (instr >>> 5) &&& 0x1 ≠ 0 then
        (s.reg ((instr >>> 6) &&& 0x7) + sign_extension (instr &&& 0x1F) 5) % 65536
      else (s.reg ((instr >>> 6) &&& 0x7) + s.reg (instr &&& 0x7)) % 65536 := by
    unfold exec_add
    simp only [update_cond_flags_reg _ _ _ hdc]
    split_ifs <;> simp [set_reg, hr1, hr2]
  have hcond : (exec_add s1 instr).reg R_COND =
      sign_flag ((exec_add s1 instr).reg ((instr >>> 9) &&& 0x7)) := by
    unfold exec_add
    apply update_cond_flags_sign _ _ hdc
    split_ifs <;> simp only [set_reg, Function.update_same] <;> exact Nat.mod_lt _ (by norm_num)
  have hpcf : (exec_add s1 instr).reg R_PC = s.reg R_PC + 1 := by
    unfold exec_add
    rw [update_cond_flags_reg _ _ _ (by decide)]
    split_ifs <;> simp [set_reg, Function.update_noteq (Ne.symm hdp), hpc1]
  refine ⟨?_, ?_, hcond, hpcf, ?_⟩
  · intro h; rw [hval]; simp [h]
  · intro h; rw [hval]; simp [h]
  · intro h ha hb
    have h12 : (exec_add s1 instr).reg ((instr >>> 9) &&& 0x7) = 12 := by
      rw [hval]; simp [h, ha, hb]
    refine ⟨h12, ?_⟩
    rw [hcond, h12]
    decide

/-- Witness for C5: `ADD R3, R1, R2` with `R1 = 5`, `R2 = 7` at `0x3000`. -/
theorem step_add_spec_witness :
    ∃ s', step 0 add_state = .ok s' ∧ s'.reg 3 = 12 ∧ s'.reg R_COND = POS_FL ∧
      s'.reg R_PC = 0x3001 := by
  obtain ⟨s', h1, -, -, -, h5, h6⟩ := step_add_spec 0 add_state _ 0x1642 rfl (by decide)
  exact ⟨s', h1, (h6 (by decide) (by decide) (by decide)).1,
    (h6 (by decide) (by decide) (by decide)).2, h5⟩

/-- Counterexample for C6: with the program counter at the keyboard status
address `0xFE00`, no pending input and the word 1 stored there, the fetch
delivers the word 0 (a `BR` instruction with mask 0 and offset 0) and the step
changes the memory word at `0xFE00` from 1 to 0. -/
theorem step_br_memory_counterexample :
    ∃ s1 s', fetch br_kbsr_state = .ok (0, s1) ∧ 0 >>> 12 = OP_BR ∧
      step 0 br_kbsr_state = .ok s' ∧
      br_kbsr_state.memory_locations 0xFE00 = 1 ∧ s'.memory_locations 0xFE00 = 0 :=
  ⟨_, _, rfl, rfl, rfl, rfl, rfl⟩

/-- C6 (amended): whenever the fetch of one step delivers a word `instr` with
opcode `OP_BR`, the step succeeds and leaves the program counter equal to
`(PC + 1 + sign_extension f 9) % 2^16` when the mask ANDed with the condition
register is non-zero and to `(PC + 1) % 2^16` otherwise; it changes no general
register and no condition flag; it changes no memory word other than the
keyboard status word `0xFE00`, and none at all unless the instruction was
fetched from `0xFE00`, in which case the fetch set that word to 0. -/
theorem step_br_spec (fuel : Nat) (s s1 : Machine) (instr : Nat)
    (hf : fetch s = .ok (instr, s1)) (hop : instr >>> 12 = OP_BR) :
    ∃ s', step fuel s = .ok s' ∧
      (((instr >>> 9) &&& 0x7) &&& s.reg R_COND ≠ 0 →
        s'.reg R_PC = (s.reg R_PC + 1 + sign_extension (instr &&& 0x1FF) 9) % 65536) ∧
      (((instr >>> 9) &&& 0x7) &&& s.reg R_COND = 0 → s'.reg R_PC = (s.reg R_PC + 1) % 65536) ∧
      (∀ r, r ≠ R_PC → s'.reg r = s.reg r) ∧
      (∀ a, a ≠ MR_KBSR → s'.memory_locations a = s.memory_locations a) ∧
      (s.reg R_PC ≠ MR_KBSR → s'.memory_locations = s.memory_locations) ∧
      (s.reg R_PC = MR_KBSR → s'.memory_locations MR_KBSR = 0) := by
  obtain ⟨hpc, hpc1, hregs, -, -⟩ := fetch_frame s s1 instr hf
  have hcond : s1.reg R_COND = s.reg R_COND := hregs _ (by decide)
  have hmem : (∀ a, a ≠ MR_KBSR → s1.memory_locations a = s.memory_locations a) ∧
      (s.reg R_PC ≠ MR_KBSR → s1.memory_locations = s.memory_locations) ∧
      (s.reg R_PC = MR_KBSR → s1.memory_locations MR_KBSR = 0) := by
    unfold fetch at hf
    by_cases hk : s.reg R_PC = MR_KBSR
    · rw [hk] at hf
      rcases mem_read_kbsr_value _ _ _ hf with ⟨-, -, hs1⟩ | ⟨-, hv⟩
      · rw [hs1]
        refine ⟨?_, fun h => absurd hk h, fun _ => ?_⟩
        · intro a ha
          simp [set_reg, Function.update_noteq ha]
        · simp [set_reg]
      · rw [hv] at hop
        exact absurd hop (by decide)
    · rw [mem_read_other _ _ hpc hk] at hf
      simp only [Except.ok.injEq, Prod.mk.injEq] at hf
      obtain ⟨_, rfl⟩ := hf
      exact ⟨fun a _ => rfl, fun _ => rfl, fun h => absurd h hk⟩
  refine ⟨exec_br s1 instr, ?_, ?_⟩
  · simp [step, hf, execute, hop, OP_BR, OP_ADD, OP_AND, OP_NOT]
  unfold exec_br
  rw [hcond]
  by_cases hc : ((instr >>> 9) &&& 0x7) &&& s.reg R_COND ≠ 0
  · simp only [if_pos hc]
    refine ⟨fun _ => ?_, fun h => absurd h hc, ?_, hmem.1, hmem.2.1, hmem.2.2⟩
    · simp only [set_reg, Function.update_same, hpc1]
    · intro r hr
      simp only [set_reg, Function.update_noteq hr]
      exact hregs r hr
  · simp only [if_neg hc]
    refine ⟨fun h => absurd h hc, fun _ => ?_, hregs, hmem.1, hmem.2.1, hmem.2.2⟩
    rw [hpc1, Nat.mod_eq_of_lt (by omega)]

/-- Witness for C6 (amended): `BRz +2` at `0x3000` with the zero flag set
branches to `0x3003` and leaves memory unchanged. -/
theorem step_br_spec_witness :
    ∃ s', step 0 br_taken_state = .ok s' ∧ s'.reg R_PC = 0x3003 ∧
      s'.memory_locations = br_taken_state.memory_locations := by
  obtain ⟨s', h1, h2, -, -, -, h6, -⟩ := step_br_spec 0 br_taken_state _ 0x0402 rfl (by decide)
  exact ⟨s', h1, (h2 (by decide)).trans (by decide), h6 (by decide)⟩

theorem check_key_of_input (s : Machine) (h : s.input ≠ []) : check_key s = true := by
  cases hi : s.input with
  | nil => exact absurd hi h
  | cons c rest => simp [check_key, hi]

/-- The status read with nothing pending on the descriptor and no end of file:
it returns 0, sets `memory[0xFE00]` to 0 and leaves `memory[0xFE02]`, the
pending bytes and the stream buffer unchanged, so a second read returns 0
again.  This holds whether or not unread characters sit in the stream buffer. -/
theorem mem_read_kbsr_idle (s : Machine) (h : s.input = []) (he : s.stdin_eof = false) :
    ∃ s', mem_read s MR_KBSR = .ok (0, s') ∧ s'.memory_locations MR_KBSR = 0 ∧
      s'.memory_locations MR_KBDR = s.memory_locations MR_KBDR ∧ s'.input = s.input ∧
      s'.stdin_buffer = s.stdin_buffer ∧ ∃ s2, mem_read s' MR_KBSR = .ok (0, s2) := by
  refine ⟨_, mem_read_kbsr_empty s h he, ?_, ?_, rfl, rfl, ?_⟩
  · simp
  · simp [MR_KBSR, MR_KBDR]
  · exact ⟨_, mem_read_kbsr_empty _ h he⟩

/-- The status read with bytes pending on the descriptor: it returns `0x8000`,
sets `memory[0xFE00]` to `0x8000`, stores the first unread character (the
oldest one in the stream buffer, or the first pending byte when the buffer is
empty) in `memory[0xFE02]` and removes it from the unread characters. -/
theorem mem_read_kbsr_pending (s : Machine) (c : Nat) (rest : List Nat)
    (hq : s.stdin_buffer ++ s.input = c :: rest) (hc : c < 256) (hin : s.input ≠ []) :
    ∃ s', mem_read s MR_KBSR = .ok (0x8000, s') ∧ s'.memory_locations MR_KBSR = 0x8000 ∧
      s'.memory_locations MR_KBDR = c ∧ s'.stdin_buffer ++ s'.input = rest := by
  have hk := check_key_of_input s hin
  have hcc : getchar_to_u16 (some (c % 256)) = c := by
    show c % 256 % 65536 = c
    omega
  cases hb : s.stdin_buffer with
  | nil =>
    rw [hb, List.nil_append] at hq
    have hg : getchar s = .ok (some (c % 256),
        { s with
          input := rest.drop (s.stdin_buffer_size - 1),
          stdin_buffer := rest.take (s.stdin_buffer_size - 1) }) := by
      unfold getchar
      rw [hb, hq]
    refine ⟨_, mem_read_kbsr_ready s _ _ hk hg, ?_, ?_, ?_⟩
    · simp [MR_KBSR, MR_KBDR]
    · simp only [Function.update_same]
      exact hcc
    · exact List.take_append_drop _ _
  | cons b bs =>
    rw [hb, List.cons_append] at hq
    obtain ⟨rfl, hrest⟩ := List.cons.inj hq
    have hg : getchar s = .ok (some (b % 256), { s with stdin_buffer := bs }) := by
      unfold getchar
      rw [hb]
    refine ⟨_, mem_read_kbsr_ready s _ _ hk hg, ?_, ?_, hrest⟩
    · simp [MR_KBSR, MR_KBDR]
    · simp only [Function.update_same]
      exact hcc

/-- The status read at end of file with nothing left to read: it returns
`0x8000` and stores `0xFFFF`, the value of `EOF`, in `memory[0xFE02]`. -/
theorem mem_read_kbsr_eof (s : Machine) (hb : s.stdin_buffer = []) (h : s.input = [])
    (he : s.stdin_eof = true) :
    ∃ s', mem_read s MR_KBSR = .ok (0x8000, s') ∧ s'.memory_locations MR_KBDR = 0xFFFF := by
  have hk : check_key s = true := by simp [check_key, he]
  have hg : getchar s = .ok (none, s) := by
    unfold getchar
    rw [hb, h, if_pos he]
  exact ⟨_, mem_read_kbsr_ready s _ _ hk hg, by simp [getchar_to_u16]⟩

/-- With the single character `A` pending the status read behaves as a queue:
it reports ready with `A`, and the next read reports not ready. -/
theorem mem_read_kbsr_single_key :
    ∃ s1 s2, mem_read key_state MR_KBSR = .ok (0x8000, s1) ∧
      s1.memory_locations MR_KBDR = 0x41 ∧ s1.stdin_buffer ++ s1.input = [] ∧
      mem_read s1 MR_KBSR = .ok (0, s2) :=
  ⟨_, _, rfl, rfl, rfl, rfl⟩

/-- C9 at the failing input: the characters `A` and `B` are pending and the
status word is read twice.  The first read reports ready and delivers `A`;
`getchar` has then moved `B` into the buffer of `stdin`, where `check_key` does
not look, so the second read returns 0 and leaves `memory[0xFE02] = 0x41`
although the queue of unread characters is `[B]`; a later `getchar` still
returns `B`. -/
theorem kbsr_second_byte_not_ready :
    key_two_state.stdin_buffer ++ key_two_state.input = [0x41, 0x42] ∧
      ∃ s1 s2 s3, mem_read key_two_state MR_KBSR = .ok (0x8000, s1) ∧
        s1.memory_locations MR_KBDR = 0x41 ∧ s1.stdin_buffer ++ s1.input = [0x42] ∧
        mem_read s1 MR_KBSR = .ok (0, s2) ∧ s2.memory_locations MR_KBSR = 0 ∧
        s2.memory_locations MR_KBDR = 0x41 ∧ s2.stdin_buffer ++ s2.input = [0x42] ∧
        getchar s2 = .ok (some 0x42, s3) :=
  ⟨rfl, _, _, _, rfl, rfl, rfl, rfl, rfl, rfl, rfl, rfl⟩

/-- A fetch that delivers a word whose opcode is neither 0 nor 8 did not come
from the keyboard status address, so it changed neither memory nor input. -/
theorem fetch_mem_of_high (s s1 : Machine) (instr : Nat) (h : fetch s = .ok (instr, s1))
    (hop : instr >>> 12 ≠ 0) (hop8 : instr >>> 12 ≠ 8) :
    s1.memory_locations = s.memory_locations ∧ s1.input = s.input := by
  obtain ⟨hpc, -, -, -, -⟩ := fetch_frame s s1 instr h
  unfold fetch at h
  by_cases hk : s.reg R_PC = MR_KBSR
  · rw [hk] at h
    rcases mem_read_kbsr_value _ _ _ h with ⟨-, hv, -⟩ | ⟨-, hv⟩
    · rw [hv] at hop
      exact absurd rfl hop
    · rw [hv] at hop8
      exact absurd (by decide) hop8
  · rw [mem_read_other _ _ hpc hk] at h
    simp only [Except.ok.injEq, Prod.mk.injEq] at h
    obtain ⟨_, rfl⟩ := h
    exact ⟨rfl, rfl⟩

theorem run_of_halted (fuel n : Nat) (s : Machine) (h : s.machine_running = false) :
    run fuel n s = .ok s := by
  cases n <;> simp [run, h]

/-- C11: whenever the fetch of one step delivers a `TRAP` word whose low byte
is `0x25`, the step succeeds and clears `machine_running`, so that the run loop
performs no further step (from the halted state, and from the original state
after this one step), whatever memory holds; registers `R0..R7`, the condition
register and every memory word are unchanged, and `HALT` plus a newline is
written to the output. -/
theorem step_halt_spec (fuel : Nat) (s s1 : Machine) (instr : Nat)
    (hf : fetch s = .ok (instr, s1)) (hop : instr >>> 12 = OP_TRAP)
    (hcode : instr &&& 0xFF = TRAP_HALT) :
    ∃ s', step fuel s = .ok s' ∧ s'.machine_running = false ∧
      (∀ n, run fuel n s' = .ok s') ∧
      (s.machine_running = true → ∀ n, run fuel (n + 1) s = .ok s') ∧
      (∀ r, r ≠ R_PC → s'.reg r = s.reg r) ∧
      s'.reg R_PC = s.reg R_PC + 1 ∧
      s'.memory_locations = s.memory_locations ∧
      s'.output = s.output ++ "HALT\n".toList.map Char.toNat := by
  obtain ⟨hpc, hpc1, hregs, hout, -⟩ := fetch_frame s s1 instr hf
  obtain ⟨hmem, -⟩ := fetch_mem_of_high s s1 instr hf (by rw [hop]; decide) (by rw [hop]; decide)
  have hstep : step fuel s = .ok { s1 with
      output := s1.output ++ ("HALT\n".toList.map Char.toNat),
      machine_running := false } := by
    simp [step, hf, execute, hop, exec_trap, hcode, OP_TRAP, OP_ADD, OP_AND, OP_NOT, OP_BR, OP_JMP,
      OP_JSR, OP_LD, OP_LDR, OP_LEA, OP_ST, OP_STI, OP_STR, TRAP_HALT, TRAP_GETC, TRAP_OUT,
      TRAP_PUTS, TRAP_IN, TRAP_PUTSP]
  refine ⟨_, hstep, rfl, fun n => run_of_halted _ _ _ rfl, ?_, hregs, hpc1, hmem, ?_⟩
  · intro hr n
    rw [run, if_pos hr, hstep]
    exact run_of_halted _ _ _ rfl
  · show s1.output ++ _ = _
    rw [hout]

/-- Witness for C11: `TRAP 0x25` at `0x3000`, followed by another instruction
word that is never executed. -/
theorem step_halt_spec_witness :
    ∃ s', step 0 halt_state = .ok s' ∧ s'.machine_running = false ∧
      run 0 5 halt_state = .ok s' ∧ s'.reg 0 = 77 ∧
      s'.memory_locations = halt_state.memory_locations := by
  obtain ⟨s', h1, h2, -, h4, h5, -, h7, -⟩ :=
    step_halt_spec 0 halt_state _ 0xF025 rfl (by decide) (by decide)
  exact ⟨s', h1, h2, h4 rfl 4, (h5 0 (by decide)).trans (by decide), h7⟩

/-- C12 at the failing input: the 16-bit address `0xFFFF` is not below the
number of elements of `memory_locations`, so both `mem_read` and `mem_write`
index the array outside its bounds. -/
theorem mem_access_top_address_out_of_range (s : Machine) (v : Nat) :
    0xFFFF < 65536 ∧ ¬ (0xFFFF < UINT16_MAX) ∧
      mem_read s 0xFFFF = .error .out_of_range ∧
      mem_write s 0xFFFF v = .error .out_of_range :=
  ⟨by decide, by decide, rfl, rfl⟩

/-- Every address below `0xFFFF` is inside the array. -/
theorem mem_access_in_range (s : Machine) (a v : Nat) (ha : a < 0xFFFF) :
    (∃ r, mem_read s a = .ok r) ∧ (∃ s', mem_write s a v = .ok s') := by
  have ha' : a < UINT16_MAX := ha
  constructor
  · by_cases hk : a = MR_KBSR
    · subst hk
      by_cases hc : check_key s = true
      · obtain ⟨r, s0, hg⟩ := getchar_of_check_key s hc
        exact ⟨_, mem_read_kbsr_ready s s0 r hc hg⟩
      · exact ⟨_, mem_read_kbsr_not_ready s (by simpa using hc)⟩
    · exact ⟨_, mem_read_other s a ha' hk⟩
  · unfold mem_write
    rw [if_pos ha']
    exact ⟨_, rfl⟩

theorem mem_read_lt (s s1 : Machine) (a v : Nat) (hwf : ∀ b, s.memory_locations b < 65536)
    (h : mem_read s a = .ok (v, s1)) : v < 65536 := by
  by_cases h2 : a = MR_KBSR
  · subst h2
    rcases mem_read_kbsr_value _ _ _ h with ⟨-, hv, -⟩ | ⟨-, hv⟩ <;> rw [hv] <;> norm_num
  · have h1 := (mem_read_frame _ _ _ _ h).2.2.2
    rw [mem_read_other _ _ h1 h2] at h
    simp only [Except.ok.injEq, Prod.mk.injEq] at h
    obtain ⟨rfl, _⟩ := h
    exact hwf a

theorem mem_read_ne_abort (s : Machine) (a : Nat) : mem_read s a ≠ .error .abort := by
  intro h
  unfold mem_read at h
  split_ifs at h
  · split at h
    · rename_i e he
      simp only [Except.error.injEq] at h
      subst h
      exact getchar_ne_abort s he
    · simp at h
  all_goals simp at h

theorem mem_write_ne_abort (s : Machine) (a v : Nat) : mem_write s a v ≠ .error .abort := by
  unfold mem_write
  split_ifs <;> simp

theorem puts_loop_ne_abort : ∀ (fuel : Nat) (s : Machine) (c : Nat),
    puts_loop fuel s c ≠ .error .abort := by
  intro fuel
  induction fuel with
  | zero => intro s c; simp [puts_loop]
  | succ n ih =>
    intro s c
    unfold puts_loop
    split_ifs
    · exact ih _ _
    · simp
    · simp

theorem putsp_loop_ne_abort : ∀ (fuel : Nat) (s : Machine) (c : Nat),
    putsp_loop fuel s c ≠ .error .abort := by
  intro fuel
  induction fuel with
  | zero => intro s c; simp [putsp_loop]
  | succ n ih =>
    intro s c
    simp only [putsp_loop]
    split_ifs <;> first | exact ih _ _ | simp

theorem exec_trap_ne_abort (fuel : Nat) (s : Machine) (instr : Nat) :
    exec_trap fuel s instr ≠ .error .abort := by
  unfold exec_trap
  simp only
  split_ifs
  · intro h
    split at h
    · rename_i e he
      simp only [Except.error.injEq] at h
      subst h
      exact getchar_ne_abort _ he
    · simp at h
  · simp
  · exact puts_loop_ne_abort _ _ _
  · intro h
    split at h
    · rename_i e he
      simp only [Except.error.injEq] at h
      subst h
      exact getchar_ne_abort _ he
    · simp at h
  · exact putsp_loop_ne_abort _ _ _
  · simp
  · simp

theorem exec_ld_ne_abort (s : Machine) (instr : Nat) : exec_ld s instr ≠ .error .abort := by
  unfold exec_ld
  simp only
  split
  · rename_i e h
    intro hc
    simp only [Except.error.injEq] at hc
    subst hc
    exact mem_read_ne_abort _ _ h
  · simp

theorem exec_ldr_ne_abort (s : Machine) (instr : Nat) : exec_ldr s instr ≠ .error .abort := by
  unfold exec_ldr
  simp only
  split
  · rename_i e h
    intro hc
    simp only [Except.error.injEq] at hc
    subst hc
    exact mem_read_ne_abort _ _ h
  · simp

theorem exec_sti_ne_abort (s : Machine) (instr : Nat) : exec_sti s instr ≠ .error .abort := by
  unfold exec_sti
  simp only
  split
  · rename_i e h
    intro hc
    simp only [Except.error.injEq] at hc
    subst hc
    exact mem_read_ne_abort _ _ h
  · exact mem_write_ne_abort _ _ _

/-- The dispatch aborts exactly on the opcodes 8, 10 and 13. -/
theorem execute_abort_iff (fuel : Nat) (s : Machine) (instr : Nat) (hi : instr < 65536) :
    execute fuel s instr = .error .abort ↔
      (instr >>> 12 = OP_RTI ∨ instr >>> 12 = OP_LDI ∨ instr >>> 12 = OP_RES) := by
  have hlt : instr >>> 12 < 16 := by
    rw [Nat.shiftRight_eq_div_pow]; norm_num; omega
  have h1 := exec_ld_ne_abort s instr
  have h2 := exec_ldr_ne_abort s instr
  have h3 := exec_sti_ne_abort s instr
  have h4 := exec_trap_ne_abort fuel s instr
  have h5 : exec_st s instr ≠ .error .abort := mem_write_ne_abort _ _ _
  have h6 : exec_str s instr ≠ .error .abort := mem_write_ne_abort _ _ _
  unfold execute
  simp only [OP_ADD, OP_AND, OP_NOT, OP_BR, OP_JMP, OP_JSR, OP_LD, OP_LDR, OP_LEA, OP_ST, OP_STI,
    OP_STR, OP_TRAP, OP_RTI, OP_LDI, OP_RES]
  generalize exec_ld s instr = r1 at h1 ⊢
  generalize exec_ldr s instr = r2 at h2 ⊢
  generalize exec_sti s instr = r3 at h3 ⊢
  generalize exec_trap fuel s instr = r4 at h4 ⊢
  generalize exec_st s instr = r5 at h5 ⊢
  generalize exec_str s instr = r6 at h6 ⊢
  generalize exec_add s instr = a1
  generalize exec_and s instr = a2
  generalize exec_not s instr = a3
  generalize exec_br s instr = a4
  generalize exec_jmp s instr = a5
  generalize exec_jsr s instr = a6
  generalize exec_lea s instr = a7
  generalize instr >>> 12 = op at hlt ⊢
  interval_cases op <;> simp [h1, h2, h3, h4, h5, h6]

/-- One step on a fetched word aborts exactly when the opcode is `RTI` (8),
`LDI` (10) or `RES` (13). -/
theorem step_abort_iff (fuel : Nat) (s s1 : Machine) (instr : Nat)
    (hwf : WellFormed s) (hf : fetch s = .ok (instr, s1)) :
    step fuel s = .error .abort ↔
      (instr >>> 12 = OP_RTI ∨ instr >>> 12 = OP_LDI ∨ instr >>> 12 = OP_RES) := by
  have hlt : instr < 65536 :=
    mem_read_lt (set_reg s R_PC ((s.reg R_PC + 1) % 65536)) s1 (s.reg R_PC) instr hwf.2.1 hf
  have hs : step fuel s = execute fuel s1 instr := by simp [step, hf]
  rw [hs]
  exact execute_abort_iff fuel s1 instr hlt

/-- C15 at the failing input: the word `0xA000` (`LDI R0, #0`) has opcode 10,
which is neither `RTI` nor `RES`, and the step on it aborts. -/
theorem step_ldi_aborts (fuel : Nat) :
    fetch ldi_state = .ok (0xA000, set_reg ldi_state R_PC 0x3001) ∧
    0xA000 >>> 12 = OP_LDI ∧ OP_LDI ≠ OP_RTI ∧ OP_LDI ≠ OP_RES ∧
    step fuel ldi_state = .error .abort :=
  ⟨rfl, rfl, by decide, by decide, rfl⟩

/-- One step on a fetched `JSR` word: `R7` receives the incremented program
counter; the long form adds the sign-extended offset; the register form jumps
to the base register, except that with base `R7` it jumps to the value just
written to `R7`. -/
theorem step_jsr_cases (fuel : Nat) (s s1 : Machine) (instr : Nat)
    (hf : fetch s = .ok (instr, s1)) (hop : instr >>> 12 = OP_JSR) :
    ∃ s', step fuel s = .ok s' ∧ s'.reg R_R7 = s.reg R_PC + 1 ∧
      ((instr >>> 11) &&& 1 ≠ 0 →
        s'.reg R_PC = (s.reg R_PC + 1 + sign_extension (instr &&& 0x7FF) 11) % 65536) ∧
      ((instr >>> 11) &&& 1 = 0 → (instr >>> 6) &&& 0x7 ≠ R_R7 →
        s'.reg R_PC = s.reg ((instr >>> 6) &&& 0x7)) ∧
      ((instr >>> 11) &&& 1 = 0 → (instr >>> 6) &&& 0x7 = R_R7 →
        s'.reg R_PC = s.reg R_PC + 1) := by
  obtain ⟨hpc, hpc1, hregs, -, -⟩ := fetch_frame s s1 instr hf
  have h1 := and_seven_lt (instr >>> 6)
  refine ⟨exec_jsr s1 instr, ?_, ?_⟩
  · simp [step, hf, execute, hop, OP_JSR, OP_ADD, OP_AND, OP_NOT, OP_BR, OP_JMP]
  unfold exec_jsr
  simp only
  by_cases hl : (instr >>> 11) &&& 1 ≠ 0
  · simp only [if_pos hl]
    refine ⟨?_, fun _ => ?_, fun h => absurd h hl, fun h => absurd h hl⟩
    · simp [set_reg, R_R7, R_PC, hpc1]
      exact hpc1
    · simp [set_reg, R_R7, R_PC]
      rw [show s1.reg 8 = s.reg 8 + 1 from hpc1]
  · simp only [if_neg hl]
    refine ⟨?_, fun h => absurd h hl, fun _ hb => ?_, fun _ hb => ?_⟩
    · have hne : R_R7 ≠ R_PC := by decide
      simp only [set_reg, Function.update_noteq hne, Function.update_same]
      exact hpc1
    · simp only [set_reg, Function.update_same, Function.update_noteq hb]
      exact hregs _ (by unfold R_PC; omega)
    · simp only [set_reg, Function.update_same, hb]
      exact hpc1

/-- C20 at the failing input: `JSRR R7` (word `0x41C0`, bit 11 clear, base
register `R7`) at `0x3000` with `R7 = 0x4000`.  The step stores `0x3001` in
`R7` and then takes the jump target from `R7`, so the program counter ends at
`0x3001` and not at `0x4000`, the value `R7` held before the instruction. -/
theorem step_jsrr_r7_reads_link :
    ∃ s1 s', fetch jsrr_state = .ok (0x41C0, s1) ∧ 0x41C0 >>> 12 = OP_JSR ∧
      (0x41C0 >>> 11) &&& 1 = 0 ∧ (0x41C0 >>> 6) &&& 0x7 = 7 ∧
      jsrr_state.reg R_PC = 0x3000 ∧ jsrr_state.reg R_R7 = 0x4000 ∧
      step 0 jsrr_state = .ok s' ∧ s'.reg R_R7 = 0x3001 ∧ s'.reg R_PC = 0x3001 :=
  ⟨_, _, rfl, rfl, rfl, rfl, rfl, rfl, rfl, rfl, rfl⟩

/-- The loop of `TRAP_PUTSP` in `lc-3.c` never leaves a non-zero word: for
every number of iterations allowed it is still running. -/
theorem putsp_loop_out_of_fuel (c : Nat) (hc : c < UINT16_MAX) :
    ∀ (fuel : Nat) (s : Machine), s.memory_locations c ≠ 0 →
      putsp_loop fuel s c = .error .out_of_fuel := by
  intro fuel
  induction fuel with
  | zero => intro s _; rfl
  | succ n ih =>
    intro s hs
    simp only [putsp_loop, if_pos hc, if_pos hs]
    apply ih
    split_ifs <;> exact hs

/-- The loop of `TRAP_PUTSP` in `lc-3.c` returns at once, with the state
unchanged, when the word at `R0` is zero. -/
theorem putsp_loop_zero (fuel : Nat) (s : Machine) (c : Nat) (hc : c < UINT16_MAX)
    (hz : s.memory_locations c = 0) : putsp_loop (fuel + 1) s c = .ok s := by
  simp [putsp_loop, hc, hz]

/-- The step of `lc-3.c` on `putsp_state` is still in the loop of `TRAP_PUTSP`
after any number of iterations. -/
theorem step_putsp_state (fuel : Nat) : step fuel putsp_state = .error .out_of_fuel := by
  have hf : fetch putsp_state = .ok (0xF024, set_reg putsp_state R_PC 0x3001) := rfl
  have he : ∀ s : Machine, execute fuel s 0xF024 = putsp_loop fuel s (s.reg R_R0) := by
    intro s
    have h36 : (61476 : Nat) &&& 255 = 36 := rfl
    simp [execute, exec_trap, h36, OP_ADD, OP_AND, OP_NOT, OP_BR, OP_JMP, OP_JSR, OP_LD, OP_LDR,
      OP_LEA, OP_ST, OP_STI, OP_STR, OP_TRAP, TRAP_GETC, TRAP_OUT, TRAP_PUTS, TRAP_IN,
      TRAP_PUTSP]
  rw [step, hf]
  show execute fuel _ 0xF024 = _
  rw [he]
  exact putsp_loop_out_of_fuel _ (by decide) fuel _ (by decide)

/-- C26 at the failing input: `TRAP 0x24` (word `0xF024`) at `0x3000` with
`R0 = 0x4000`, the word `0x6548` at `0x4000` and a zero word at `0x4001`.  The
routine should write `0x48`, `0x65` and return; the loop of `lc-3.c` never
advances its pointer, so it has not returned after any number of iterations. -/
theorem step_putsp_never_returns :
    fetch putsp_state = .ok (0xF024, set_reg putsp_state R_PC 0x3001) ∧
      0xF024 >>> 12 = OP_TRAP ∧ 0xF024 &&& 0xFF = TRAP_PUTSP ∧
      putsp_state.reg R_R0 = 0x4000 ∧ putsp_state.memory_locations 0x4000 = 0x6548 ∧
      putsp_state.memory_locations 0x4001 = 0 ∧
      ∀ fuel, step fuel putsp_state = .error .out_of_fuel :=
  ⟨rfl, rfl, rfl, rfl, rfl, rfl, step_putsp_state⟩

/-- The case `OP_AND` of `lc-3.c` is the case `OP_ADD`. -/
theorem exec_and_eq_exec_add (s : Machine) (instr : Nat) : exec_and s instr = exec_add s instr :=
  rfl

/-- C27 at the failing input: `AND R3, R1, R2` (word `0x5642`) at `0x3000` with
`R1 = 6` and `R2 = 3`, and the immediate form `AND R3, R1, #3` (word `0x5663`).
The destination should receive `6 AND 3 = 2`; the step stores the sum 9. -/
theorem step_and_computes_sum :
    ∃ s1 s' s'', fetch and_state = .ok (0x5642, s1) ∧ 0x5642 >>> 12 = OP_AND ∧
      (0x5642 >>> 9) &&& 0x7 = 3 ∧ (0x5642 >>> 6) &&& 0x7 = 1 ∧ (0x5642 >>> 5) &&& 0x1 = 0 ∧
      0x5642 &&& 0x7 = 2 ∧ and_state.reg 1 = 6 ∧ and_state.reg 2 = 3 ∧
      and_state.reg 1 &&& and_state.reg 2 = 2 ∧
      step 0 and_state = .ok s' ∧ s'.reg 3 = 9 ∧ s'.reg R_COND = POS_FL ∧
      0x5663 >>> 12 = OP_AND ∧ (0x5663 >>> 5) &&& 0x1 = 1 ∧
      sign_extension (0x5663 &&& 0x1F) 5 = 3 ∧
      execute 0 and_state 0x5663 = .ok s'' ∧ s''.reg 3 = 9 :=
  ⟨_, _, _, rfl, rfl, rfl, rfl, rfl, rfl, rfl, rfl, rfl, rfl, rfl, rfl, rfl, rfl, rfl, rfl, rfl⟩

/-- Apart from `TRAP_PUTSP` the trap routines of the two files are the same. -/
theorem trap_cpp_eq_exec_trap (fuel : Nat) (s : Machine) (instr : Nat)
    (h : instr &&& 0xFF ≠ TRAP_PUTSP) : trap_cpp fuel s instr = exec_trap fuel s instr := by
  unfold trap_cpp exec_trap
  simp only [if_neg h]

theorem execute_of_opcode (fuel : Nat) (s : Machine) (instr : Nat) :
    (instr >>> 12 = 0 → execute fuel s instr = .ok (exec_br s instr)) ∧
    (instr >>> 12 = 1 → execute fuel s instr = .ok (exec_add s instr)) ∧
    (instr >>> 12 = 2 → execute fuel s instr = exec_ld s instr) ∧
    (instr >>> 12 = 3 → execute fuel s instr = exec_st s instr) ∧
    (instr >>> 12 = 4 → execute fuel s instr = .ok (exec_jsr s instr)) ∧
    (instr >>> 12 = 5 → execute fuel s instr = .ok (exec_and s instr)) ∧
    (instr >>> 12 = 6 → execute fuel s instr = exec_ldr s instr) ∧
    (instr >>> 12 = 7 → execute fuel s instr = exec_str s instr) ∧
    (instr >>> 12 = 9 → execute fuel s instr = .ok (exec_not s instr)) ∧
    (instr >>> 12 = 11 → execute fuel s instr = exec_sti s instr) ∧
    (instr >>> 12 = 12 → execute fuel s instr = .ok (exec_jmp s instr)) ∧
    (instr >>> 12 = 14 → execute fuel s instr = .ok (exec_lea s instr)) ∧
    (instr >>> 12 = 15 → execute fuel s instr = exec_trap fuel s instr) := by
  unfold execute
  refine ⟨?_, ?_, ?_, ?_, ?_, ?_, ?_, ?_, ?_, ?_, ?_, ?_, ?_⟩ <;> intro h <;> rw [h] <;> rfl

theorem instruction_br (fuel : Nat) (s : Machine) (instr : Nat) (hop : instr >>> 12 = 0) :
    instruction fuel 0 s instr = execute fuel s instr := by
  rw [(execute_of_opcode fuel s instr).1 hop]
  show Except.bind
      (if ((instr >>> 9) &&& 0x7) &&& s.reg R_COND ≠ 0 then
        .ok (set_reg s R_PC ((s.reg R_PC + sign_extension (instr &&& 0x1FF) 9) % 65536))
      else .ok s)
      (fun s => .ok s) = _
  unfold exec_br
  by_cases h : ((instr >>> 9) &&& 0x7) &&& s.reg R_COND ≠ 0
  · simp only [if_pos h]; rfl
  · simp only [if_neg h]; rfl

theorem instruction_add (fuel : Nat) (s : Machine) (instr : Nat) (hop : instr >>> 12 = 1) :
    instruction fuel 1 s instr = execute fuel s instr := by
  rw [(execute_of_opcode fuel s instr).2.1 hop]
  show Except.bind
      (if (instr >>> 5) &&& 0x1 ≠ 0 then
        with_local (if (instr >>> 5) &&& 0x1 ≠ 0 then some (sign_extension (instr &&& 0x1F) 5)
          else none) fun imm5 =>
          .ok (set_reg s ((instr >>> 9) &&& 0x7) ((s.reg ((instr >>> 6) &&& 0x7) + imm5) % 65536))
      else
        with_local (if (instr >>> 5) &&& 0x1 ≠ 0 then none else some (instr &&& 0x7)) fun r2 =>
          .ok (set_reg s ((instr >>> 9) &&& 0x7)
            ((s.reg ((instr >>> 6) &&& 0x7) + s.reg r2) % 65536)))
      (fun s => .ok (update_cond_flags s ((instr >>> 9) &&& 0x7))) = _
  unfold exec_add
  by_cases h : (instr >>> 5) &&& 0x1 ≠ 0
  · simp only [if_pos h]; rfl
  · simp only [if_neg h]; rfl

theorem instruction_ld (fuel : Nat) (s : Machine) (instr : Nat) (hop : instr >>> 12 = 2) :
    instruction fuel 2 s instr = execute fuel s instr := by
  rw [(execute_of_opcode fuel s instr).2.2.1 hop]
  show Except.bind
      (match mem_read s ((s.reg R_PC + sign_extension (instr &&& 0x1FF) 9) % 65536) with
        | .error e => .error e
        | .ok (v, s1) => .ok (set_reg s1 ((instr >>> 9) &&& 0x7) v))
      (fun s => .ok (update_cond_flags s ((instr >>> 9) &&& 0x7))) = _
  dsimp only [exec_ld]
  generalize mem_read s ((s.reg R_PC + sign_extension (instr &&& 0x1FF) 9) % 65536) = r
  cases r <;> rfl

theorem instruction_st (fuel : Nat) (s : Machine) (instr : Nat) (hop : instr >>> 12 = 3) :
    instruction fuel 3 s instr = execute fuel s instr := by
  rw [(execute_of_opcode fuel s instr).2.2.2.1 hop]
  show Except.bind
      (mem_write s ((s.reg R_PC + sign_extension (instr &&& 0x1FF) 9) % 65536)
        (s.reg ((instr >>> 9) &&& 0x7)))
      (fun s => .ok s) = _
  dsimp only [exec_st]
  generalize mem_write s ((s.reg R_PC + sign_extension (instr &&& 0x1FF) 9) % 65536)
    (s.reg ((instr >>> 9) &&& 0x7)) = r
  cases r <;> rfl

theorem instruction_jsr (fuel : Nat) (s : Machine) (instr : Nat) (hop : instr >>> 12 = 4) :
    instruction fuel 4 s instr = execute fuel s instr := by
  rw [(execute_of_opcode fuel s instr).2.2.2.2.1 hop]
  show Except.bind
      (if (instr >>> 11) &&& 1 ≠ 0 then
        .ok (set_reg (set_reg s R_R7 (s.reg R_PC)) R_PC
          (((set_reg s R_R7 (s.reg R_PC)).reg R_PC + sign_extension (instr &&& 0x7FF) 11) %
            65536))
      else
        .ok (set_reg (set_reg s R_R7 (s.reg R_PC)) R_PC
          ((set_reg s R_R7 (s.reg R_PC)).reg ((instr >>> 6) &&& 0x7))))
      (fun s => .ok s) = _
  unfold exec_jsr
  by_cases h : (instr >>> 11) &&& 1 ≠ 0
  · simp only [if_pos h]; rfl
  · simp only [if_neg h]; rfl

theorem instruction_ldr (fuel : Nat) (s : Machine) (instr : Nat) (hop : instr >>> 12 = 6) :
    instruction fuel 6 s instr = execute fuel s instr := by
  rw [(execute_of_opcode fuel s instr).2.2.2.2.2.2.1 hop]
  show Except.bind
      (match mem_read s
          ((s.reg ((instr >>> 6) &&& 0x7) + sign_extension (instr &&& 0x3F) 6) % 65536) with
        | .error e => .error e
        | .ok (v, s1) => .ok (set_reg s1 ((instr >>> 9) &&& 0x7) v))
      (fun s => .ok (update_cond_flags s ((instr >>> 9) &&& 0x7))) = _
  dsimp only [exec_ldr]
  generalize mem_read s
    ((s.reg ((instr >>> 6) &&& 0x7) + sign_extension (instr &&& 0x3F) 6) % 65536) = r
  cases r <;> rfl

theorem instruction_str (fuel : Nat) (s : Machine) (instr : Nat) (hop : instr >>> 12 = 7) :
    instruction fuel 7 s instr = execute fuel s instr := by
  rw [(execute_of_opcode fuel s instr).2.2.2.2.2.2.2.1 hop]
  show Except.bind
      (mem_write s ((s.reg ((instr >>> 6) &&& 0x7) + sign_extension (instr &&& 0x3F) 6) % 65536)
        (s.reg ((instr >>> 9) &&& 0x7)))
      (fun s => .ok s) = _
  dsimp only [exec_str]
  generalize mem_write s
    ((s.reg ((instr >>> 6) &&& 0x7) + sign_extension (instr &&& 0x3F) 6) % 65536)
    (s.reg ((instr >>> 9) &&& 0x7)) = r
  cases r <;> rfl

theorem instruction_not (fuel : Nat) (s : Machine) (instr : Nat) (hop : instr >>> 12 = 9) :
    instruction fuel 9 s instr = execute fuel s instr := by
  rw [(execute_of_opcode fuel s instr).2.2.2.2.2.2.2.2.1 hop]
  rfl

theorem instruction_sti (fuel : Nat) (s : Machine) (instr : Nat) (hop : instr >>> 12 = 11) :
    instruction fuel 11 s instr = execute fuel s instr := by
  rw [(execute_of_opcode fuel s instr).2.2.2.2.2.2.2.2.2.1 hop]
  show Except.bind
      (match mem_read s ((s.reg R_PC + sign_extension (instr &&& 0x1FF) 9) % 65536) with
        | .error e => .error e
        | .ok (a, s1) => mem_write s1 a (s1.reg ((instr >>> 9) &&& 0x7)))
      (fun s => .ok s) = _
  dsimp only [exec_sti]
  generalize mem_read s ((s.reg R_PC + sign_extension (instr &&& 0x1FF) 9) % 65536) = r
  rcases r with e | ⟨a, s1⟩
  · rfl
  · show Except.bind (mem_write s1 a (s1.reg ((instr >>> 9) &&& 0x7))) (fun s => .ok s) =
      mem_write s1 a (s1.reg ((instr >>> 9) &&& 0x7))
    generalize mem_write s1 a (s1.reg ((instr >>> 9) &&& 0x7)) = r
    cases r <;> rfl

theorem instruction_jmp (fuel : Nat) (s : Machine) (instr : Nat) (hop : instr >>> 12 = 12) :
    instruction fuel 12 s instr = execute fuel s instr := by
  rw [(execute_of_opcode fuel s instr).2.2.2.2.2.2.2.2.2.2.1 hop]
  rfl

theorem instruction_trap (fuel : Nat) (s : Machine) (instr : Nat) (hop : instr >>> 12 = 15)
    (h : instr &&& 0xFF ≠ TRAP_PUTSP) :
    instruction fuel 15 s instr = execute fuel s instr := by
  rw [(execute_of_opcode fuel s instr).2.2.2.2.2.2.2.2.2.2.2.2 hop,
    ← trap_cpp_eq_exec_trap fuel s instr h]
  show Except.bind (trap_cpp fuel s instr) (fun s => .ok s) = _
  generalize trap_cpp fuel s instr = r
  cases r <;> rfl

/-- The two interpreters take the same step on every fetched 16-bit word whose
opcode is `BR`, `ADD`, `LD`, `ST`, `JSR`, `LDR`, `STR`, `NOT`, `STI` or `JMP`,
and on every `TRAP` word other than `TRAP_PUTSP`. -/
theorem step_cpp_eq_step (fuel : Nat) (s s1 : Machine) (instr : Nat)
    (hf : fetch s = .ok (instr, s1)) (hw : instr < 65536)
    (hop : instr >>> 12 ≠ OP_AND ∧ instr >>> 12 ≠ OP_RTI ∧ instr >>> 12 ≠ OP_LDI ∧
      instr >>> 12 ≠ OP_RES ∧ instr >>> 12 ≠ OP_LEA)
    (htrap : instr >>> 12 = OP_TRAP → instr &&& 0xFF ≠ TRAP_PUTSP) :
    step_cpp fuel s = step fuel s := by
  have hlt : instr >>> 12 < 16 := by
    rw [Nat.shiftRight_eq_div_pow]
    exact Nat.div_lt_of_lt_mul (by norm_num; omega)
  unfold step_cpp step
  rw [hf]
  obtain ⟨h5, h8, h10, h13, h14⟩ := hop
  simp only [OP_AND, OP_RTI, OP_LDI, OP_RES, OP_LEA, OP_TRAP] at h5 h8 h10 h13 h14 htrap
  show (if 16 ≤ instr >>> 12 then Except.error Fault.out_of_range
    else if instr >>> 12 = 8 ∨ instr >>> 12 = 13 then Except.error Fault.null_call
    else instruction fuel (instr >>> 12) s1 instr) = execute fuel s1 instr
  rw [if_neg (by omega), if_neg (by omega)]
  have hcases : instr >>> 12 = 0 ∨ instr >>> 12 = 1 ∨ instr >>> 12 = 2 ∨ instr >>> 12 = 3 ∨
      instr >>> 12 = 4 ∨ instr >>> 12 = 6 ∨ instr >>> 12 = 7 ∨ instr >>> 12 = 9 ∨
      instr >>> 12 = 11 ∨ instr >>> 12 = 12 ∨ instr >>> 12 = 15 := by omega
  rcases hcases with h | h | h | h | h | h | h | h | h | h | h
  · rw [h]; exact instruction_br fuel s1 instr h
  · rw [h]; exact instruction_add fuel s1 instr h
  · rw [h]; exact instruction_ld fuel s1 instr h
  · rw [h]; exact instruction_st fuel s1 instr h
  · rw [h]; exact instruction_jsr fuel s1 instr h
  · rw [h]; exact instruction_ldr fuel s1 instr h
  · rw [h]; exact instruction_str fuel s1 instr h
  · rw [h]; exact instruction_not fuel s1 instr h
  · rw [h]; exact instruction_sti fuel s1 instr h
  · rw [h]; exact instruction_jmp fuel s1 instr h
  · rw [h]; exact instruction_trap fuel s1 instr h (htrap h)

/-- C29 at the failing input: `AND R3, R1, R2` (word `0x5642`) at `0x3000` with
`R1 = 6`, `R2 = 3`, `R3 = 0x00F0`.  The step of `lc-3.c` stores the sum 9 in
`R3`; the step of `lc-3.cpp` has no block for `AND` and leaves `R3 = 0x00F0`.
The two files also differ on `LDI` (`lc-3.c` aborts, `lc-3.cpp` loads), on
`LEA` (`lc-3.cpp` stores the local `base_plus_offset`, which it never assigned
for this opcode) and on `TRAP_PUTSP` with a non-empty string (`lc-3.c` never
leaves the loop, `lc-3.cpp` writes the characters and returns). -/
theorem interpreters_differ :
    (∃ s1 s' t', fetch and_state = .ok (0x5642, s1) ∧ 0x5642 >>> 12 = OP_AND ∧
      step 0 and_state = .ok s' ∧ step_cpp 0 and_state = .ok t' ∧
      s'.reg 3 = 9 ∧ t'.reg 3 = 0x00F0) ∧
    (∃ s1 t', fetch ldi_state = .ok (0xA000, s1) ∧ 0xA000 >>> 12 = OP_LDI ∧
      step 0 ldi_state = .error .abort ∧ step_cpp 0 ldi_state = .ok t' ∧
      t'.reg 0 = 0 ∧ t'.reg R_COND = ZRO_FL) ∧
    (∃ s1 s', fetch lea_state = .ok (0xE002, s1) ∧ 0xE002 >>> 12 = OP_LEA ∧
      step 0 lea_state = .ok s' ∧ s'.reg 0 = 0x3003 ∧
      step_cpp 0 lea_state = .error .uninitialised) ∧
    (∃ s1 t', fetch putsp_state = .ok (0xF024, s1) ∧ 0xF024 >>> 12 = OP_TRAP ∧
      0xF024 &&& 0xFF = TRAP_PUTSP ∧ (∀ fuel, step fuel putsp_state = .error .out_of_fuel) ∧
      step_cpp 3 putsp_state = .ok t' ∧ t'.output = [0x48, 0x65] ∧
      t'.reg = s1.reg ∧ t'.memory_locations = s1.memory_locations) :=
  ⟨⟨_, _, _, rfl, rfl, rfl, rfl, rfl, rfl⟩,
    ⟨_, _, rfl, rfl, rfl, rfl, rfl, rfl⟩,
    ⟨_, _, rfl, rfl, rfl, rfl, rfl⟩,
    ⟨_, _, rfl, rfl, rfl, step_putsp_state, rfl, rfl, rfl, rfl⟩⟩

end LC3

/-! ### RiSC-16 -/

namespace RiSC

theorem and_shiftLeft_shiftRight (w m k : Nat) : (w &&& (m <<< k)) >>> k = (w >>> k) &&& m := by
  apply Nat.eq_of_testBit_eq
  intro i
  simp [Nat.testBit_shiftRight, Nat.testBit_shiftLeft, Nat.testBit_and]

theorem field_eq_div_mod (w k n : Nat) :
    (w &&& ((2 ^ n - 1) <<< k)) >>> k = w / 2 ^ k % 2 ^ n := by
  rw [and_shiftLeft_shiftRight, Nat.and_pow_two_sub_one_eq_mod, Nat.shiftRight_eq_div_pow]

theorem opcode_eq (w : Nat) : (w &&& MASK_OPCODE) >>> (16 - 3) = w / 8192 % 8 := by
  have h := field_eq_div_mod w 13 3
  simpa [MASK_OPCODE] using h

theorem reg0_eq (w : Nat) : (w &&& MASK_REG_A) >>> (16 - 6) = w / 1024 % 8 := by
  have h := field_eq_div_mod w 10 3
  simpa [MASK_REG_A] using h

theorem reg1_eq (w : Nat) : (w &&& MASK_REG_B) >>> (16 - 9) = w / 128 % 8 := by
  have h := field_eq_div_mod w 7 3
  simpa [MASK_REG_B] using h

theorem reg2_eq (w : Nat) : w &&& MASK_REG_C = w % 8 := by
  have h := Nat.and_pow_two_sub_one_eq_mod w 3
  simpa [MASK_REG_C] using h

theorem simm_eq (w : Nat) : w &&& MASK_SIMM = w % 128 := by
  have h := Nat.and_pow_two_sub_one_eq_mod w 7
  simpa [MASK_SIMM] using h

theorem uimm_eq (w : Nat) : w &&& MASK_UIMM = w % 1024 := by
  have h := Nat.and_pow_two_sub_one_eq_mod w 10
  simpa [MASK_UIMM] using h

theorem sign_n_bits_seven (s : Nat) (hs : s < 128) :
    sign_n_bits s 7 = if s ≤ 63 then s else s + 65408 := by
  unfold sign_n_bits
  rw [if_neg (by decide)]
  by_cases h : s ≤ 63
  · rw [if_neg (by norm_num; omega), if_pos h]
  · rw [if_pos (by norm_num; omega), if_neg h]
    have e : ((s : Int) - 2 ^ 7) % 65536 = ((s + 65408 : Nat) : Int) := by
      norm_num
      omega
    rw [e]
    exact Int.toNat_ofNat _

theorem or_eq_add (x b k : Nat) (hx : x % 2 ^ k = 0) (hb : b < 2 ^ k) : x ||| b = x + b := by
  obtain ⟨q, rfl⟩ := Nat.dvd_of_mod_eq_zero hx
  exact (Nat.mul_add_lt_is_or hb q).symm

theorem encode_fields (a b c d : Nat) (hb : b < 8) (hc : c < 8) (hd : d < 128) :
    (a <<< 13) ||| (b <<< 10) ||| (c <<< 7) ||| d = a * 8192 + b * 1024 + c * 128 + d := by
  simp only [Nat.shiftLeft_eq]
  norm_num
  rw [or_eq_add (a * 8192) (b * 1024) 13 (by norm_num) (by norm_num; omega),
    or_eq_add (a * 8192 + b * 1024) (c * 128) 10 (by norm_num; omega) (by norm_num; omega),
    or_eq_add (a * 8192 + b * 1024 + c * 128) d 7 (by norm_num; omega) (by norm_num; omega)]

theorem decode_regs_zero (vm : RiSC_VM) (w : Nat)
    (h : (vm_decode_word vm w).current_instruction.reg0 = 0 ∨
      (vm_decode_word vm w).current_instruction.reg1 = 0 ∨
      (vm_decode_word vm w).current_instruction.reg2 = 0 ∨ vm.regs 0 = 0) :
    (vm_decode_word vm w).regs 0 = 0 := by
  simp only [vm_decode_word] at h ⊢
  split_ifs <;> simp_all [Function.update]

theorem get_ref_decode (vm : RiSC_VM) (w r : Nat)
    (hr : r = (vm_decode_word vm w).current_instruction.reg0 ∨
      r = (vm_decode_word vm w).current_instruction.reg1 ∨
      r = (vm_decode_word vm w).current_instruction.reg2) :
    get_ref (vm_decode_word vm w) r = (vm_decode_word vm w).regs r := by
  unfold get_ref
  split_ifs with h0
  · subst h0
    symm
    apply decode_regs_zero
    rcases hr with h | h | h
    · exact Or.inl h.symm
    · exact Or.inr (Or.inl h.symm)
    · exact Or.inr (Or.inr (Or.inl h.symm))
  · rfl

/-- Apart from `jalr r0, r0`, executing a decoded word agrees with the
reference semantics in which register 0 reads as 0. -/
theorem vm_execute_eq_ref (vm : RiSC_VM) (w : Nat)
    (h : ¬ ((vm_decode_word vm w).current_instruction.opcode = JALR ∧
      (vm_decode_word vm w).current_instruction.reg0 = 0 ∧
      (vm_decode_word vm w).current_instruction.reg1 = 0)) :
    vm_execute (vm_decode_word vm w) = vm_execute_ref (vm_decode_word vm w) := by
  have g0 := get_ref_decode vm w _ (Or.inl rfl)
  have g1 := get_ref_decode vm w _ (Or.inr (Or.inl rfl))
  have g2 := get_ref_decode vm w _ (Or.inr (Or.inr rfl))
  unfold vm_execute vm_execute_ref
  simp only [g0, g1, g2]
  by_cases hj : (vm_decode_word vm w).current_instruction.opcode = JALR
  · simp only [hj, ADD, ADDI, NAND, LUI, SW, LW, BEQ, JALR]
    simp only [JALR] at hj
    simp only [hj, not_and, true_and, JALR] at h
    simp
    unfold get_ref
    simp
    split_ifs with h1
    · by_cases h0 : (vm_decode_word vm w).current_instruction.reg0 = 0
      · exact absurd h1 (h h0)
      · rw [h1, Function.update_noteq (Ne.symm h0)]
        exact decode_regs_zero vm w (Or.inr (Or.inl h1))
    · rfl
  · simp only [hj, if_false]

/-- Counterexample for C2: from a state with `regs[0] = 0` and `regs[1] = 5`,
decoding and executing `add r0, r1, r1` (word `0x0081`) leaves `regs[0] = 10`. -/
theorem zero_register_write_counterexample :
    vm_five.regs 0 = 0 ∧ 0x0081 < 65536 ∧
      (vm_decode_word vm_five 0x0081).current_instruction =
        { opcode := ADD, reg0 := 0, reg1 := 1, reg2 := 1, simm := 1, uimm := 0x81 } ∧
      (vm_execute (vm_decode_word vm_five 0x0081)).map (fun v => v.regs 0) = some 10 := by
  decide

/-- C2 (amended): from a state with `regs[0] = 0`, after `vm_decode` and
`vm_execute` of a 16-bit word, `regs[0]` is still 0 whenever the destination
field `reg0` is not 0 or the opcode is `SW` or `BEQ`; a write whose destination
field is register 0 is not discarded by `vm_execute`: `regs[0]` then holds the
value computed by the instruction. -/
theorem zero_register_write_spec (vm : RiSC_VM) (w : Nat) (h0 : vm.regs 0 = 0)
    (hw : w < 65536) (vm' : RiSC_VM)
    (hex : vm_execute (vm_decode_word vm w) = some vm') :
    (((vm_decode_word vm w).current_instruction.reg0 ≠ 0 ∨
        (vm_decode_word vm w).current_instruction.opcode = SW ∨
        (vm_decode_word vm w).current_instruction.opcode = BEQ) → vm'.regs 0 = 0) ∧
    ((vm_decode_word vm w).current_instruction.reg0 = 0 →
      ((vm_decode_word vm w).current_instruction.opcode = ADD →
        vm'.regs 0 = ((vm_decode_word vm w).regs (vm_decode_word vm w).current_instruction.reg1 +
          (vm_decode_word vm w).regs (vm_decode_word vm w).current_instruction.reg2) % 65536) ∧
      ((vm_decode_word vm w).current_instruction.opcode = ADDI →
        vm'.regs 0 = ((vm_decode_word vm w).regs (vm_decode_word vm w).current_instruction.reg1 +
          (vm_decode_word vm w).current_instruction.simm) % 65536) ∧
      ((vm_decode_word vm w).current_instruction.opcode = NAND →
        vm'.regs 0 = 65535 -
          ((vm_decode_word vm w).regs (vm_decode_word vm w).current_instruction.reg1 &&&
            (vm_decode_word vm w).regs (vm_decode_word vm w).current_instruction.reg2) % 65536) ∧
      ((vm_decode_word vm w).current_instruction.opcode = LUI →
        vm'.regs 0 = ((vm_decode_word vm w).current_instruction.uimm <<< 6) % 65536) ∧
      ((vm_decode_word vm w).current_instruction.opcode = LW →
        vm'.regs 0 = vm.program
          ((vm_decode_word vm w).regs (vm_decode_word vm w).current_instruction.reg1 +
            (vm_decode_word vm w).current_instruction.simm)) ∧
      ((vm_decode_word vm w).current_instruction.opcode = JALR → vm'.regs 0 = vm.pc)) := by
  have hz := decode_regs_zero vm w (Or.inr (Or.inr (Or.inr h0)))
  have hp : (vm_decode_word vm w).program = vm.program := rfl
  have hpc : (vm_decode_word vm w).pc = vm.pc := rfl
  generalize vm_decode_word vm w = d at hex hz hp hpc ⊢
  unfold vm_execute at hex
  simp only [ADD, ADDI, NAND, LUI, SW, LW, BEQ, JALR, MEMORY_SIZE] at hex ⊢
  constructor
  · intro hc
    split_ifs at hex <;> simp only [Option.some.injEq] at hex <;> subst hex <;>
      first
        | exact hz
        | (rcases hc with hc | hc | hc
           · simp [Function.update_noteq (Ne.symm hc), hz]
           · omega
           · omega)
  · intro hr
    refine ⟨?_, ?_, ?_, ?_, ?_, ?_⟩ <;> intro ho <;> simp [ho, hr] at hex
    · subst hex; simp
    · subst hex; simp
    · subst hex; simp
    · subst hex; simp
    · obtain ⟨_, rfl⟩ := hex
      simp [hp]
    · subst hex; simp [hpc]

/-- Witness for C2 (amended): `add r1, r1, r1` (word `0x0481`) leaves
`regs[0] = 0`. -/
theorem zero_register_write_spec_witness :
    vm_five.regs 0 = 0 ∧ 0x0481 < 65536 ∧
      ∃ vm', vm_execute (vm_decode_word vm_five 0x0481) = some vm' ∧ vm'.regs 0 = 0 :=
  ⟨rfl, by decide, _, rfl,
    (zero_register_write_spec vm_five 0x0481 rfl (by decide) _ rfl).1 (Or.inl (by decide))⟩

/-- C3 at the failing input: `jalr r0, r0` (word `0xE000`) fetched from
`program[4]`.  Both source fields name register 0, so the jump target should
be 0 (as in the reference semantics); `vm_execute` first stores the return
address 5 in `regs[0]` and then reads the target from it, so the program
counter ends at 5. -/
theorem jalr_zero_source_reads_link :
    (vm_decode (vm_fetch vm_jalr)).map (fun v => v.current_instruction) =
        some { opcode := JALR, reg0 := 0, reg1 := 0, reg2 := 0, simm := 0, uimm := 0 } ∧
      (vm_step vm_jalr).map (fun v => v.pc) = some 5 ∧
      ((vm_decode (vm_fetch vm_jalr)).bind vm_execute_ref).map (fun v => v.pc) = some 0 := by
  decide

/-- C10: for every 16-bit word `w` the decoded fields satisfy
`(opcode <<< 13) ||| (reg0 <<< 10) ||| (reg1 <<< 7) ||| (simm &&& 0x7F) = w`,
`reg2 = w &&& 0x7`, `uimm = w &&& 0x3FF`, and `opcode`, `reg0`, `reg1`, `reg2`
are all below 8. -/
theorem vm_decode_roundtrip (vm : RiSC_VM) (w : Nat) (hw : w < 65536) :
    (((vm_decode_word vm w).current_instruction.opcode <<< 13) |||
      ((vm_decode_word vm w).current_instruction.reg0 <<< 10) |||
      ((vm_decode_word vm w).current_instruction.reg1 <<< 7) |||
      ((vm_decode_word vm w).current_instruction.simm &&& 0x7F)) = w ∧
    (vm_decode_word vm w).current_instruction.reg2 = w &&& 0x7 ∧
    (vm_decode_word vm w).current_instruction.uimm = w &&& 0x3FF ∧
    (vm_decode_word vm w).current_instruction.opcode < 8 ∧
    (vm_decode_word vm w).current_instruction.reg0 < 8 ∧
    (vm_decode_word vm w).current_instruction.reg1 < 8 ∧
    (vm_decode_word vm w).current_instruction.reg2 < 8 := by
  have h7 : ∀ x : Nat, x &&& 0x7F = x % 128 := fun x => by
    simpa using Nat.and_pow_two_sub_one_eq_mod x 7
  have hs : (sign_n_bits (w % 128) 7) % 128 = w % 128 := by
    rw [sign_n_bits_seven _ (Nat.mod_lt _ (by norm_num))]
    split <;> omega
  simp only [vm_decode_word, opcode_eq, reg0_eq, reg1_eq, reg2_eq, simm_eq, uimm_eq, h7, hs]
  refine ⟨?_, ?_, ?_, ?_, ?_, ?_, ?_⟩
  · rw [encode_fields _ _ _ _ (by omega) (by omega) (by omega)]
    omega
  · simpa using (Nat.and_pow_two_sub_one_eq_mod w 3).symm
  · simpa using (Nat.and_pow_two_sub_one_eq_mod w 10).symm
  · omega
  · omega
  · omega
  · omega

/-- Witness for C10: the word `0xABCD`. -/
theorem vm_decode_roundtrip_witness :
    0xABCD < 65536 ∧
      (((vm_decode_word vm_five 0xABCD).current_instruction.opcode <<< 13) |||
        ((vm_decode_word vm_five 0xABCD).current_instruction.reg0 <<< 10) |||
        ((vm_decode_word vm_five 0xABCD).current_instruction.reg1 <<< 7) |||
        ((vm_decode_word vm_five 0xABCD).current_instruction.simm &&& 0x7F)) = 0xABCD :=
  ⟨by decide, (vm_decode_roundtrip vm_five 0xABCD (by decide)).1⟩

/-- The index used by `SW` is the plain sum `regs[reg1] + simm`. -/
theorem vm_execute_sw (vm : RiSC_VM) (h : vm.current_instruction.opcode = SW) :
    vm_execute vm =
      if vm.regs vm.current_instruction.reg1 + vm.current_instruction.simm < MEMORY_SIZE then
        some { vm with
          program := Function.update vm.program
            (vm.regs vm.current_instruction.reg1 + vm.current_instruction.simm)
            (vm.regs vm.current_instruction.reg0) }
      else none := by
  unfold vm_execute
  simp [h, SW, ADD, ADDI, NAND, LUI]

/-- The index used by `LW` is the plain sum `regs[reg1] + simm`. -/
theorem vm_execute_lw (vm : RiSC_VM) (h : vm.current_instruction.opcode = LW) :
    vm_execute vm =
      if vm.regs vm.current_instruction.reg1 + vm.current_instruction.simm < MEMORY_SIZE then
        some { vm with
          regs := Function.update vm.regs vm.current_instruction.reg0
            (vm.program (vm.regs vm.current_instruction.reg1 + vm.current_instruction.simm)) }
      else none := by
  unfold vm_execute
  simp [h, SW, LW, ADD, ADDI, NAND, LUI]

/-- Whenever the plain sum is inside the array it is the wrapped signed sum. -/
theorem index_eq_wrapped (b k : Nat) (hk : k < 128)
    (hin : b + sign_n_bits k 7 < MEMORY_SIZE) :
    ((b + sign_n_bits k 7 : Nat) : Int) = ((b : Int) + signed7 k) % 65536 := by
  rw [sign_n_bits_seven k hk] at hin ⊢
  unfold signed7
  unfold MEMORY_SIZE at hin
  split_ifs at hin ⊢ <;> omega

/-- The plain sum leaves the array for every negative offset unless the base
is below `127 - k`, and for a non-negative offset once `b + k` reaches 65535. -/
theorem index_out_of_range_iff (b k : Nat) (hk : k < 128) :
    ¬ (b + sign_n_bits k 7 < MEMORY_SIZE) ↔
      ((k < 64 ∧ 65535 ≤ b + k) ∨ (64 ≤ k ∧ 127 ≤ b + k)) := by
  rw [sign_n_bits_seven k hk]
  unfold MEMORY_SIZE
  split_ifs <;> omega

/-- C13 at the failing input: `sw r2, r1, -1` (word `0x88FF`) and
`lw r2, r1, -1` (word `0xA8FF`) with `regs[1] = 100`.  The offset field 127
decodes to `simm = 0xFFFF`; the wrapped index would be 99, but the index used
is `100 + 0xFFFF = 65635`, which is outside the `MEMORY_SIZE` elements of
`program`. -/
theorem sw_negative_offset_out_of_range :
    (vm_decode_word vm_hundred 0x88FF).current_instruction =
        { opcode := SW, reg0 := 2, reg1 := 1, reg2 := 7, simm := 0xFFFF, uimm := 0xFF } ∧
      (vm_decode_word vm_hundred 0x88FF).regs 1 = 100 ∧
      ((100 : Int) + signed7 127) % 65536 = 99 ∧
      ¬ (100 + 0xFFFF < MEMORY_SIZE) ∧
      (vm_execute (vm_decode_word vm_hundred 0x88FF)).isNone = true ∧
      (vm_decode_word vm_hundred 0xA8FF).current_instruction =
        { opcode := LW, reg0 := 2, reg1 := 1, reg2 := 7, simm := 0xFFFF, uimm := 0xFF } ∧
      (vm_execute (vm_decode_word vm_hundred 0xA8FF)).isNone = true := by
  decide

/-- Counterexample for C14: for the image with text words at addresses 2 and 3,
`vm_init` gives `text_start = 2`, `text_size = 2`; `vm_fetch` called with
`pc = 3` (inside the text segment) sets `running` to false, and called with
`pc = 0` (outside it) leaves `running` true. -/
theorem vm_fetch_last_word_counterexample :
    (vm_init two_word_program).map
        (fun v => (v.data.text_start, v.data.text_size, v.pc, v.running)) =
      some (2, 2, 2, true) ∧
    (vm_init two_word_program).map (fun v => (vm_fetch { v with pc := 3 }).running) =
      some false ∧
    (vm_init two_word_program).map (fun v => (vm_fetch { v with pc := 0 }).running) =
      some true := by
  decide

/-- C14 (amended): with the text segment set up by `vm_init` (`text_start =
text_header + 1`, `pc = text_start`, `running = true`), `vm_fetch` sets `running`
to false exactly when the program counter it is called with is at or beyond the
last word of the text segment (`text_start + text_size ≤ pc + 1`), and leaves
`running` unchanged for every smaller program counter. -/
theorem vm_fetch_running_spec (program : Nat → Nat) (vm0 vm : RiSC_VM)
    (hinit : vm_init program = some vm0) (hdata : vm.data = vm0.data) :
    vm0.data.text_start = vm0.data.text_header + 1 ∧ vm0.pc = vm0.data.text_start ∧
    vm0.running = true ∧
    (vm0.data.text_start + vm0.data.text_size ≤ vm.pc + 1 → (vm_fetch vm).running = false) ∧
    (vm.pc + 1 < vm0.data.text_start + vm0.data.text_size →
      (vm_fetch vm).running = vm.running) := by
  unfold vm_init at hinit
  simp only at hinit
  split_ifs at hinit with hb
  simp only [Option.some.injEq] at hinit
  subst hinit
  unfold MEMORY_SIZE at hb
  have e1 : (1 + program 0) % 65536 = 1 + program 0 := Nat.mod_eq_of_lt (by omega)
  have e2 : (1 + program 0 + 1) % 65536 = 1 + program 0 + 1 := Nat.mod_eq_of_lt (by omega)
  refine ⟨?_, rfl, rfl, ?_, ?_⟩
  · simp only [e1, e2]
  · intro h
    simp only [e1, e2] at h
    unfold vm_fetch
    simp only [hdata, e1]
    rw [if_pos (by omega)]
  · intro h
    simp only [e1, e2] at h
    unfold vm_fetch
    simp only [hdata, e1]
    rw [if_neg (by omega)]

/-- Witness for C14 (amended): the two-word image; a fetch at `pc = 2` keeps
`running`, a fetch at `pc = 3` clears it. -/
theorem vm_fetch_running_spec_witness :
    vm_init two_word_program = some two_word_vm ∧
      (vm_fetch two_word_vm).running = true ∧
      (vm_fetch { two_word_vm with pc := 3 }).running = false :=
  ⟨rfl,
    ((vm_fetch_running_spec two_word_program two_word_vm two_word_vm rfl rfl).2.2.2.2
      (by decide)).trans rfl,
    (vm_fetch_running_spec two_word_program two_word_vm { two_word_vm with pc := 3 } rfl
      rfl).2.2.2.1 (by decide)⟩

theorem decode_regs_of_ne_zero (vm : RiSC_VM) (w r : Nat) (hr : r ≠ 0) :
    (vm_decode_word vm w).regs r = vm.regs r := by
  simp only [vm_decode_word]
  split_ifs <;> simp_all [Function.update]

/-- One step on a JALR word with link field `A` and target field `B`, fetched
below the top address: the link register receives the address after the instruction; the
program counter receives the old value of register `B` (0 for `B = 0`) when
`B ≠ A`, and the link value itself when `B = A`. -/
theorem vm_step_jalr_cases (vm : RiSC_VM) (hpc : vm.pc < 65535)
    (hop : (vm.program vm.pc &&& MASK_OPCODE) >>> (16 - 3) = JALR) :
    ∃ vm', vm_step vm = some vm' ∧
      vm'.regs ((vm.program vm.pc &&& MASK_REG_A) >>> (16 - 6)) = vm.pc + 1 ∧
      ((vm.program vm.pc &&& MASK_REG_B) >>> (16 - 9) ≠
          (vm.program vm.pc &&& MASK_REG_A) >>> (16 - 6) →
        vm'.pc = if (vm.program vm.pc &&& MASK_REG_B) >>> (16 - 9) = 0 then 0
          else vm.regs ((vm.program vm.pc &&& MASK_REG_B) >>> (16 - 9))) ∧
      ((vm.program vm.pc &&& MASK_REG_B) >>> (16 - 9) =
          (vm.program vm.pc &&& MASK_REG_A) >>> (16 - 6) → vm'.pc = vm.pc + 1) := by
  have h1 : (vm.pc + 1) % 65536 = vm.pc + 1 := Nat.mod_eq_of_lt (by omega)
  have hf : (vm_fetch vm).pc = vm.pc + 1 := by
    unfold vm_fetch; split_ifs <;> simpa using h1
  have hfp : (vm_fetch vm).program = vm.program := by
    unfold vm_fetch; split_ifs <;> rfl
  have hfr : (vm_fetch vm).regs = vm.regs := by
    unfold vm_fetch; split_ifs <;> rfl
  generalize hw0 : vm.program vm.pc = w at *
  have hd : vm_decode (vm_fetch vm) = some (vm_decode_word (vm_fetch vm) w) := by
    unfold vm_decode
    rw [if_neg (by omega), hf, hfp, Nat.add_sub_cancel, hw0]
  have hci : (vm_decode_word (vm_fetch vm) w).current_instruction.opcode = JALR ∧
      (vm_decode_word (vm_fetch vm) w).current_instruction.reg0 =
        (w &&& MASK_REG_A) >>> (16 - 6) ∧
      (vm_decode_word (vm_fetch vm) w).current_instruction.reg1 =
        (w &&& MASK_REG_B) >>> (16 - 9) ∧
      (vm_decode_word (vm_fetch vm) w).pc = vm.pc + 1 := ⟨hop, rfl, rfl, hf⟩
  have hB0 : (vm_decode_word (vm_fetch vm) w).current_instruction.reg1 = 0 →
      (vm_decode_word (vm_fetch vm) w).regs 0 = 0 :=
    fun h => decode_regs_zero _ _ (Or.inr (Or.inl h))
  have hBn : ∀ r, r ≠ 0 → (vm_decode_word (vm_fetch vm) w).regs r = vm.regs r :=
    fun r hr => (decode_regs_of_ne_zero _ _ r hr).trans (congrFun hfr r)
  generalize vm_decode_word (vm_fetch vm) w = D at hd hci hB0 hBn
  obtain ⟨c1, c2, c3, c4⟩ := hci
  generalize (w &&& MASK_REG_A) >>> (16 - 6) = A at *
  generalize (w &&& MASK_REG_B) >>> (16 - 9) = B at *
  have hex : vm_execute D =
      some { D with regs := Function.update D.regs A (vm.pc + 1),
                    pc := Function.update D.regs A (vm.pc + 1) B } := by
    unfold vm_execute
    simp [c1, c4, JALR, ADD, ADDI, NAND, LUI, SW, LW, BEQ]
    rw [c2, c3]
    exact ⟨rfl, rfl⟩
  refine ⟨_, by rw [vm_step, hd]; exact hex, ?_, ?_, ?_⟩
  · simp
  · intro hne
    show Function.update D.regs A (vm.pc + 1) B = _
    rw [Function.update_noteq hne]
    split_ifs with hB
    · rw [hB]; exact hB0 (c3.trans hB)
    · exact hBn B hB
  · intro he
    show Function.update D.regs A (vm.pc + 1) B = _
    rw [he, Function.update_same]

/-- C21 at the failing input: `jalr r1, r1` (word `0xE480`) fetched from
`program[4]` with `regs[1] = 100`.  The link field and the target field name
the same register; the program counter should become 100, the value the
register held before the instruction, but `vm_execute` stores the return
address 5 in `regs[1]` before it reads the target from it, so the program
counter ends at 5. -/
theorem jalr_same_register_reads_link :
    (vm_decode (vm_fetch vm_jalr_same)).map (fun v => v.current_instruction) =
        some { opcode := JALR, reg0 := 1, reg1 := 1, reg2 := 0, simm := 0, uimm := 128 } ∧
      vm_jalr_same.regs 1 = 100 ∧
      (vm_step vm_jalr_same).map (fun v => v.pc) = some 5 ∧
      (vm_step vm_jalr_same).map (fun v => v.regs 1) = some 5 := by
  decide

/-- C28: for every 7-bit field value `s` (`s < 128`), bit 6 of `s` is clear
exactly when `s ≤ 63`; `sign_n_bits s 7` is `s` when `s ≤ 63`, and otherwise it
is `s ||| 0xFF80`, which is `(s - 128) mod 2^16`; in both cases it equals the
bitwise sign extension of the field to a 16-bit word. -/
theorem sign_n_bits_spec (s : Nat) (hs : s < 128) :
    (s.testBit 6 = false ↔ s ≤ 63) ∧
      (s ≤ 63 → sign_n_bits s 7 = s) ∧
      (63 < s → sign_n_bits s 7 = s ||| 0xFF80 ∧
        (sign_n_bits s 7 : Int) = ((s : Int) - 128) % 65536) ∧
      sign_n_bits s 7 = sign_extend_bitwise s 7 := by
  rw [sign_n_bits_seven s hs]
  unfold sign_extend_bitwise
  interval_cases s <;> decide

/-- C28 at the field value 100 (bit 6 set): the result is `0xFFE4`. -/
theorem sign_n_bits_spec_witness :
    (100 : Nat) < 128 ∧ sign_n_bits 100 7 = 0xFFE4 ∧ sign_n_bits 100 7 = 100 ||| 0xFF80 ∧
      sign_n_bits 100 7 = sign_extend_bitwise 100 7 :=
  ⟨by decide, by decide, ((sign_n_bits_spec 100 (by decide)).2.2.1 (by decide)).1,
    (sign_n_bits_spec 100 (by decide)).2.2.2⟩

end RiSC

/-! ### ARM -/

namespace ARM

theorem write32_apply_of_ne (m : Nat → Nat) (a v x : Nat)
    (h0 : x ≠ a % 4294967296) (h1 : x ≠ (a + 1) % 4294967296)
    (h2 : x ≠ (a + 2) % 4294967296) (h3 : x ≠ (a + 3) % 4294967296) :
    write32 m a v x = m x := by
  unfold write32
  rw [Function.update_noteq h3, Function.update_noteq h2, Function.update_noteq h1,
    Function.update_noteq h0]

theorem read32_write32_same (m : Nat → Nat) (a v : Nat) (hv : v < 4294967296) :
    read32 (write32 m a v) a = v := by
  have e0 : write32 m a v (a % 4294967296) = v % 256 := by
    unfold write32
    rw [Function.update_noteq (by omega), Function.update_noteq (by omega),
      Function.update_noteq (by omega), Function.update_same]
  have e1 : write32 m a v ((a + 1) % 4294967296) = v / 256 % 256 := by
    unfold write32
    rw [Function.update_noteq (by omega), Function.update_noteq (by omega),
      Function.update_same]
  have e2 : write32 m a v ((a + 2) % 4294967296) = v / 65536 % 256 := by
    unfold write32
    rw [Function.update_noteq (by omega), Function.update_same]
  have e3 : write32 m a v ((a + 3) % 4294967296) = v / 16777216 % 256 := by
    unfold write32
    rw [Function.update_same]
  unfold read32
  rw [e0, e1, e2, e3]
  omega

theorem read32_write32_disjoint (m : Nat → Nat) (a v c : Nat)
    (h : 4 ≤ (c + 4294967296 - a) % 4294967296)
    (h' : (c + 4294967296 - a) % 4294967296 ≤ 4294967296 - 4) :
    read32 (write32 m a v) c = read32 m c := by
  unfold read32
  rw [write32_apply_of_ne m a v _ (by omega) (by omega) (by omega) (by omega),
    write32_apply_of_ne m a v _ (by omega) (by omega) (by omega) (by omega),
    write32_apply_of_ne m a v _ (by omega) (by omega) (by omega) (by omega),
    write32_apply_of_ne m a v _ (by omega) (by omega) (by omega) (by omega)]

theorem adjust_base_down (b : Nat) : adjust_base 0 b = (b + 4294967292) % 4294967296 := by
  unfold adjust_base
  rw [if_neg (by decide)]

theorem adjust_base_up (b : Nat) : adjust_base 1 b = (b + 4) % 4294967296 := by
  unfold adjust_base
  rw [if_pos rfl]

/-- The body of the push loop for a selected register, in the mode
pre-decrement with write-back to `SP`. -/
theorem push_body_set (rl i : Nat) (acc : Nat × arm_state) (hb : (rl >>> i) &&& 0b1 = 0b1) :
    push_body rl SP 1 0 1 i acc =
      (adjust_base 0 acc.1,
        { acc.2 with
          mem := write32 acc.2.mem (adjust_base 0 acc.1) (acc.2.regs i),
          regs := Function.update acc.2.regs SP (adjust_base 0 acc.1) }) := by
  unfold push_body
  rw [if_pos hb]
  simp

theorem push_body_clear (rl rn w u p i : Nat) (acc : Nat × arm_state)
    (hb : ¬ (rl >>> i) &&& 0b1 = 0b1) : push_body rl rn w u p i acc = acc := by
  unfold push_body
  rw [if_neg hb]

/-- The body of the pop loop for a selected register, in the mode
post-increment with write-back to `SP`. -/
theorem pop_body_set (rl i : Nat) (acc : Nat × arm_state) (hb : (rl >>> i) &&& 0b1 = 0b1) :
    pop_body rl SP 1 1 0 i acc =
      (adjust_base 1 acc.1,
        { acc.2 with
          regs := Function.update (Function.update acc.2.regs i (read32 acc.2.mem acc.1)) SP
            (adjust_base 1 acc.1) }) := by
  unfold pop_body
  rw [if_pos hb]
  simp

theorem pop_body_clear (rl rn w u p i : Nat) (acc : Nat × arm_state)
    (hb : ¬ (rl >>> i) &&& 0b1 = 0b1) : pop_body rl rn w u p i acc = acc := by
  unfold pop_body
  rw [if_neg hb]

/-- Words at and above the starting base are not touched by the descending push. -/
theorem push_loop_mem_above (rl : Nat) :
    ∀ (n b : Nat) (s : arm_state) (j : Nat), j + n ≤ 1000 → b < 4294967296 →
      read32 (push_loop rl SP 1 0 1 n (b, s)).2.mem ((b + 4 * j) % 4294967296) =
        read32 s.mem ((b + 4 * j) % 4294967296) := by
  intro n
  induction n with
  | zero => intro b s j _ _; rfl
  | succ n ih =>
    intro b s j hj hb
    rw [push_loop]
    by_cases hbit : (rl >>> n) &&& 0b1 = 0b1
    · rw [push_body_set rl n _ hbit]
      have hd := adjust_base_down b
      generalize adjust_base 0 b = d at hd ⊢
      have hdlt : d < 4294967296 := by omega
      have e : (b + 4 * j) % 4294967296 = (d + 4 * (j + 1)) % 4294967296 := by omega
      rw [e, ih d _ (j + 1) (by omega) hdlt]
      exact read32_write32_disjoint _ _ _ _ (by omega) (by omega)
    · rw [push_body_clear _ _ _ _ _ _ _ hbit]
      exact ih b s j (by omega) hb

theorem push_loop_sp (rl : Nat) :
    ∀ (n : Nat) (acc : Nat × arm_state), acc.2.regs SP = acc.1 →
      (push_loop rl SP 1 0 1 n acc).2.regs SP = (push_loop rl SP 1 0 1 n acc).1 := by
  intro n
  induction n with
  | zero => intro acc h; exact h
  | succ n ih =>
    intro acc h
    rw [push_loop]
    by_cases hbit : (rl >>> n) &&& 0b1 = 0b1
    · apply ih
      rw [push_body_set rl n _ hbit]
      simp
    · rw [push_body_clear _ _ _ _ _ _ _ hbit]
      exact ih acc h

theorem pop_loop_sp (rl : Nat) :
    ∀ (n : Nat) (acc : Nat × arm_state), acc.2.regs SP = acc.1 →
      (pop_loop rl SP 1 1 0 n acc).2.regs SP = (pop_loop rl SP 1 1 0 n acc).1 := by
  intro n
  induction n with
  | zero => intro acc h; exact h
  | succ n ih =>
    intro acc h
    rw [pop_loop]
    by_cases hbit : (rl >>> n) &&& 0b1 = 0b1
    · rw [pop_body_set rl n _ hbit]
      simp
    · rw [pop_body_clear _ _ _ _ _ _ _ hbit]
      exact ih acc h

/-- Popping with increment-after what was pushed with decrement-before: the
base returns to its start, memory is not written, the selected registers get
back the pushed values and the other registers are left alone. -/
theorem pop_loop_push_loop (rl : Nat) (hsp : ¬ (rl >>> SP) &&& 0b1 = 0b1) :
    ∀ (n b : Nat) (s t : arm_state), n ≤ 16 → b < 4294967296 →
      (∀ r, r ≠ SP → s.regs r < 4294967296) →
      t.mem = (push_loop rl SP 1 0 1 n (b, s)).2.mem →
      (pop_loop rl SP 1 1 0 n ((push_loop rl SP 1 0 1 n (b, s)).1, t)).1 = b ∧
      (pop_loop rl SP 1 1 0 n ((push_loop rl SP 1 0 1 n (b, s)).1, t)).2.mem = t.mem ∧
      (∀ r, r < n → (rl >>> r) &&& 0b1 = 0b1 →
        (pop_loop rl SP 1 1 0 n ((push_loop rl SP 1 0 1 n (b, s)).1, t)).2.regs r = s.regs r) ∧
      (∀ r, r ≠ SP → (n ≤ r ∨ ¬ (rl >>> r) &&& 0b1 = 0b1) →
        (pop_loop rl SP 1 1 0 n ((push_loop rl SP 1 0 1 n (b, s)).1, t)).2.regs r = t.regs r) := by
  intro n
  induction n with
  | zero =>
    intro b s t _ _ _ _
    exact ⟨rfl, rfl, fun r hr => absurd hr (Nat.not_lt_zero r), fun r _ _ => rfl⟩
  | succ n ih =>
    intro b s t hn hb hs ht
    rw [push_loop] at ht ⊢
    rw [pop_loop]
    by_cases hbit : (rl >>> n) &&& 0b1 = 0b1
    · have hn13 : n ≠ SP := fun h => hsp (h ▸ hbit)
      rw [push_body_set rl n _ hbit] at ht ⊢
      simp only at ht ⊢
      have hd := adjust_base_down b
      generalize adjust_base 0 b = d at hd ht ⊢
      have hdlt : d < 4294967296 := by omega
      have hs' : ∀ r, r ≠ SP → (Function.update s.regs SP d) r < 4294967296 := by
        intro r hr
        rw [Function.update_noteq hr]; exact hs r hr
      obtain ⟨i1, i2, i3, i4⟩ := ih d
        { s with mem := write32 s.mem d (s.regs n), regs := Function.update s.regs SP d }
        t (by omega) hdlt hs' ht
      have hmemA : ∀ sA : arm_state, sA.mem = write32 s.mem d (s.regs n) →
          read32 (push_loop rl SP 1 0 1 n (d, sA)).2.mem d = s.regs n := by
        intro sA hA
        have h1 := push_loop_mem_above rl n d sA 0 (by omega) hdlt
        have e0 : (d + 4 * 0) % 4294967296 = d := by omega
        rw [e0, hA] at h1
        exact h1.trans (read32_write32_same _ _ _ (hs n hn13))
      have hmem : read32 t.mem d = s.regs n := by
        rw [ht]
        exact hmemA _ rfl
      rw [pop_body_set rl n _ hbit]
      simp only
      generalize pop_loop rl SP 1 1 0 n _ = Q at i1 i2 i3 i4 ⊢
      refine ⟨?_, i2, ?_, ?_⟩
      · rw [i1, adjust_base_up]
        clear hmem hmemA
        omega
      · intro r hr hrb
        have hr13 : r ≠ SP := fun h => hsp (h ▸ hrb)
        rw [Function.update_noteq hr13]
        by_cases hrn : r = n
        · rw [hrn, Function.update_same, i2, i1]
          exact hmem
        · have hrlt : r < n := Nat.lt_of_le_of_ne (Nat.lt_succ_iff.mp hr) hrn
          rw [Function.update_noteq hrn, i3 r hrlt hrb]
          exact Function.update_noteq hr13 _ _
      · intro r hr13 hrc
        have hrn : r ≠ n := by
          rintro rfl
          rcases hrc with h | h
          · exact absurd h (Nat.not_succ_le_self r)
          · exact h hbit
        rw [Function.update_noteq hr13, Function.update_noteq hrn]
        exact i4 r hr13 (by rcases hrc with h | h; exact Or.inl (Nat.le_of_succ_le h); exact Or.inr h)
    · rw [push_body_clear _ _ _ _ _ _ _ hbit] at ht ⊢
      rw [pop_body_clear _ _ _ _ _ _ _ hbit]
      obtain ⟨i1, i2, i3, i4⟩ := ih b s t (by omega) hb hs ht
      refine ⟨i1, i2, ?_, ?_⟩
      · intro r hr hrb
        have hrn : r ≠ n := fun h => hbit (h ▸ hrb)
        exact i3 r (Nat.lt_of_le_of_ne (Nat.lt_succ_iff.mp hr) hrn) hrb
      · intro r hr13 hrc
        apply i4 r hr13
        rcases hrc with h | h
        · exact Or.inl (Nat.le_of_succ_le h)
        · exact Or.inr h

theorem bit_set_lt (m r : Nat) (hm : m < 65536) (h : (m >>> r) &&& 0b1 = 0b1) : r < 16 := by
  by_contra hr
  have h16 : 2 ^ 16 ≤ 2 ^ r := Nat.pow_le_pow_right (by norm_num) (by omega)
  have hz : m >>> r = 0 := by
    rw [Nat.shiftRight_eq_div_pow]
    exact Nat.div_eq_of_lt (by omega)
  rw [hz] at h
  exact absurd h (by decide)

theorem check_cpsr_flags_congr (s t : arm_state) (iw : Nat) (h : t.cpsr = s.cpsr) :
    check_cpsr_flags t iw = check_cpsr_flags s iw := by
  unfold check_cpsr_flags
  rw [h]

/-- When the condition of a `bx`, single data transfer, push or pop
instruction fails, `arm_state_first_execute` leaves the program counter where
it was. -/
theorem first_execute_cond_false_pc (s : arm_state)
    (hc : check_cpsr_flags s (read32 s.mem (s.regs PC)) = some false)
    (hclass : is_bx_instruction (read32 s.mem (s.regs PC)) = true ∨
      (is_branch_instruction (read32 s.mem (s.regs PC)) = false ∧
        process_data_instruction (read32 s.mem (s.regs PC)) = false)) :
    ∃ s', arm_state_first_execute s = some s' ∧ s'.regs PC = s.regs PC := by
  have hc1 : ∀ c, check_cpsr_flags { s with br_count := c } (read32 s.mem (s.regs PC)) =
      some false := fun c => (check_cpsr_flags_congr s _ _ rfl).trans hc
  have hc2 : ∀ c, check_cpsr_flags { s with mem_count := c } (read32 s.mem (s.regs PC)) =
      some false := fun c => (check_cpsr_flags_congr s _ _ rfl).trans hc
  unfold arm_state_first_execute
  simp only
  rcases hclass with hbx | ⟨hbr, hpd⟩
  · rw [if_pos hbx, hc1]
    exact ⟨_, rfl, rfl⟩
  · by_cases hbx : is_bx_instruction (read32 s.mem (s.regs PC)) = true
    · rw [if_pos hbx, hc1]
      exact ⟨_, rfl, rfl⟩
    · rw [if_neg hbx, if_neg (by simp [hbr]), if_neg (by simp [hpd])]
      split_ifs
      · rw [hc2]; exact ⟨_, rfl, rfl⟩
      · rw [hc2]; exact ⟨_, rfl, rfl⟩
      · rw [hc2]; exact ⟨_, rfl, rfl⟩
      · exact ⟨_, rfl, rfl⟩

/-- C7 at the failing input: the next instruction is `bxeq lr` (word
`0x012FFF1E`, a recognised `bx` instruction with condition field 0) and the Z
flag is clear, so the condition is false; `arm_state_first_execute` leaves the
program counter at `0x1000` instead of advancing it to `0x1004`. -/
theorem bx_cond_fail_no_advance :
    read32 bx_state.mem (bx_state.regs PC) = 0x012FFF1E ∧
    is_bx_instruction 0x012FFF1E = true ∧
    check_cpsr_flags bx_state 0x012FFF1E = some false ∧
    (arm_state_first_execute bx_state).map (fun t => t.regs PC) = some 0x1000 := by
  decide

/-- C8: for every register mask containing neither `SP` nor `PC`, executing
`execute_push` with base `SP`, P=1, U=0, W=1 on a state `s`, then overwriting
the masked registers arbitrarily (state `t`), then executing `execute_pop` with
base `SP`, P=0, U=1, W=1 and the same mask restores every masked register to
its value in `s` and returns `SP` to its value in `s`. -/
theorem push_pop_roundtrip (s t : arm_state) (iw_push iw_pop : Nat)
    (hwf : ∀ r, s.regs r < 4294967296)
    (hpush_rn : (iw_push >>> 16) &&& 0xF = SP) (hpush_w : (iw_push >>> 21) &&& 0b1 = 1)
    (hpush_u : (iw_push >>> 23) &&& 0b1 = 0) (hpush_p : (iw_push >>> 24) &&& 0b1 = 1)
    (hpop_rn : (iw_pop >>> 16) &&& 0xF = SP) (hpop_w : (iw_pop >>> 21) &&& 0b1 = 1)
    (hpop_u : (iw_pop >>> 23) &&& 0b1 = 1) (hpop_p : (iw_pop >>> 24) &&& 0b1 = 0)
    (hmask : iw_pop &&& 0xFFFF = iw_push &&& 0xFFFF)
    (hsp : ((iw_push &&& 0xFFFF) >>> SP) &&& 0b1 = 0)
    (hpc : ((iw_push &&& 0xFFFF) >>> PC) &&& 0b1 = 0)
    (htm : t.mem = (execute_push s iw_push).mem)
    (htr : ∀ r, ((iw_push &&& 0xFFFF) >>> r) &&& 0b1 = 0 →
      t.regs r = (execute_push s iw_push).regs r) :
    (∀ r, ((iw_push &&& 0xFFFF) >>> r) &&& 0b1 = 1 →
      (execute_pop t iw_pop).regs r = s.regs r) ∧
    (execute_pop t iw_pop).regs SP = s.regs SP := by
  have hm16 : iw_push &&& 0xFFFF < 65536 := by
    have h := Nat.and_pow_two_sub_one_eq_mod iw_push 16
    norm_num at h
    omega
  have hsp' : ¬ ((iw_push &&& 0xFFFF) >>> SP) &&& 0b1 = 0b1 := by rw [hsp]; decide
  have hpc' : ¬ ((iw_push &&& 0xFFFF) >>> PC) &&& 0b1 = 0b1 := by rw [hpc]; decide
  have hsp_push : (execute_push s iw_push).regs SP =
      (push_loop (iw_push &&& 0xFFFF) SP 1 0 1 MAX_REGS (s.regs SP, s)).1 := by
    unfold execute_push
    simp only [hpush_rn, hpush_w, hpush_u, hpush_p]
    rw [Function.update_noteq (by decide)]
    exact push_loop_sp _ _ _ rfl
  have htsp : t.regs SP =
      (push_loop (iw_push &&& 0xFFFF) SP 1 0 1 MAX_REGS (s.regs SP, s)).1 := by
    rw [htr SP hsp, hsp_push]
  have htm' : t.mem =
      (push_loop (iw_push &&& 0xFFFF) SP 1 0 1 MAX_REGS (s.regs SP, s)).2.mem := by
    rw [htm]
    unfold execute_push
    simp only [hpush_rn, hpush_w, hpush_u, hpush_p]
  obtain ⟨i1, -, i3, -⟩ := pop_loop_push_loop (iw_push &&& 0xFFFF) hsp' MAX_REGS (s.regs SP) s t
    (by decide) (hwf SP) (fun r _ => hwf r) htm'
  have hpop : ∀ r, r ≠ PC → (execute_pop t iw_pop).regs r =
      (pop_loop (iw_push &&& 0xFFFF) SP 1 1 0 MAX_REGS
        ((push_loop (iw_push &&& 0xFFFF) SP 1 0 1 MAX_REGS (s.regs SP, s)).1, t)).2.regs r := by
    intro r hr
    unfold execute_pop
    simp only [hpop_rn, hpop_w, hpop_u, hpop_p, hmask]
    rw [Function.update_noteq hr, htsp]
  constructor
  · intro r hr
    have hr1 : ((iw_push &&& 0xFFFF) >>> r) &&& 0b1 = 0b1 := hr
    have hrpc : r ≠ PC := fun h => hpc' (h ▸ hr1)
    rw [hpop r hrpc]
    exact i3 r (bit_set_lt _ _ hm16 hr1) hr1
  · rw [hpop SP (by decide), pop_loop_sp _ _ _ htsp, i1]

/-- Witness for C8: `stmdb sp!, {r0, r2, r4}` then `ldmia sp!, {r0, r2, r4}`
with the three registers overwritten in between. -/
theorem push_pop_roundtrip_witness :
    (execute_pop rt_clobbered 0xE8BD0015).regs 0 = 100 ∧
    (execute_pop rt_clobbered 0xE8BD0015).regs 2 = 102 ∧
    (execute_pop rt_clobbered 0xE8BD0015).regs 4 = 104 ∧
    (execute_pop rt_clobbered 0xE8BD0015).regs SP = 0x2000 := by
  have h := push_pop_roundtrip rt_state rt_clobbered 0xE92D0015 0xE8BD0015
    (by intro r; unfold rt_state; simp only; split_ifs <;> omega)
    (by decide) (by decide) (by decide) (by decide) (by decide) (by decide) (by decide)
    (by decide) (by decide) (by decide) (by decide) rfl
    (by
      intro r hr
      show (if r = 0 ∨ r = 2 ∨ r = 4 then 0xDEAD else _) = _
      split_ifs with hc
      · rcases hc with rfl | rfl | rfl <;> exact absurd hr (by decide)
      · rfl)
  exact ⟨h.1 0 (by decide), h.1 2 (by decide), h.1 4 (by decide), h.2⟩

theorem shift_and_one_eq (x k : Nat) : (x >>> k) &&& 0b1 = (x.testBit k).toNat := by
  rw [Nat.toNat_testBit, Nat.and_one_is_mod, Nat.shiftRight_eq_div_pow]

/-- Counterexample for C16: with only the Z flag set, N equals V, yet
`check_cpsr_flags` returns false for condition code 12. -/
theorem check_cpsr_flags_counterexample :
    (0xC0000000 >>> 28) &&& 0b1111 = 12 ∧
    (zero_flag_state.cpsr >>> 31) &&& 0b1 = (zero_flag_state.cpsr >>> 28) &&& 0b1 ∧
    check_cpsr_flags zero_flag_state 0xC0000000 = some false := by
  decide

/-- C16 (amended): for every `cpsr`, `check_cpsr_flags` returns true for
condition code 0 iff Z (bit 30) is set, for code 1 iff Z is clear, for code 11
iff V (bit 28) differs from N (bit 31), for code 12 iff Z is clear and N equals
V (signed greater-than), and for code 14 always. -/
theorem check_cpsr_flags_spec (s : arm_state) (iw : Nat) :
    ((iw >>> 28) &&& 0b1111 = 0 →
      check_cpsr_flags s iw = some (s.cpsr.testBit 30)) ∧
    ((iw >>> 28) &&& 0b1111 = 1 →
      check_cpsr_flags s iw = some (!s.cpsr.testBit 30)) ∧
    ((iw >>> 28) &&& 0b1111 = 11 →
      check_cpsr_flags s iw = some (s.cpsr.testBit 28 != s.cpsr.testBit 31)) ∧
    ((iw >>> 28) &&& 0b1111 = 12 →
      check_cpsr_flags s iw =
        some (!s.cpsr.testBit 30 && (s.cpsr.testBit 31 == s.cpsr.testBit 28))) ∧
    ((iw >>> 28) &&& 0b1111 = 14 → check_cpsr_flags s iw = some true) := by
  unfold check_cpsr_flags
  simp only [shift_and_one_eq]
  refine ⟨?_, ?_, ?_, ?_, ?_⟩ <;> intro h <;> simp only [h] <;>
    cases s.cpsr.testBit 30 <;> cases s.cpsr.testBit 28 <;> cases s.cpsr.testBit 31 <;> decide

/-- Witness for C16 (amended): with only Z set, code 12 fails and code 0 passes. -/
theorem check_cpsr_flags_spec_witness :
    check_cpsr_flags zero_flag_state 0xC0000000 = some false ∧
    check_cpsr_flags zero_flag_state 0x00000000 = some true :=
  ⟨((check_cpsr_flags_spec zero_flag_state 0xC0000000).2.2.2.1 (by decide)).trans (by decide),
    ((check_cpsr_flags_spec zero_flag_state 0x00000000).1 (by decide)).trans (by decide)⟩

theorem to_int_range (x : Nat) : -2147483648 ≤ to_int x ∧ to_int x ≤ 2147483647 := by
  unfold to_int
  split_ifs <;> omega

/-- The carry bit is cleared by every call of `set_cpsr_flag`. -/
theorem set_cpsr_flag_carry_clear (s : arm_state) (result result_long : Int) :
    (set_cpsr_flag s result result_long).cpsr.testBit 29 = false := by
  have h : ¬ (result_long < 0 ∧ result_long > 4294967295) := by omega
  unfold set_cpsr_flag
  simp only [h, if_false]
  have m1 : Nat.testBit 0xDFFFFFFF 29 = false := by decide
  have m2 : Nat.testBit 0x80000000 29 = false := by decide
  have m3 : Nat.testBit 0x40000000 29 = false := by decide
  split_ifs <;> simp [Nat.testBit_and, Nat.testBit_or, m1, m2, m3]

/-- The overflow bit is cleared by `set_cpsr_flag` whenever `result` is in the
range of `int`. -/
theorem set_cpsr_flag_overflow_clear (s : arm_state) (result result_long : Int)
    (h1 : -2147483648 ≤ result) (h2 : result ≤ 2147483647) :
    (set_cpsr_flag s result result_long).cpsr.testBit 28 = false := by
  have h : ¬ (result > 2147483647 ∨ result < -2147483648) := by omega
  have hc : ¬ (result_long < 0 ∧ result_long > 4294967295) := by omega
  unfold set_cpsr_flag
  simp only [h, hc, if_false]
  have m0 : Nat.testBit 0xEFFFFFFF 28 = false := by decide
  have m2 : Nat.testBit 0x80000000 28 = false := by decide
  have m3 : Nat.testBit 0x40000000 28 = false := by decide
  split_ifs <;> simp [Nat.testBit_and, Nat.testBit_or, m0, m2, m3]

/-- After any S-flagged data-processing instruction the carry and overflow bits
are clear. -/
theorem process_data_flags_clear (s s' : arm_state) (iw : Nat)
    (hs : (iw >>> 20) &&& 0b1 = 1)
    (h : execute_process_data_instruction s iw = some s') :
    s'.cpsr.testBit 29 = false ∧ s'.cpsr.testBit 28 = false := by
  unfold execute_process_data_instruction at h
  simp only [hs, if_true] at h
  split at h
  · rename_i s1 result result_long heq
    simp only [Option.some.injEq] at h
    subst h
    refine ⟨set_cpsr_flag_carry_clear _ _ _, ?_⟩
    have hr : -2147483648 ≤ result ∧ result ≤ 2147483647 := by
      split_ifs at heq <;> simp only [Option.some.injEq, Prod.mk.injEq] at heq <;>
        (obtain ⟨_, rfl, _⟩ := heq; exact to_int_range _)
    exact set_cpsr_flag_overflow_clear _ _ _ hr.1 hr.2
  · exact absurd h (by simp)

/-- C17 at the failing input: `adds r0, r1, r2` (word `0xE0910002`) with
`r1 = 0xFFFFFFFF` and `r2 = 1`.  The unsigned sum is `2^32`, so the carry bit
should be set; the code leaves `cpsr = 0x40000000`, with bit 29 clear. -/
theorem adds_carry_not_set :
    (0xE0910002 >>> 26) &&& 0b11 = 0 ∧ (0xE0910002 >>> 21) &&& 0xF = 4 ∧
    (0xE0910002 >>> 20) &&& 0b1 = 1 ∧
    flag_state.regs 1 + flag_state.regs 2 = 4294967296 ∧
    (execute_process_data_instruction flag_state 0xE0910002).map
        (fun t => (t.regs 0, t.cpsr, (t.cpsr >>> 29) &&& 0b1)) =
      some (0, 0x40000000, 0) := by
  decide

/-- C18 at the failing input: `adds r0, r3, r2` (word `0xE0930002`) with
`r3 = 0x7FFFFFFF` and `r2 = 1`.  The exact signed sum is `2^31`, outside the
signed 32-bit range, so the overflow bit should be set; the code leaves
`cpsr = 0x80000000`, with bit 28 clear. -/
theorem adds_overflow_not_set :
    (0xE0930002 >>> 26) &&& 0b11 = 0 ∧ (0xE0930002 >>> 21) &&& 0xF = 4 ∧
    (0xE0930002 >>> 20) &&& 0b1 = 1 ∧
    to_int (flag_state.regs 3) + to_int (flag_state.regs 2) = 2147483648 ∧
    (execute_process_data_instruction flag_state 0xE0930002).map
        (fun t => (t.regs 0, t.cpsr, (t.cpsr >>> 28) &&& 0b1)) =
      some (0x80000000, 0x80000000, 0) := by
  decide

theorem or_high_byte (f : Nat) (hf : f < 16777216) : f ||| 0xFF000000 = f + 4278190080 := by
  rw [Nat.lor_comm]
  have h := RiSC.or_eq_add 4278190080 f 24 (by norm_num) (by norm_num; omega)
  rw [h]; omega

/-- C19: for every state and every instruction word with 24-bit offset field
`f` and link bit L, `execute_branch_instruction` sets `PC` to
`(PC + 8 + 4 * signed24 f) mod 2^32`; when L = 1 it sets `LR` to the old
`PC + 4` (taken modulo `2^32`, hence exactly `PC + 4` unless that exceeds 32
bits); when L = 0 it leaves `LR` unchanged; no other register changes, nor do
`cpsr` and memory. -/
theorem execute_branch_spec (s : arm_state) (iw : Nat) :
    (((execute_branch_instruction s iw).regs PC : Nat) : Int) =
      ((s.regs PC : Int) + 8 + 4 * signed24 (iw &&& 0xFFFFFF)) % 4294967296 ∧
    ((iw >>> 24) &&& 0b1 = 1 →
      (execute_branch_instruction s iw).regs LR = (s.regs PC + 4) % 4294967296) ∧
    ((iw >>> 24) &&& 0b1 = 1 → s.regs PC + 4 < 4294967296 →
      (execute_branch_instruction s iw).regs LR = s.regs PC + 4) ∧
    ((iw >>> 24) &&& 0b1 = 0 → (execute_branch_instruction s iw).regs LR = s.regs LR) ∧
    (∀ r, r ≠ PC → r ≠ LR → (execute_branch_instruction s iw).regs r = s.regs r) ∧
    (execute_branch_instruction s iw).cpsr = s.cpsr ∧
    (execute_branch_instruction s iw).mem = s.mem := by
  have hf : iw &&& 0xFFFFFF = iw % 16777216 := by
    simpa using Nat.and_pow_two_sub_one_eq_mod iw 24
  have hb : (iw >>> 23) &&& 0b1 = iw / 8388608 % 2 := by
    rw [Nat.and_one_is_mod, Nat.shiftRight_eq_div_pow]
  have hlrpc : LR ≠ PC := by decide
  have hpclr : PC ≠ LR := by decide
  refine ⟨?_, ?_, ?_, ?_, ?_, rfl, rfl⟩
  · have hpc : (execute_branch_instruction s iw).regs PC =
        (s.regs PC + (((if (iw >>> 23) &&& 0b1 = 0 then (iw &&& 0xFFFFFF) ||| 0x00000000
          else (iw &&& 0xFFFFFF) ||| 0xFF000000) <<< 2) % 4294967296 + 8)) % 4294967296 := by
      unfold execute_branch_instruction
      simp only [Function.update_same]
      split_ifs <;> simp [Function.update_noteq hpclr]
    rw [hpc, hf, hb]
    unfold signed24
    have hlt : iw % 16777216 < 16777216 := Nat.mod_lt _ (by norm_num)
    by_cases h0 : iw / 8388608 % 2 = 0
    · rw [if_pos h0, Nat.or_zero, Nat.shiftLeft_eq]
      have hsmall : iw % 16777216 < 8388608 := by omega
      rw [if_pos hsmall]
      push_cast
      omega
    · rw [if_neg h0, or_high_byte _ hlt, Nat.shiftLeft_eq]
      have hbig : ¬ iw % 16777216 < 8388608 := by omega
      rw [if_neg hbig]
      push_cast
      omega
  · intro h
    unfold execute_branch_instruction
    simp [h, Function.update_noteq hlrpc]
  · intro h hlt
    unfold execute_branch_instruction
    simp [h, Function.update_noteq hlrpc]
    exact hlt
  · intro h
    unfold execute_branch_instruction
    simp [h, Function.update_noteq hlrpc]
  · intro r hr1 hr2
    unfold execute_branch_instruction
    simp only
    rw [Function.update_noteq hr1]
    split_ifs
    · rw [Function.update_noteq hr2]
    · rfl

/-- Witness for C19: `bl` with offset field `0xFFFFFE` (that is, -2) at
`PC = 0x1000` branches to `0x1000` and sets `LR = 0x1004`. -/
theorem execute_branch_spec_witness :
    (execute_branch_instruction flag_state 0xEBFFFFFE).regs PC = 0x1000 ∧
    (execute_branch_instruction flag_state 0xEBFFFFFE).regs LR = 0x1004 := by
  have h := execute_branch_spec flag_state 0xEBFFFFFE
  refine ⟨?_, (h.2.2.1 (by decide) (by decide)).trans (by decide)⟩
  have h1 := h.1
  have e : ((flag_state.regs PC : Int) + 8 + 4 * signed24 (0xEBFFFFFE &&& 0xFFFFFF)) % 4294967296
      = 0x1000 := by decide
  rw [e] at h1
  exact_mod_cast h1

/-- The base register after a single data transfer, for `rn` different from
`rd` and from `PC`: with `W = 1` and `P = 0` it is the old base plus the offset
for either value of `U`; otherwise it is unchanged. -/
theorem data_transfer_base (s : arm_state) (iw : Nat)
    (hrd : (iw >>> 16) &&& 0xF ≠ (iw >>> 12) &&& 0xF) (hpc : (iw >>> 16) &&& 0xF ≠ PC) :
    (execute_data_transfer_instruction s iw).regs ((iw >>> 16) &&& 0xF) =
      if (iw >>> 21) &&& 0b1 = 1 ∧ (iw >>> 24) &&& 0b1 = 0 then
        (s.regs ((iw >>> 16) &&& 0xF) +
          (if (iw >>> 25) &&& 0b1 = 1 then
            (s.regs (iw &&& 0xF) <<< ((iw >>> 7) &&& 0b11111)) % 4294967296
          else iw &&& 0xFFF)) % 4294967296
      else s.regs ((iw >>> 16) &&& 0xF) := by
  unfold execute_data_transfer_instruction
  generalize (iw >>> 16) &&& 0xF = rn at *
  generalize (iw >>> 12) &&& 0xF = rd at *
  simp only []
  rw [Function.update_noteq hpc]
  by_cases hw : (iw >>> 21) &&& 0b1 = 1
  · by_cases hp : (iw >>> 24) &&& 0b1 = 0
    · simp [hw, hp]
    · simp [hw, hp]
  · simp only [hw, if_false, false_and]
    split_ifs <;> simp [Function.update_noteq hrd]

/-- C22 at the failing input: `str r0, [r1], #-4` with write-back (word
`0xE4210004`: `P = 0`, `U = 0`, `W = 1`, `rn = 1`, `rd = 0`, offset 4) on a
state with `r1 = 0x2000`.  The base register should become
`0x2000 - 4 = 0x1FFC`; both branches of the direction test add the offset, so
it becomes `0x2004`, the same value as for `U = 1` (word `0xE4A10004`). -/
theorem post_index_down_adds :
    dt_state.regs 1 = 0x2000 ∧
      (execute_data_transfer_instruction dt_state 0xE4210004).regs 1 = 0x2004 ∧
      (execute_data_transfer_instruction dt_state 0xE4A10004).regs 1 = 0x2004 ∧
      (execute_data_transfer_instruction dt_state 0xE4310004).regs 1 = 0x2004 := by
  decide

/-- The word transferred by a single data transfer is the one at the address in
the base register, whatever the offset and the bits `P` and `U`: a word load
puts it in `rd`, a word store overwrites it with `rd`. -/
theorem data_transfer_address (s : arm_state) (iw : Nat)
    (hb : (iw >>> 22) &&& 0b1 = 0) :
    ((iw >>> 20) &&& 0b1 = 1 → (iw >>> 12) &&& 0xF ≠ PC →
      ((iw >>> 21) &&& 0b1 = 1 → (iw >>> 16) &&& 0xF ≠ (iw >>> 12) &&& 0xF) →
      (execute_data_transfer_instruction s iw).regs ((iw >>> 12) &&& 0xF) =
        read32 s.mem (s.regs ((iw >>> 16) &&& 0xF))) ∧
    ((iw >>> 20) &&& 0b1 = 0 →
      (execute_data_transfer_instruction s iw).mem =
        write32 s.mem (s.regs ((iw >>> 16) &&& 0xF)) (s.regs ((iw >>> 12) &&& 0xF))) := by
  unfold execute_data_transfer_instruction
  generalize (iw >>> 16) &&& 0xF = rn at *
  generalize (iw >>> 12) &&& 0xF = rd at *
  generalize (iw >>> 22) &&& 0b1 = b at *
  generalize (iw >>> 20) &&& 0b1 = l at *
  generalize (iw >>> 21) &&& 0b1 = w at *
  generalize (iw >>> 24) &&& 0b1 = p at *
  generalize (iw >>> 23) &&& 0b1 = u at *
  subst hb
  refine ⟨fun hl hpc hw => ?_, fun hl => ?_⟩
  · subst hl
    simp only [if_neg (show ¬ (0 : Nat) = 1 by decide), if_true]
    rw [Function.update_noteq hpc]
    by_cases hw1 : w = 1
    · simp [hw1, Function.update_noteq (Ne.symm (hw hw1))]
    · simp [hw1]
  · subst hl
    simp only [if_neg (show ¬ (0 : Nat) = 1 by decide)]
    split_ifs <;> rfl

/-- C23 at the failing input: `ldr r0, [r1, #4]` (word `0xE5910004`: `P = 1`,
`U = 1`, `L = 1`, `rn = 1`, `rd = 0`, offset 4) and `str r0, [r1, #4]` (word
`0xE5810004`) on a state with `r1 = 0x2000`, the word `0x11111111` at `0x2000`
and `0x22222222` at `0x2004`.  The access should be at `0x2004`; the load
returns the word at `0x2000` and the store overwrites the word at `0x2000`,
leaving `0x2004` as it was. -/
theorem pre_index_offset_ignored :
    read32 dt_state.mem 0x2000 = 0x11111111 ∧ read32 dt_state.mem 0x2004 = 0x22222222 ∧
      (execute_data_transfer_instruction dt_state 0xE5910004).regs 0 = 0x11111111 ∧
      read32 (execute_data_transfer_instruction dt_state 0xE5810004).mem 0x2000 = 0xAAAA ∧
      read32 (execute_data_transfer_instruction dt_state 0xE5810004).mem 0x2004 = 0x22222222 ∧
      (execute_data_transfer_instruction dt_state 0xE5110004).regs 0 = 0x11111111 := by
  decide

theorem mask_count_le (rl : Nat) : ∀ n, mask_count rl n ≤ n := by
  intro n
  induction n with
  | zero => exact Nat.le_refl 0
  | succ n ih =>
    rw [mask_count]
    split_ifs <;> omega

theorem mask_count_mono (rl : Nat) (i : Nat) : ∀ n, i ≤ n → mask_count rl i ≤ mask_count rl n := by
  intro n
  induction n with
  | zero => intro h; rw [Nat.le_zero.mp h]
  | succ n ih =>
    intro h
    rcases Nat.eq_or_lt_of_le h with h1 | h1
    · rw [h1]
    · have := ih (by omega)
      rw [mask_count]
      omega

theorem mask_count_succ_set (rl n : Nat) (h : (rl >>> n) &&& 0b1 = 0b1) :
    mask_count rl (n + 1) = mask_count rl n + 1 := by
  rw [mask_count, if_pos h]

theorem mask_count_succ_clear (rl n : Nat) (h : ¬ (rl >>> n) &&& 0b1 = 0b1) :
    mask_count rl (n + 1) = mask_count rl n := by
  rw [mask_count, if_neg h, Nat.add_zero]

theorem mask_count_eq_card (rl : Nat) :
    ∀ n, mask_count rl n =
      ((Finset.range n).filter (fun j => (rl >>> j) &&& 0b1 = 0b1)).card := by
  intro n
  induction n with
  | zero => rfl
  | succ n ih =>
    rw [Finset.range_succ, Finset.filter_insert]
    by_cases h : (rl >>> n) &&& 0b1 = 0b1
    · rw [if_pos h, Finset.card_insert_of_not_mem (by simp), mask_count_succ_set rl n h, ih]
    · rw [if_neg h, mask_count_succ_clear rl n h, ih]

theorem popcount_eq_mask_count (rl : Nat) : popcount rl = mask_count rl 16 :=
  (mask_count_eq_card rl 16).symm

theorem card_from_eq (rl i : Nat) :
    ∀ n, i ≤ n →
      ((Finset.range n).filter (fun j => i ≤ j ∧ (rl >>> j) &&& 0b1 = 0b1)).card =
        mask_count rl n - mask_count rl i := by
  intro n hn
  induction n, hn using Nat.le_induction with
  | base =>
    rw [Nat.sub_self, Finset.card_eq_zero, Finset.filter_eq_empty_iff]
    intro j hj hc
    exact absurd (Finset.mem_range.mp hj) (by omega)
  | succ n hn ih =>
    have hm := mask_count_mono rl i n hn
    rw [Finset.range_succ, Finset.filter_insert]
    by_cases h : (rl >>> n) &&& 0b1 = 0b1
    · rw [if_pos ⟨hn, h⟩, Finset.card_insert_of_not_mem (by simp), mask_count_succ_set rl n h, ih]
      omega
    · rw [if_neg (fun hc => h hc.2), mask_count_succ_clear rl n h, ih]

theorem count_from_eq (rl i : Nat) (hi : i ≤ 16) :
    count_from rl i = mask_count rl 16 - mask_count rl i :=
  card_from_eq rl i 16 hi

/-- A step of the loop of `execute_push` moves `modified_base_value` once for a
selected register, before or after the store. -/
theorem push_body_base (rl rn w u p i : Nat) (acc : Nat × arm_state) (hp : p = 0 ∨ p = 1)
    (hb : (rl >>> i) &&& 0b1 = 0b1) :
    (push_body rl rn w u p i acc).1 = adjust_base u acc.1 := by
  unfold push_body
  rw [if_pos hb]
  rcases hp with h | h <;> subst h <;> simp

theorem push_body_regs_of_ne (rl rn w u p i : Nat) (acc : Nat × arm_state) (r : Nat)
    (hr : r ≠ rn) : (push_body rl rn w u p i acc).2.regs r = acc.2.regs r := by
  unfold push_body
  split_ifs <;> simp [Function.update_noteq hr]

theorem push_body_regs_base (rl rn u p i : Nat) (acc : Nat × arm_state)
    (hb : (rl >>> i) &&& 0b1 = 0b1) :
    (push_body rl rn 1 u p i acc).2.regs rn = (push_body rl rn 1 u p i acc).1 := by
  unfold push_body
  rw [if_pos hb]
  simp

theorem push_body_regs_keep (rl rn w u p i : Nat) (acc : Nat × arm_state) (hw : w ≠ 1) :
    (push_body rl rn w u p i acc).2.regs = acc.2.regs := by
  unfold push_body
  split_ifs <;> rfl

theorem push_body_mem_pre (rl rn w u i : Nat) (acc : Nat × arm_state)
    (hb : (rl >>> i) &&& 0b1 = 0b1) :
    (push_body rl rn w u 1 i acc).2.mem =
      write32 acc.2.mem (adjust_base u acc.1) (acc.2.regs i) := by
  unfold push_body
  rw [if_pos hb]
  simp only [if_true, if_neg (show ¬ (1 : Nat) = 0 by decide)]
  split_ifs <;> rfl

theorem push_loop_regs_of_ne (rl rn w u p : Nat) (r : Nat) (hr : r ≠ rn) :
    ∀ (n : Nat) (acc : Nat × arm_state),
      (push_loop rl rn w u p n acc).2.regs r = acc.2.regs r := by
  intro n
  induction n with
  | zero => intro acc; rfl
  | succ n ih =>
    intro acc
    rw [push_loop, ih, push_body_regs_of_ne _ _ _ _ _ _ _ _ hr]

theorem push_loop_regs_keep (rl rn w u p : Nat) (hw : w ≠ 1) :
    ∀ (n : Nat) (acc : Nat × arm_state),
      (push_loop rl rn w u p n acc).2.regs = acc.2.regs := by
  intro n
  induction n with
  | zero => intro acc; rfl
  | succ n ih =>
    intro acc
    rw [push_loop, ih, push_body_regs_keep _ _ _ _ _ _ _ hw]

theorem push_loop_regs_base (rl rn u p : Nat) :
    ∀ (n : Nat) (acc : Nat × arm_state), acc.2.regs rn = acc.1 →
      (push_loop rl rn 1 u p n acc).2.regs rn = (push_loop rl rn 1 u p n acc).1 := by
  intro n
  induction n with
  | zero => intro acc h; exact h
  | succ n ih =>
    intro acc h
    rw [push_loop]
    apply ih
    by_cases hbit : (rl >>> n) &&& 0b1 = 0b1
    · exact push_body_regs_base rl rn u p n acc hbit
    · rw [push_body_clear _ _ _ _ _ _ _ hbit]
      exact h

theorem push_loop_base_up (rl rn w p : Nat) (hp : p = 0 ∨ p = 1) :
    ∀ (n : Nat) (acc : Nat × arm_state), acc.1 < 4294967296 →
      (push_loop rl rn w 1 p n acc).1 = (acc.1 + 4 * mask_count rl n) % 4294967296 := by
  intro n
  induction n with
  | zero => intro acc h; exact (Nat.mod_eq_of_lt h).symm
  | succ n ih =>
    intro acc h
    rw [push_loop]
    by_cases hbit : (rl >>> n) &&& 0b1 = 0b1
    · have hb := push_body_base rl rn w 1 p n acc hp hbit
      rw [adjust_base_up] at hb
      rw [ih _ (by rw [hb]; exact Nat.mod_lt _ (by norm_num)), hb, mask_count_succ_set rl n hbit]
      omega
    · rw [push_body_clear _ _ _ _ _ _ _ hbit, ih acc h, mask_count_succ_clear rl n hbit]

theorem push_loop_base_down (rl rn w p : Nat) (hp : p = 0 ∨ p = 1) :
    ∀ (n : Nat) (acc : Nat × arm_state), acc.1 < 4294967296 →
      (push_loop rl rn w 0 p n acc).1 =
        (acc.1 + 4294967292 * mask_count rl n) % 4294967296 := by
  intro n
  induction n with
  | zero => intro acc h; exact (Nat.mod_eq_of_lt h).symm
  | succ n ih =>
    intro acc h
    rw [push_loop]
    by_cases hbit : (rl >>> n) &&& 0b1 = 0b1
    · have hb := push_body_base rl rn w 0 p n acc hp hbit
      rw [adjust_base_down] at hb
      rw [ih _ (by rw [hb]; exact Nat.mod_lt _ (by norm_num)), hb, mask_count_succ_set rl n hbit]
      omega
    · rw [push_body_clear _ _ _ _ _ _ _ hbit, ih acc h, mask_count_succ_clear rl n hbit]

theorem and_one_cases (x : Nat) : x &&& 0b1 = 0 ∨ x &&& 0b1 = 1 := by
  have h := Nat.and_one_is_mod x
  have h2 : x &&& 0b1 = x % 2 := h
  omega

/-- C24: for every state and instruction word whose base register `rn` is not
`PC` and holds a 32-bit value `base`, `execute_push` leaves `regs[rn]`
unchanged when `W = 0`; when `W = 1` it leaves
`(base + 4 * popcount(mask)) mod 2^32` there for `U = 1` and
`(base - 4 * popcount(mask)) mod 2^32` for `U = 0`; in every case `PC` becomes
`(PC + 4) mod 2^32`. -/
theorem execute_push_writeback (s : arm_state) (iw : Nat)
    (hrn : (iw >>> 16) &&& 0xF ≠ PC)
    (hbase : s.regs ((iw >>> 16) &&& 0xF) < 4294967296) :
    ((iw >>> 21) &&& 0b1 = 0 →
        (execute_push s iw).regs ((iw >>> 16) &&& 0xF) = s.regs ((iw >>> 16) &&& 0xF)) ∧
      ((iw >>> 21) &&& 0b1 = 1 → (iw >>> 23) &&& 0b1 = 1 →
        (execute_push s iw).regs ((iw >>> 16) &&& 0xF) =
          (s.regs ((iw >>> 16) &&& 0xF) + 4 * popcount (iw &&& 0xFFFF)) % 4294967296) ∧
      ((iw >>> 21) &&& 0b1 = 1 → (iw >>> 23) &&& 0b1 = 0 →
        ((execute_push s iw).regs ((iw >>> 16) &&& 0xF) : Int) =
          ((s.regs ((iw >>> 16) &&& 0xF) : Int) - 4 * (popcount (iw &&& 0xFFFF) : Int)) %
            4294967296) ∧
      (execute_push s iw).regs PC = (s.regs PC + 4) % 4294967296 := by
  have hp := and_one_cases (iw >>> 24)
  have hc := mask_count_le (iw &&& 0xFFFF) 16
  rw [popcount_eq_mask_count]
  unfold execute_push
  generalize (iw >>> 16) &&& 0xF = rn at *
  generalize (iw >>> 24) &&& 0b1 = p at *
  generalize (iw >>> 21) &&& 0b1 = w at *
  generalize (iw >>> 23) &&& 0b1 = u at *
  generalize iw &&& 0xFFFF = rl at *
  simp only [MAX_REGS]
  refine ⟨fun hw => ?_, fun hw hu => ?_, fun hw hu => ?_, ?_⟩
  · rw [Function.update_noteq hrn, push_loop_regs_keep rl rn w u p (by omega)]
  · subst hw; subst hu
    rw [Function.update_noteq hrn, push_loop_regs_base rl rn 1 p 16 _ rfl,
      push_loop_base_up rl rn 1 p hp 16 _ hbase]
  · subst hw; subst hu
    rw [Function.update_noteq hrn, push_loop_regs_base rl rn 0 p 16 _ rfl,
      push_loop_base_down rl rn 1 p hp 16 _ hbase]
    generalize mask_count rl 16 = c at *
    generalize s.regs rn = b at *
    show (((b + 4294967292 * c) % 4294967296 : Nat) : Int) = _
    omega
  · rw [Function.update_same, push_loop_regs_of_ne rl rn w u p PC (Ne.symm hrn)]

/-- C24 at `stmdb sp!, {r0, r2, r4}` (word `0xE92D0015`: `W = 1`, `U = 0`, three
registers selected) with `SP = 0x2000`: the base register ends at `0x1FF4`. -/
theorem execute_push_writeback_witness :
    (0xE92D0015 >>> 16) &&& 0xF ≠ PC ∧ rt_state.regs ((0xE92D0015 >>> 16) &&& 0xF) = 0x2000 ∧
      popcount (0xE92D0015 &&& 0xFFFF) = 3 ∧
      ((execute_push rt_state 0xE92D0015).regs ((0xE92D0015 >>> 16) &&& 0xF) : Int) =
        ((rt_state.regs ((0xE92D0015 >>> 16) &&& 0xF) : Int) -
          4 * (popcount (0xE92D0015 &&& 0xFFFF) : Int)) % 4294967296 :=
  ⟨by decide, by decide, by decide,
    (execute_push_writeback rt_state 0xE92D0015 (by decide) (by decide)).2.2.1
      (by decide) (by decide)⟩

/-- In the pre-decrement mode the push loop leaves every byte outside the
`4 * mask_count` bytes below the starting base as it was. -/
theorem push_loop_bytes_outside (rl rn w : Nat) :
    ∀ (n : Nat) (acc : Nat × arm_state) (a : Nat), n ≤ 16 → acc.1 < 4294967296 →
      a < 4294967296 →
      ((acc.1 + 4294967296 - a) % 4294967296 = 0 ∨
        4 * mask_count rl n < (acc.1 + 4294967296 - a) % 4294967296) →
      (push_loop rl rn w 0 1 n acc).2.mem a = acc.2.mem a := by
  intro n
  induction n with
  | zero => intro acc a _ _ _ _; rfl
  | succ n ih =>
    intro acc a hn hb ha hx
    rw [push_loop]
    by_cases hbit : (rl >>> n) &&& 0b1 = 0b1
    · have h1 := push_body_base rl rn w 0 1 n acc (Or.inr rfl) hbit
      have h2 := push_body_mem_pre rl rn w 0 n acc hbit
      rw [adjust_base_down] at h1 h2
      have hc := mask_count_le rl n
      rw [mask_count_succ_set rl n hbit] at hx
      generalize mask_count rl n = c at hx hc ih
      generalize push_body rl rn w 0 1 n acc = acc1 at h1 h2 ⊢
      rw [ih acc1 a (by omega) (by omega) ha (by omega), h2]
      apply write32_apply_of_ne <;> omega
    · rw [push_body_clear _ _ _ _ _ _ _ hbit]
      rw [mask_count_succ_clear rl n hbit] at hx
      exact ih acc a (by omega) hb ha hx

/-- In the pre-decrement mode the push loop leaves the word at the starting
base as it was. -/
theorem push_loop_word_at_base (rl rn w : Nat) (n : Nat) (acc : Nat × arm_state)
    (hn : n ≤ 16) (hb : acc.1 < 4294967296) :
    read32 (push_loop rl rn w 0 1 n acc).2.mem acc.1 = read32 acc.2.mem acc.1 := by
  have hc := mask_count_le rl n
  unfold read32
  rw [push_loop_bytes_outside rl rn w n acc _ hn hb (Nat.mod_lt _ (by norm_num))
      (Or.inl (by omega)),
    push_loop_bytes_outside rl rn w n acc _ hn hb (Nat.mod_lt _ (by norm_num))
      (Or.inr (by omega)),
    push_loop_bytes_outside rl rn w n acc _ hn hb (Nat.mod_lt _ (by norm_num))
      (Or.inr (by omega)),
    push_loop_bytes_outside rl rn w n acc _ hn hb (Nat.mod_lt _ (by norm_num))
      (Or.inr (by omega))]

/-- In the pre-decrement mode the push loop stores each selected register other
than the base register below the starting base, at a distance of four bytes
per selected register with the same or a higher index. -/
theorem push_loop_stored (rl rn w : Nat) :
    ∀ (n : Nat) (acc : Nat × arm_state) (i : Nat), n ≤ 16 → acc.1 < 4294967296 → i < n →
      (rl >>> i) &&& 0b1 = 0b1 → i ≠ rn → acc.2.regs i < 4294967296 →
      read32 (push_loop rl rn w 0 1 n acc).2.mem
          ((acc.1 + 4294967296 - 4 * (mask_count rl n - mask_count rl i)) % 4294967296) =
        acc.2.regs i := by
  intro n
  induction n with
  | zero => intro acc i _ _ hi; exact absurd hi (Nat.not_lt_zero i)
  | succ n ih =>
    intro acc i hn hb hi hsel hne hv
    rw [push_loop]
    by_cases hbit : (rl >>> n) &&& 0b1 = 0b1
    · have h1 := push_body_base rl rn w 0 1 n acc (Or.inr rfl) hbit
      have h2 := push_body_mem_pre rl rn w 0 n acc hbit
      have h3 := push_body_regs_of_ne rl rn w 0 1 n acc i hne
      rw [adjust_base_down] at h1 h2
      rw [mask_count_succ_set rl n hbit]
      generalize push_body rl rn w 0 1 n acc = acc1 at h1 h2 h3 ⊢
      have hd : acc1.1 < 4294967296 := by omega
      rcases Nat.lt_or_ge i n with hlt | hge
      · have hm := mask_count_mono rl i n (Nat.le_of_lt hlt)
        have hc := mask_count_le rl n
        have haddr : (acc.1 + 4294967296 - 4 * (mask_count rl n + 1 - mask_count rl i)) %
            4294967296 =
            (acc1.1 + 4294967296 - 4 * (mask_count rl n - mask_count rl i)) % 4294967296 := by
          omega
        rw [haddr, ← h3]
        exact ih acc1 i (Nat.le_of_succ_le hn) hd hlt hsel hne (by rw [h3]; exact hv)
      · have hin : i = n := Nat.le_antisymm (Nat.le_of_lt_succ hi) hge
        subst hin
        have haddr : (acc.1 + 4294967296 - 4 * (mask_count rl i + 1 - mask_count rl i)) %
            4294967296 = acc1.1 := by
          omega
        rw [haddr, push_loop_word_at_base rl rn w i acc1 (Nat.le_of_succ_le hn) hd, h2, ← h1]
        exact read32_write32_same _ _ _ hv
    · rw [push_body_clear _ _ _ _ _ _ _ hbit, mask_count_succ_clear rl n hbit]
      have hlt : i < n := by
        rcases Nat.lt_or_ge i n with hlt | hge
        · exact hlt
        · have hin : i = n := Nat.le_antisymm (Nat.le_of_lt_succ hi) hge
          rw [hin] at hsel
          exact absurd hsel hbit
      exact ih acc i (Nat.le_of_succ_le hn) hb hlt hsel hne hv

/-- A selected register is stored below every selected register of higher
index: the count that fixes its distance from the base is larger. -/
theorem count_from_lt (rl i j : Nat) (hij : i < j) (hj : j ≤ 16)
    (hsel : (rl >>> i) &&& 0b1 = 0b1) : count_from rl j < count_from rl i := by
  rw [count_from_eq rl i (by omega), count_from_eq rl j hj]
  have h1 := mask_count_succ_set rl i hsel
  have h2 := mask_count_mono rl (i + 1) j hij
  have h3 := mask_count_mono rl j 16 hj
  omega

/-- C25: for every state with 32-bit registers and every instruction word with
`P = 1`, `U = 0` whose mask does not select the base register `rn`, after
`execute_push` each selected register `i` is stored in the word at address
`(base - 4 * |{ j in mask : j >= i }|) mod 2^32`, where `base` is the old value
of `regs[rn]`, and every byte outside the `4 * popcount(mask)` bytes below
`base` is unchanged. -/
theorem execute_push_layout (s : arm_state) (iw : Nat)
    (hp : (iw >>> 24) &&& 0b1 = 1) (hu : (iw >>> 23) &&& 0b1 = 0)
    (hmask : ¬ ((iw &&& 0xFFFF) >>> ((iw >>> 16) &&& 0xF)) &&& 0b1 = 0b1)
    (hwf : ∀ r, s.regs r < 4294967296) :
    (∀ i, i < 16 → ((iw &&& 0xFFFF) >>> i) &&& 0b1 = 0b1 →
        read32 (execute_push s iw).mem
            ((s.regs ((iw >>> 16) &&& 0xF) + 4294967296 - 4 * count_from (iw &&& 0xFFFF) i) %
              4294967296) =
          s.regs i) ∧
      (∀ a, a < 4294967296 →
        ((s.regs ((iw >>> 16) &&& 0xF) + 4294967296 - a) % 4294967296 = 0 ∨
          4 * popcount (iw &&& 0xFFFF) <
            (s.regs ((iw >>> 16) &&& 0xF) + 4294967296 - a) % 4294967296) →
        (execute_push s iw).mem a = s.mem a) := by
  rw [popcount_eq_mask_count]
  unfold execute_push
  generalize (iw >>> 16) &&& 0xF = rn at *
  generalize (iw >>> 24) &&& 0b1 = p at *
  generalize (iw >>> 21) &&& 0b1 = w at *
  generalize (iw >>> 23) &&& 0b1 = u at *
  generalize iw &&& 0xFFFF = rl at *
  subst hp; subst hu
  simp only [MAX_REGS]
  refine ⟨fun i hi hsel => ?_, fun a ha hx => ?_⟩
  · rw [count_from_eq rl i (Nat.le_of_lt hi)]
    have hne : i ≠ rn := fun h => hmask (h ▸ hsel)
    exact push_loop_stored rl rn w 16 (s.regs rn, s) i (Nat.le_refl 16) (hwf rn) hi hsel hne
      (hwf i)
  · exact push_loop_bytes_outside rl rn w 16 (s.regs rn, s) a (Nat.le_refl 16) (hwf rn) ha hx

/-- C25 at `stmdb sp!, {r0, r2, r4}` (word `0xE92D0015`) with `SP = 0x2000`:
`r2`, the second highest of the three selected registers, is stored at
`0x2000 - 8`. -/
theorem execute_push_layout_witness :
    (0xE92D0015 >>> 24) &&& 0b1 = 1 ∧ (0xE92D0015 >>> 23) &&& 0b1 = 0 ∧
      (0xE92D0015 >>> 16) &&& 0xF = 13 ∧ count_from (0xE92D0015 &&& 0xFFFF) 2 = 2 ∧
      rt_state.regs 13 = 0x2000 ∧ rt_state.regs 2 = 102 ∧
      read32 (execute_push rt_state 0xE92D0015).mem
          ((rt_state.regs ((0xE92D0015 >>> 16) &&& 0xF) + 4294967296 -
            4 * count_from (0xE92D0015 &&& 0xFFFF) 2) % 4294967296) =
        rt_state.regs 2 :=
  ⟨by decide, by decide, by decide, by decide, by decide, by decide,
    (execute_push_layout rt_state 0xE92D0015 (by decide) (by decide) (by decide)
      (fun r => by unfold rt_state; dsimp only; split_ifs <;> omega)).1 2 (by decide) (by decide)⟩

end ARM
